import Mathlib

/-!
# PN532 over HSU (UART) on the ESP32: frame codec and command/response session

A shallow embedding of `src/hsu/src/pn532-hsu.c`.

Conventions of the embedding.

* A `uint8_t` is a `Nat`; every C expression that is narrowed to `uint8_t` goes
  through `u8`.  An `int` result is an `Int`.
* A pointer/length pair `(len, data)` that the code only reads is the list of the
  `len` bytes it designates, so `len1 = data1.length`.
* A destination buffer is `Option (List Nat)`: `none` is the C `NULL`, `some m` is
  the current content of the memory the pointer designates.  Capacities
  (`max1`, `max2`) are non-negative and are a `Nat`.
* The session pointer `p` is non-null: the `if (!p)` guards are not taken.
* The UART driver and the FreeRTOS binary semaphore are collaborators outside
  the repository; they are modelled by `Uart` and by the field `mutex`.
* The global `pn532_packetbuffer` is passed to and returned by the functions
  that use it.  The local array of `pn532_Cards`, which the code does not
  initialise, is a parameter holding its content on entry.
* A loop that need not end (`pn532_ntag2xx_erase`) takes a bound on its
  iterations and answers with a `Run`.
* A `const char *` result is an `Option String`, `none` being the null pointer.
  The `pn532_err_t` argument of `pn532_err_to_name` is an `Int`, negated
  without overflow (the least `int`, where `-e` overflows, is left out).
-/

namespace PN532

/-! ## Machine arithmetic and error codes -/

/-- Narrowing of a C `int` to `uint8_t`. -/
def u8 (x : Int) : Nat := (x % 256).toNat

/-- Element `i` of a byte buffer. -/
def at8 (buf : List Nat) (i : Nat) : Nat := buf.getD i 0

/-- Writing the bytes `src` at the start of the memory `dst`. -/
def store (dst src : List Nat) : List Nat := src ++ dst.drop src.length

-- `pn532_err_t`, from the X-macro `pn532_errs` of `pn532-hsu.h`
def PN532_ERR_OK : Nat := 0
def PN532_ERR_NULL : Nat := 1
def PN532_ERR_NOTPENDING : Nat := 2
def PN532_ERR_CMDPENDING : Nat := 3
def PN532_ERR_CMDMISMATCH : Nat := 4
def PN532_ERR_TIMEOUT : Nat := 5
def PN532_ERR_TIMEOUTACK : Nat := 6
def PN532_ERR_BADACK : Nat := 7
def PN532_ERR_NACK : Nat := 8
def PN532_ERR_HEADER : Nat := 9
def PN532_ERR_SHORT : Nat := 10
def PN532_ERR_SPACE : Nat := 11
def PN532_ERR_CHECKSUM : Nat := 12
def PN532_ERR_POSTAMBLE : Nat := 13
def PN532_ERR_STATUS : Nat := 14

deriving instance DecidableEq for Except

/-! ## The transport -/

/-- State of the UART port of a session.  `rx` is the content of the receive
FIFO, `wire` the bytes the peer delivers next (in time for the reads that
follow), `tx` every byte written so far, oldest first. -/
structure Uart where
  rx : List Nat
  wire : List Nat
  tx : List Nat
deriving DecidableEq, Repr

/-- Bytes a sequence of reads can obtain, in order. -/
def Uart.avail (u : Uart) : List Nat := u.rx ++ u.wire

/-- The port after `n` bytes were taken out of it. -/
def Uart.consume (u : Uart) (n : Nat) : Uart :=
  { u with rx := u.rx.drop n, wire := u.wire.drop (n - u.rx.length) }

/-- Driver call `uart_flush_input`: the receive FIFO is discarded. -/
def uart_flush_input (u : Uart) : Uart := { u with rx := [] }

/-- Driver call `uart_write_bytes`: all of `src` is queued. -/
def uart_write_bytes (u : Uart) (src : List Nat) : Int × Uart :=
  (src.length, { u with tx := u.tx ++ src })

/-- Driver call `uart_read_bytes`: up to `length` bytes; fewer when the peer
delivers no more within the timeout. -/
def uart_read_bytes (u : Uart) (length : Nat) (_ticks : Int) : List Nat × Uart :=
  (u.avail.take length, u.consume length)

/-- Tick period of the FreeRTOS configuration, in milliseconds. -/
def portTICK_PERIOD_MS : Int := 10

/-- The session structure `struct pn532_s`.  `mutex` is `true` while the binary
semaphore is available. -/
structure pn532_s where
  uart : Uart
  pending : Nat
  lasterr : Nat
  cards : Nat
  tg : Nat
  sens_res : Nat
  sel_res : Nat
  nfcid : List Nat
  ats : List Nat
  mutex : Bool
deriving DecidableEq, Repr

/-- `uart_rx`: the bytes read (their number is the C result `l`) and the
session after the read. -/
def uart_rx (p : pn532_s) (length : Nat) (ms : Int) : List Nat × pn532_s :=
  let ms := Int.tdiv ms portTICK_PERIOD_MS
  let ms := if ms < 2 then 2 else ms
  let r := uart_read_bytes p.uart length ms
  (r.1, { p with uart := r.2 })

/-- `uart_tx`: the session after the write (the callers drop the count). -/
def uart_tx (p : pn532_s) (src : List Nat) : pn532_s :=
  { p with uart := (uart_write_bytes p.uart src).2 }

/-- The loop of `uart_preamble` over the bytes its one-byte reads return:
the result `l` and the number of bytes read. -/
def uart_preamble_loop : Nat → List Nat → Int × Nat
  | _, [] => (0, 0)
  | last, c :: cs =>
    if last = 0x00 ∧ c = 0xFF then (2, 1)
    else ((uart_preamble_loop c cs).1, (uart_preamble_loop c cs).2 + 1)

/-- `uart_preamble`: wait for the byte pair 00 FF. -/
def uart_preamble (p : pn532_s) (_ms : Int) : Int × pn532_s :=
  let r := uart_preamble_loop 0xFF p.uart.avail
  (r.1, { p with uart := p.uart.consume r.2 })

/-! ## Sending -/

/-- The length header `pn532_tx_mutex` puts after the start bytes, for
`l = len1 + len2 + 2`. -/
def pn532_tx_len (l : Nat) : List Nat :=
  if l ≥ 0x100 then
    [0xFF, 0xFF, u8 (l >>> 8 : Nat), u8 (l &&& 0xFF : Nat),
      u8 (-((l >>> 8 : Nat) : Int) - ((l &&& 0xFF : Nat) : Int))]
  else
    [u8 l, u8 (-(l : Int))]

/-- The running checksum `sum += data[l]` over a segment. -/
def sum8 (sum : Nat) (data : List Nat) : Nat :=
  data.foldl (fun (s b : Nat) => u8 ((s : Int) + (b : Int))) sum

/-- A fault exit `return -(p->lasterr = e)`. -/
def tx_fault (p : pn532_s) (e : Nat) : Int × pn532_s :=
  (-(e : Int), { p with lasterr := e })

/-- `pn532_tx_mutex`: send a command and check its acknowledgement.
`uart_wait_tx_done` changes nothing in the transport model: written bytes are
in `tx` at once. -/
def pn532_tx_mutex (p : pn532_s) (cmd : Nat) (data1 data2 : List Nat) : Int × pn532_s :=
  if p.pending ≠ 0 then tx_fault p PN532_ERR_CMDPENDING
  else
    let len1 := data1.length
    let len2 := data2.length
    let buf := [0x55, 0x55, 0x55, 0x00, 0x00, 0xFF] ++ pn532_tx_len (len1 + len2 + 2)
      ++ [0xD4, cmd]
    let sum := sum8 (sum8 (u8 (0xD4 + (cmd : Int))) data1) data2
    let p := { p with uart := uart_flush_input p.uart }
    let p := uart_tx p buf
    let p := if len1 ≠ 0 then uart_tx p data1 else p
    let p := if len2 ≠ 0 then uart_tx p data2 else p
    let p := uart_tx p [u8 (-(sum : Int)), 0x00]
    let r := uart_preamble p 50
    if r.1 < 2 then tx_fault r.2 PN532_ERR_TIMEOUTACK
    else
      let a := uart_rx r.2 3 10
      if a.1.length < 3 then tx_fault a.2 PN532_ERR_TIMEOUTACK
      else if at8 a.1 2 ≠ 0 then tx_fault a.2 PN532_ERR_BADACK
      else if at8 a.1 0 = 0xFF ∧ at8 a.1 1 = 0 then tx_fault a.2 PN532_ERR_NACK
      else if at8 a.1 0 ≠ 0 ∨ at8 a.1 1 ≠ 0xFF then tx_fault a.2 PN532_ERR_BADACK
      else ((len1 + len2 : Nat), { a.2 with pending := u8 ((cmd : Int) + 1) })

/-- `xSemaphoreTake(p->mutex, portMAX_DELAY)`: `none` when the semaphore is
not available; the call then waits, without a time limit, for a give that
nothing in a sequential run of the session provides. -/
def xSemaphoreTake (p : pn532_s) : Option pn532_s :=
  if p.mutex then some { p with mutex := false } else none

/-- `xSemaphoreGive(p->mutex)`. -/
def xSemaphoreGive (p : pn532_s) : pn532_s := { p with mutex := true }

/-- `pn532_tx`: `none` when the call blocks on the semaphore. -/
def pn532_tx (p : pn532_s) (cmd : Nat) (data1 data2 : List Nat) : Option (Int × pn532_s) :=
  match xSemaphoreTake p with
  | none => none
  | some p =>
    let r := pn532_tx_mutex p cmd data1 data2
    some (r.1, if r.2.pending = 0 then xSemaphoreGive r.2 else r.2)

/-! ## Receiving -/

/-- Result of a receive: the C result, the session, and the two destination
buffers after the call. -/
structure RxOut where
  ret : Int
  p : pn532_s
  data1 : Option (List Nat)
  data2 : Option (List Nat)
deriving DecidableEq, Repr

/-- A fault exit `return -(p->lasterr = e)` of the receive path. -/
def rx_fault (p : pn532_s) (e : Nat) (data1 data2 : Option (List Nat)) : RxOut :=
  ⟨-(e : Int), { p with lasterr := e }, data1, data2⟩

/-- First part of `pn532_rx_mutex` (preamble, the 4 or 7 header bytes, their
checks): the declared length `len`, or the fault code, with the session at
that point. -/
def pn532_rx_header (p : pn532_s) (pending : Nat) (ms : Int) : Except Nat Nat × pn532_s :=
  let r := uart_preamble p ms
  if r.1 < 2 then (.error PN532_ERR_TIMEOUT, r.2)
  else
    let h := uart_rx r.2 4 10
    if h.1.length < 4 then (.error PN532_ERR_TIMEOUT, h.2)
    else if at8 h.1 0 = 0xFF ∧ at8 h.1 1 = 0xFF then
      let x := uart_rx h.2 3 10
      if x.1.length < 3 then (.error PN532_ERR_TIMEOUT, x.2)
      else
        let buf := h.1 ++ x.1
        if u8 ((at8 buf 2 : Int) + at8 buf 3 + at8 buf 4) ≠ 0 then (.error PN532_ERR_HEADER, x.2)
        else if at8 buf 5 ≠ 0xD5 then (.error PN532_ERR_HEADER, x.2)
        else if at8 buf 6 ≠ pending then (.error PN532_ERR_CMDMISMATCH, x.2)
        else (.ok ((at8 buf 2 <<< 8) + at8 buf 3), x.2)
    else
      if u8 ((at8 h.1 0 : Int) + at8 h.1 1) ≠ 0 then (.error PN532_ERR_HEADER, h.2)
      else if at8 h.1 2 ≠ 0xD5 then (.error PN532_ERR_HEADER, h.2)
      else if at8 h.1 3 ≠ pending then (.error PN532_ERR_CMDMISMATCH, h.2)
      else (.ok (at8 h.1 0), h.2)

/-- State of `pn532_rx_mutex` after one of its two `if (dataN)` blocks: `ok` is
`false` on the short read, `len` and `sum` are the updated locals. -/
structure RxSeg where
  ok : Bool
  p : pn532_s
  data : Option (List Nat)
  len : Nat
  sum : Nat
deriving DecidableEq, Repr

/-- One `if (dataN) { ... }` block of `pn532_rx_mutex`. -/
def pn532_rx_seg (p : pn532_s) (max : Nat) (data : Option (List Nat)) (len sum : Nat) : RxSeg :=
  match data with
  | none => ⟨true, p, none, len, sum⟩
  | some m =>
    let l := if max > len then len else max
    if l ≠ 0 then
      let r := uart_rx p l 10
      let m := store m r.1
      if r.1.length < l then ⟨false, r.2, some m, len, sum⟩
      else ⟨true, r.2, some m, len - l, sum8 sum (m.take l).reverse⟩
    else ⟨true, p, some m, len, sum⟩

/-- `pn532_rx_mutex`: receive one reply frame. -/
def pn532_rx_mutex (p : pn532_s) (max1 : Nat) (data1 : Option (List Nat)) (max2 : Nat)
    (data2 : Option (List Nat)) (ms : Int) : RxOut :=
  let pending := p.pending
  let p := { p with pending := 0 }
  match pn532_rx_header p pending ms with
  | (.error e, p) => rx_fault p e data1 data2
  | (.ok len, p) =>
    if len < 2 then rx_fault p PN532_ERR_HEADER data1 data2
    else
      let len := len - 2
      let res := len
      let sum := u8 (0xD5 + (pending : Int))
      if len > max1 + max2 then rx_fault p PN532_ERR_SPACE data1 data2
      else
        let s1 := pn532_rx_seg p max1 data1 len sum
        if ¬ s1.ok then rx_fault s1.p PN532_ERR_TIMEOUT s1.data data2
        else
          let s2 := pn532_rx_seg s1.p max2 data2 s1.len s1.sum
          if ¬ s2.ok then rx_fault s2.p PN532_ERR_TIMEOUT s1.data s2.data
          else
            let t := uart_rx s2.p 2 10
            if t.1.length < 2 then rx_fault t.2 PN532_ERR_TIMEOUT s1.data s2.data
            else if u8 ((at8 t.1 0 : Int) + s2.sum) ≠ 0 then
              rx_fault t.2 PN532_ERR_CHECKSUM s1.data s2.data
            else if at8 t.1 1 ≠ 0 then rx_fault t.2 PN532_ERR_POSTAMBLE s1.data s2.data
            else ⟨res, t.2, s1.data, s2.data⟩

/-- `pn532_rx`: the public receive. -/
def pn532_rx (p : pn532_s) (max1 : Nat) (data1 : Option (List Nat)) (max2 : Nat)
    (data2 : Option (List Nat)) (ms : Int) : RxOut :=
  if p.pending = 0 then rx_fault p PN532_ERR_NOTPENDING data1 data2
  else
    let r := pn532_rx_mutex p max1 data1 max2 data2 ms
    { r with p := xSemaphoreGive r.p }

/-- A session as `pn532_init` leaves its fields before the first command:
everything zero, the semaphore given. -/
def session (u : Uart) : pn532_s :=
  ⟨u, 0, 0, 0, 0, 0, 0, List.replicate 11 0, List.replicate 30 0, true⟩

/-! ## Reply frames, as the statements below describe them -/

/-- Byte stream of a reply frame as the receive path meets it: preamble 00 FF,
length header, direction byte D5, command id, payload, data checksum,
postamble. -/
def reply_frame (hdr : List Nat) (cmd : Nat) (payload : List Nat) (dcs post : Nat) : List Nat :=
  [0x00, 0xFF] ++ hdr ++ [0xD5, cmd] ++ payload ++ [dcs, post]

/-- A length header is valid for the declared length `len`: the short form
`LEN LCS` or the extended form `FF FF LENhi LENlo LCS`, whose bytes sum to 0
modulo 256. -/
def valid_header (hdr : List Nat) (len : Nat) : Prop :=
  (∃ lcs, hdr = [len, lcs] ∧ (len + lcs) % 256 = 0) ∨
  (∃ hi lo lcs, hdr = [0xFF, 0xFF, hi, lo, lcs] ∧ (hi + lo + lcs) % 256 = 0 ∧
    len = hi * 256 + lo)

/-! ## What a send writes, as the statements below describe it -/

/-- The data checksum of a command frame: the byte `pn532_tx_mutex` computes as
`-sum`. -/
def tx_dcs (cmd : Nat) (data1 data2 : List Nat) : Nat :=
  u8 (-((sum8 (sum8 (u8 (0xD4 + (cmd : Int))) data1) data2 : Nat) : Int))

/-- The bytes of one command frame, in the order of the `uart_tx` calls of
`pn532_tx_mutex`. -/
def tx_frame (cmd : Nat) (data1 data2 : List Nat) : List Nat :=
  [0x55, 0x55, 0x55, 0x00, 0x00, 0xFF] ++ pn532_tx_len (data1.length + data2.length + 2)
    ++ [0xD4, cmd] ++ data1 ++ data2 ++ [tx_dcs cmd data1 data2, 0x00]

/-- The session once `pn532_tx_mutex` has flushed the input and written its
frame, with `rest` still to come from the peer. -/
def tx_sent (p : pn532_s) (cmd : Nat) (data1 data2 rest : List Nat) : pn532_s :=
  { p with uart := ⟨[], rest, p.uart.tx ++ tx_frame cmd data1 data2⟩ }

/-- The number of bytes one `if (dataN)` block of `pn532_rx_mutex` asks for: the
C local `l`, or 0 when the block is skipped. -/
def seg_len (max : Nat) (data : Option (List Nat)) (len : Nat) : Nat :=
  match data with
  | none => 0
  | some _ => if max > len then len else max

/-! ## The card registry and the data exchange -/

/-- `PN532_COMMAND_INDATAEXCHANGE` of `pn532-hsu.h`. -/
def PN532_COMMAND_INDATAEXCHANGE : Nat := 0x40

/-- `MIFARE_ULTRALIGHT_CMD_WRITE` of `pn532-hsu.h`. -/
def MIFARE_ULTRALIGHT_CMD_WRITE : Nat := 0xA2

/-- `MIFARE_CMD_READ` of `pn532-hsu.h`. -/
def MIFARE_CMD_READ : Nat := 0x30

/-- `PN532_PACKBUFFSIZ`, the size of the global `pn532_packetbuffer`. -/
def PN532_PACKBUFFSIZ : Nat := 64

/-- `memcpy(dst + off, src, src.length)` on the memory `dst`. -/
def store_at (dst : List Nat) (off : Nat) (src : List Nat) : List Nat :=
  dst.take off ++ src ++ dst.drop (off + src.length)

/-- `pn532_lasterr` on a non-null session. -/
def pn532_lasterr (p : pn532_s) : Int := p.lasterr

/-- `pn532_ILPT_Send`: the InListPassiveTarget command for up to 2 targets at
106 kbps type A; `none` when the send blocks. -/
def pn532_ILPT_Send (p : pn532_s) : Option (Int × pn532_s) :=
  match pn532_tx p 0x4A [2, 0] [] with
  | none => none
  | some t => some (if t.1 < 0 then t.1 else 0, t.2)

/-- The parse of `pn532_Cards`, from the two `memset` calls on: `buf` is the
local array after the receive and `l` the length `pn532_rx` returned.  The C
pointer `b` is the index `b` into `buf`, the end pointer `e` is `l`. -/
def pn532_Cards_parse (p : pn532_s) (buf : List Nat) (l : Nat) : Int × pn532_s :=
  let p := { p with nfcid := List.replicate 11 0, ats := List.replicate 30 0 }
  let e := l
  if 0 ≥ e then tx_fault p PN532_ERR_SHORT
  else
    let p := { p with cards := at8 buf 0 }
    let b := 1
    if p.cards ≠ 0 then
      if b + 5 > e then tx_fault p PN532_ERR_SPACE
      else
        let p := { p with tg := at8 buf b }
        let b := b + 1
        let p := { p with sens_res := ((at8 buf b <<< 8) + at8 buf (b + 1)) % 65536 }
        let b := b + 2
        let p := { p with sel_res := at8 buf b }
        let b := b + 1
        if b + at8 buf b + 1 > e then tx_fault p PN532_ERR_SHORT
        else
          let p :=
            if at8 buf b < 11 then
              { p with nfcid := store p.nfcid ((buf.drop b).take (at8 buf b + 1)) }
            else { p with nfcid := List.replicate 11 0 }
          let b := b + at8 buf b + 1
          if b < e then
            if at8 buf b = 0 ∨ b + at8 buf b > e then tx_fault p PN532_ERR_SHORT
            else
              let p :=
                if at8 buf b ≤ 30 then
                  let ats := store p.ats ((buf.drop b).take (at8 buf b))
                  { p with ats := ats.set 0 (u8 ((at8 ats 0 : Int) - 1)) }
                else p
              ((p.cards : Int), p)
          else ((p.cards : Int), p)
    else ((p.cards : Int), p)

/-- `pn532_Cards`: `buf` is the content of the local array `buf[100]` on entry
(it is not initialised); `none` when the send blocks. -/
def pn532_Cards (p : pn532_s) (buf : List Nat) : Option (Int × pn532_s) :=
  match (if p.pending = 0 then (pn532_ILPT_Send p).map (fun t => t.2) else some p) with
  | none => none
  | some p =>
    if p.pending ≠ 0x4B then some (tx_fault p PN532_ERR_CMDMISMATCH)
    else
      let r := pn532_rx p 0 none 100 (some buf) 110
      if r.ret < 0 then some (r.ret, r.p)
      else some (pn532_Cards_parse r.p (r.data2.getD buf) r.ret.toNat)

/-- `pn532_Present`: `stack` is the content of the local array of `pn532_Cards`
on entry, should the call reach it. -/
def pn532_Present (p : pn532_s) (stack : List Nat) : Option (Int × pn532_s) :=
  if p.pending = 0 ∧ p.cards ≠ 0 ∧ at8 p.ats 0 ≠ 0 ∧ at8 p.ats 1 = 0x75 then
    match pn532_tx p 0x00 [6] [] with
    | none => none
    | some t =>
      let r : RxOut :=
        if t.1 ≥ 0 then pn532_rx t.2 0 none 1 (some [6]) 110 else ⟨t.1, t.2, none, some [6]⟩
      if r.ret < 0 then some (r.ret, r.p)
      else if r.ret < 1 then some (tx_fault r.p PN532_ERR_SHORT)
      else if at8 (r.data2.getD [6]) 0 = 0 then some ((r.p.cards : Int), r.p)
      else pn532_Cards r.p stack
  else pn532_Cards p stack

/-- Result of `pn532_dx`: the C result, the session, and the caller buffer
`data` after the call. -/
structure DxOut where
  ret : Int
  p : pn532_s
  data : List Nat
deriving DecidableEq, Repr

/-- `pn532_dx` on a non-null session: `data` is the memory of the caller buffer,
of which the first `len` bytes are sent and into which up to `max` reply bytes
are received.  The local `status` is read only after `pn532_rx` returned 1 or
more, that is after the first reply byte was stored in it; its content before
that is taken as 0.  The optional display string `strerr` is left out.  `none`
when the send blocks. -/
def pn532_dx (p : pn532_s) (len : Nat) (data : List Nat) (max : Nat) : Option DxOut :=
  if p.cards = 0 then some ⟨0, p, data⟩
  else
    match pn532_tx p PN532_COMMAND_INDATAEXCHANGE [p.tg] (data.take len) with
    | none => none
    | some t =>
      let r : RxOut :=
        if t.1 ≥ 0 then pn532_rx t.2 1 (some [0]) max (some data) 500
        else ⟨t.1, t.2, some [0], some data⟩
      let status := at8 (r.data1.getD [0]) 0
      let l : Int :=
        if t.1 ≥ 0 then
          if r.ret = 0 then -(PN532_ERR_SHORT : Int)
          else if r.ret ≥ 1 ∧ status ≠ 0 then -(PN532_ERR_STATUS : Int) - status
          else r.ret
        else t.1
      if l < 0 then some ⟨l, { r.p with lasterr := u8 (-l) }, r.data2.getD data⟩
      else some ⟨l - 1, r.p, r.data2.getD data⟩

/-! ## NTAG2xx pages -/

/-- Result of an NTAG2xx page call: the C result, the session, the global
`pn532_packetbuffer` and the caller buffer after the call. -/
structure NtagOut where
  ret : Int
  p : pn532_s
  packetbuffer : List Nat
  buffer : List Nat
deriving DecidableEq, Repr

/-- `pn532_ntag2xx_ReadPage`: `pb` is the global `pn532_packetbuffer`, `buffer`
the memory of the caller buffer. -/
def pn532_ntag2xx_ReadPage (obj : pn532_s) (pb : List Nat) (page : Nat) (buffer : List Nat) :
    Option NtagOut :=
  if page ≥ 231 then some ⟨0, obj, pb, buffer⟩
  else
    let pb := List.replicate PN532_PACKBUFFSIZ 0
    let pb := pb.set 0 MIFARE_CMD_READ
    let pb := pb.set 1 page
    match pn532_dx obj 2 pb 26 with
    | none => none
    | some d =>
      if d.ret < 0 then some ⟨-1, d.p, d.data, buffer⟩
      else some ⟨1, d.p, d.data, store buffer (d.data.take 4)⟩

/-- `pn532_ntag2xx_WritePage`: `pb` is the global `pn532_packetbuffer`, `data`
the memory the caller pointer designates. -/
def pn532_ntag2xx_WritePage (obj : pn532_s) (pb : List Nat) (page : Nat) (data : List Nat) :
    Option NtagOut :=
  if page < 4 ∨ page > 225 then some ⟨0, obj, pb, data⟩
  else
    let pb := List.replicate PN532_PACKBUFFSIZ 0
    let pb := pb.set 0 MIFARE_ULTRALIGHT_CMD_WRITE
    let pb := pb.set 1 page
    let pb := store_at pb 2 (data.take 4)
    match pn532_dx obj 6 pb 26 with
    | none => none
    | some d => some ⟨d.ret, d.p, d.data, data⟩

/-- How a run bounded by a number of loop iterations ends: it returned, it
waits in `xSemaphoreTake`, or the loop is still running when the bound is
reached. -/
inductive Run (α : Type) where
  | done : α → Run α
  | blocked : Run α
  | running : Run α
deriving DecidableEq, Repr

/-- The `for` loop of `pn532_ntag2xx_erase` from the 8-bit counter value `page`
on, at most `fuel` iterations of it.  The bound `ntag_max_page + 1` is computed
in `int`. -/
def pn532_ntag2xx_erase_loop (ntag_max_page : Nat) :
    Nat → Nat → pn532_s → List Nat → Run (pn532_s × List Nat)
  | 0, page, obj, pb => if page < ntag_max_page + 1 then .running else .done (obj, pb)
  | fuel + 1, page, obj, pb =>
    if page < ntag_max_page + 1 then
      match pn532_ntag2xx_WritePage obj pb page [0, 0, 0, 0] with
      | none => .blocked
      | some w => pn532_ntag2xx_erase_loop ntag_max_page fuel (u8 ((page : Int) + 1)) w.p
          w.packetbuffer
    else .done (obj, pb)

/-- `pn532_ntag2xx_erase`, run for at most `fuel` iterations of its loop. -/
def pn532_ntag2xx_erase (fuel : Nat) (obj : pn532_s) (pb : List Nat) (ntag_max_page : Nat) :
    Run (pn532_s × List Nat) :=
  pn532_ntag2xx_erase_loop ntag_max_page fuel 4 obj pb

/-! ## Sessions, as the statements below describe them -/

/-- The session `q` is the one in which `pn532_Cards`, started on `p`, calls
`pn532_rx`: `p` itself when it already awaits the discovery reply 0x4B, or `p`
with nothing pending after its own `pn532_ILPT_Send` left 0x4B pending. -/
def cards_awaits (p q : pn532_s) : Prop :=
  (p.pending = 0x4B ∧ q = p) ∨
  (p.pending = 0 ∧ q.pending = 0x4B ∧ ∃ l, pn532_ILPT_Send p = some (l, q))

/-- The part of a session that is neither the transport nor the last error:
pending id, semaphore and card registry. -/
def core (p : pn532_s) : pn532_s :=
  { p with uart := ⟨[], [], []⟩, lasterr := 0 }

/-- A session with nothing pending and the semaphore available. -/
def idle (p : pn532_s) : Prop := p.pending = 0 ∧ p.mutex = true

/-- One page-write operation after the other for the pages of the list, each
with the all-zero page and whatever the one before returned; `none` when one of
them does not return. -/
def write_pages : List Nat → pn532_s → List Nat → Option (pn532_s × List Nat)
  | [], obj, pb => some (obj, pb)
  | page :: pages, obj, pb =>
    match pn532_ntag2xx_WritePage obj pb page [0, 0, 0, 0] with
    | none => none
    | some w => write_pages pages w.p w.packetbuffer

/-- A session with one card registered, target id 1, whose ATS is the two bytes
75 77; used as a concrete session in the statements below. -/
def session_card (u : Uart) : pn532_s :=
  { session u with
    cards := 1, tg := 1, sens_res := 0x0344, sel_res := 0x20,
    nfcid := [4, 1, 2, 3, 4, 0, 0, 0, 0, 0, 0],
    ats := [2, 0x75, 0x77] ++ List.replicate 27 0 }

/-- The `p(n)` entries of the X-macro `pn532_errs`, in order: entry `i` is the
enumerator `PN532_ERR_n` of value `i` and the table string `"PN532_ERR_" #n`. -/
def pn532_errs_p : List String :=
  ["PN532_ERR_OK", "PN532_ERR_NULL", "PN532_ERR_NOTPENDING", "PN532_ERR_CMDPENDING",
   "PN532_ERR_CMDMISMATCH", "PN532_ERR_TIMEOUT", "PN532_ERR_TIMEOUTACK", "PN532_ERR_BADACK",
   "PN532_ERR_NACK", "PN532_ERR_HEADER", "PN532_ERR_SHORT", "PN532_ERR_SPACE",
   "PN532_ERR_CHECKSUM", "PN532_ERR_POSTAMBLE", "PN532_ERR_STATUS"]

/-- The `s(v, n)` entries of the X-macro `pn532_errs`: the status value `v` and
the table string `"PN532_ERR_STATUS_" #n`, stored at index `PN532_ERR_STATUS + v`. -/
def pn532_errs_s : List (Nat × String) :=
  [(0x01, "PN532_ERR_STATUS_TIMEOUT"), (0x02, "PN532_ERR_STATUS_CRC"),
   (0x03, "PN532_ERR_STATUS_PARITY"), (0x04, "PN532_ERR_STATUS_BITCOUNT"),
   (0x05, "PN532_ERR_STATUS_FRAMING"), (0x06, "PN532_ERR_STATUS_COLLISION"),
   (0x07, "PN532_ERR_STATUS_SPACE"), (0x09, "PN532_ERR_STATUS_OVERFLOW"),
   (0x0A, "PN532_ERR_STATUS_NOFIELD"), (0x0B, "PN532_ERR_STATUS_PROTOCOL"),
   (0x0D, "PN532_ERR_STATUS_TEMPERATURE"), (0x0E, "PN532_ERR_STATUS_INTOVERFLOW"),
   (0x10, "PN532_ERR_STATUS_PARAMETER"), (0x12, "PN532_ERR_STATUS_DEPPROTOCOL"),
   (0x13, "PN532_ERR_STATUS_DEPFORMAT"), (0x14, "PN532_ERR_STATUS_MIFAREAUTH"),
   (0x23, "PN532_ERR_STATUS_UIDCHECK"), (0x25, "PN532_ERR_STATUS_DEPSTATE"),
   (0x26, "PN532_ERR_STATUS_NOTALLOWED"), (0x27, "PN532_ERR_STATUS_NOTACCEPTABLE"),
   (0x29, "PN532_ERR_STATUS_RELEASED"), (0x2A, "PN532_ERR_STATUS_CARDSWAPPED"),
   (0x2B, "PN532_ERR_STATUS_DISAPPEARED"), (0x2C, "PN532_ERR_STATUS_MISMATCHID"),
   (0x2D, "PN532_ERR_STATUS_OVERCURRENT"), (0x2E, "PN532_ERR_STATUS_NADMISSING"),
   (0x2F, "PN532_ERR_STATUS_MAX")]

/-- `PN532_ERR_STATUS_MAX`, the enumerator of `s(0x2F, MAX)`. -/
def PN532_ERR_STATUS_MAX : Nat := PN532_ERR_STATUS + 0x2F

/-- The table `pn532_err_str[PN532_ERR_STATUS_MAX + 1]`: entry `i` is the string
its designated initialiser gives, `none` (a null pointer) where the
initialiser list names no entry. -/
def pn532_err_str (i : Nat) : Option String :=
  if i < pn532_errs_p.length then pn532_errs_p.get? i
  else (pn532_errs_s.find? (fun vn => PN532_ERR_STATUS + vn.1 = i)).map (fun vn => vn.2)

/-- `pn532_err_to_name`: `none` is the null pointer. -/
def pn532_err_to_name (e : Int) : Option String :=
  let e := if e < 0 then -e else e
  if e > (PN532_ERR_STATUS_MAX : Int) then some "PN532_ERR_UNKNOWN"
  else pn532_err_str e.toNat

/-- The session predicate "the semaphore is held exactly when a command is
pending". -/
def mutex_iff_pending (p : pn532_s) : Prop := p.mutex = false ↔ p.pending ≠ 0

/-! # Lemmas and theorems -/

/-! ## Arithmetic -/

theorem u8_natCast (n : Nat) : u8 (n : Int) = n % 256 := by
  unfold u8; omega

theorem u8_neg_natCast (n : Nat) : u8 (-(n : Int)) = (256 - n % 256) % 256 := by
  unfold u8; omega

theorem u8_lt (x : Int) : u8 x < 256 := by
  unfold u8; omega

theorem u8_add_u8 (a : Int) (b : Int) : u8 ((u8 a : Int) + b) = u8 (a + b) := by
  unfold u8; omega

theorem sum8_u8 (a : Int) (data : List Nat) : sum8 (u8 a) data = u8 (a + (data.sum : Nat)) := by
  induction data generalizing a with
  | nil => simp [sum8]
  | cons b bs ih =>
    have h := ih (a + b)
    simp only [sum8, List.foldl_cons, List.sum_cons, Nat.cast_add] at h ⊢
    rw [u8_add_u8, h, add_assoc]

theorem shr8 (l : Nat) : l >>> 8 = l / 256 := by
  rw [Nat.shiftRight_eq_div_pow]

theorem and255 (l : Nat) : l &&& 0xFF = l % 256 := by
  have h := Nat.and_pow_two_sub_one_eq_mod l 8
  norm_num at h
  exact h

theorem pn532_tx_len_short (l : Nat) (h : l < 256) :
    pn532_tx_len l = [l, (256 - l) % 256] := by
  unfold pn532_tx_len
  rw [if_neg (by omega), u8_natCast, u8_neg_natCast, Nat.mod_eq_of_lt h]

theorem pn532_tx_len_ext (l : Nat) (h : 256 ≤ l) :
    pn532_tx_len l = [0xFF, 0xFF, l / 256 % 256, l % 256,
      (256 - (l / 256 + l % 256) % 256) % 256] := by
  unfold pn532_tx_len
  rw [if_pos (by omega), shr8, and255, u8_natCast, u8_natCast]
  have : u8 (-((l / 256 : Nat) : Int) - ((l % 256 : Nat) : Int))
      = (256 - (l / 256 + l % 256) % 256) % 256 := by
    unfold u8; omega
  rw [this]
  simp

/-! ## The transport -/

theorem Uart.avail_consume (u : Uart) (n : Nat) : (u.consume n).avail = u.avail.drop n := by
  simp [Uart.avail, Uart.consume, List.drop_append_eq_append_drop]

theorem Uart.consume_consume (u : Uart) (a b : Nat) :
    (u.consume a).consume b = u.consume (a + b) := by
  have h : a - u.rx.length + (b - (u.rx.length - a)) = a + b - u.rx.length := by omega
  simp [Uart.consume, List.drop_drop, h]

theorem Uart.consume_zero (u : Uart) : u.consume 0 = u := by
  simp [Uart.consume]

theorem Uart.consume_tx (u : Uart) (n : Nat) : (u.consume n).tx = u.tx := rfl

theorem uart_rx_eq (p : pn532_s) (n : Nat) (ms : Int) :
    uart_rx p n ms = (p.uart.avail.take n, { p with uart := p.uart.consume n }) := rfl

theorem uart_preamble_eq (p : pn532_s) (ms : Int) (s : List Nat)
    (hw : p.uart.avail = 0x00 :: 0xFF :: s) :
    uart_preamble p ms = (2, { p with uart := p.uart.consume 2 }) := by
  simp [uart_preamble, hw, uart_preamble_loop]

/-! ## The header of a reply -/

theorem rx_header_short (p : pn532_s) (pending : Nat) (ms : Int) (len lcs : Nat)
    (rest : List Nat)
    (hw : p.uart.avail = 0x00 :: 0xFF :: len :: lcs :: 0xD5 :: pending :: rest)
    (hck : (len + lcs) % 256 = 0) :
    pn532_rx_header p pending ms = (.ok len, { p with uart := p.uart.consume 6 }) := by
  have hff : ¬ (len = 255 ∧ lcs = 255) := by omega
  have hu : u8 ((len : Int) + (lcs : Int)) = 0 := by unfold u8; omega
  simp [pn532_rx_header, uart_preamble_eq p ms _ hw, uart_rx_eq, Uart.avail_consume, hw,
    at8, hff, hu, Uart.consume_consume]

theorem rx_header_ext (p : pn532_s) (pending : Nat) (ms : Int) (hi lo lcs : Nat)
    (rest : List Nat)
    (hw : p.uart.avail
      = 0x00 :: 0xFF :: 0xFF :: 0xFF :: hi :: lo :: lcs :: 0xD5 :: pending :: rest)
    (hck : (hi + lo + lcs) % 256 = 0) :
    pn532_rx_header p pending ms
      = (.ok (hi * 256 + lo), { p with uart := p.uart.consume 9 }) := by
  have hu : u8 ((hi : Int) + (lo : Int) + (lcs : Int)) = 0 := by unfold u8; omega
  simp [pn532_rx_header, uart_preamble_eq p ms _ hw, uart_rx_eq, Uart.avail_consume, hw,
    at8, hu, Uart.consume_consume, Nat.shiftLeft_eq]

/-! ## C1: the length header read back -/

/-- C1 (as amended): for every payload length `n = len1 + len2` with
`0 ≤ n ≤ 65533`, the length header `pn532_tx_mutex` writes for it, followed by a
reply direction byte and the expected command id, passes the header checks of
`pn532_rx_mutex` and yields the declared length `n + 2`, from which the receive
path takes the usable length `n + 2 - 2 = n`. -/
theorem tx_len_read_back (p : pn532_s) (n pending : Nat) (ms : Int) (rest : List Nat)
    (hn : n ≤ 65533)
    (hw : p.uart.avail
      = [0x00, 0xFF] ++ pn532_tx_len (n + 2) ++ [0xD5, pending] ++ rest) :
    pn532_rx_header p pending ms
      = (.ok (n + 2),
          { p with uart := p.uart.consume (4 + (pn532_tx_len (n + 2)).length) }) := by
  by_cases h : n + 2 < 256
  · rw [pn532_tx_len_short _ h] at hw ⊢
    have hck : (n + 2 + (256 - (n + 2)) % 256) % 256 = 0 := by omega
    exact rx_header_short p pending ms _ _ rest (by simpa using hw) hck
  · have h256 : 256 ≤ n + 2 := by omega
    rw [pn532_tx_len_ext _ h256] at hw ⊢
    have hck : ((n + 2) / 256 % 256 + (n + 2) % 256
        + (256 - ((n + 2) / 256 + (n + 2) % 256) % 256) % 256) % 256 = 0 := by omega
    have hlen : (n + 2) / 256 % 256 * 256 + (n + 2) % 256 = n + 2 := by omega
    have := rx_header_ext p pending ms _ _ _ rest (by simpa using hw) hck
    rw [hlen] at this
    exact this

theorem tx_len_read_back_witness :
    pn532_rx_header (session ⟨[], [0x00, 0xFF, 5, 251, 0xD5, 0x4B, 1, 2, 3, 0xDA, 0], []⟩)
        0x4B 110
      = (.ok 5, { session ⟨[], [0x00, 0xFF, 5, 251, 0xD5, 0x4B, 1, 2, 3, 0xDA, 0], []⟩ with
          uart := (Uart.mk [] [0x00, 0xFF, 5, 251, 0xD5, 0x4B, 1, 2, 3, 0xDA, 0] []).consume
            (4 + (pn532_tx_len (3 + 2)).length) }) :=
  tx_len_read_back (session ⟨[], [0x00, 0xFF, 5, 251, 0xD5, 0x4B, 1, 2, 3, 0xDA, 0], []⟩)
    3 0x4B 110 [1, 2, 3, 0xDA, 0] (by decide) (by decide)

/-- C1 fails at `n = 65534`: the declared length `65536` does not fit the two
length bytes, the header written is `FF FF 00 00 00`, it passes the
length-checksum test and is read back as the declared length 0, so the receive
ends in the header fault. -/
theorem tx_len_read_back_fails_at_65534 :
    pn532_tx_len (65534 + 2) = [0xFF, 0xFF, 0, 0, 0] ∧
    (pn532_rx_header
        (session ⟨[], [0x00, 0xFF] ++ pn532_tx_len (65534 + 2) ++ [0xD5, 0x4B], []⟩)
        0x4B 110).1 = .ok 0 ∧
    (pn532_rx_header
        (session ⟨[], [0x00, 0xFF] ++ pn532_tx_len (65534 + 2) ++ [0xD5, 0x4B], []⟩)
        0x4B 110).1 ≠ .ok (65534 + 2) ∧
    (pn532_rx
        { session ⟨[], [0x00, 0xFF] ++ pn532_tx_len (65534 + 2) ++ [0xD5, 0x4B], []⟩ with
          pending := 0x4B, mutex := false }
        0 none 65535 (some []) 110).ret = -(PN532_ERR_HEADER : Int) := by
  refine ⟨by decide, by decide, by decide, by decide⟩

/-! ## What a send writes -/

theorem uart_tx_if (p : pn532_s) (d : List Nat) :
    (if d.length ≠ 0 then uart_tx p d else p) = uart_tx p d := by
  cases d with
  | nil => simp [uart_tx, uart_write_bytes]
  | cons b bs => simp

theorem pn532_tx_mutex_written (p : pn532_s) (cmd : Nat) (data1 data2 : List Nat) :
    uart_tx (uart_tx (uart_tx (uart_tx { p with uart := uart_flush_input p.uart }
        ([0x55, 0x55, 0x55, 0x00, 0x00, 0xFF] ++ pn532_tx_len (data1.length + data2.length + 2)
          ++ [0xD4, cmd])) data1) data2)
        [u8 (-((sum8 (sum8 (u8 (0xD4 + (cmd : Int))) data1) data2 : Nat) : Int)), 0x00]
      = tx_sent p cmd data1 data2 p.uart.wire := by
  simp [uart_tx, uart_write_bytes, uart_flush_input, tx_sent, tx_frame, tx_dcs]

/-- The whole of `pn532_tx_mutex` once the frame is written: the acknowledgement
is found after `k` bytes of the stream and is `b0 b1 b2`. -/
theorem pn532_tx_mutex_ack (p : pn532_s) (cmd : Nat) (data1 data2 : List Nat)
    (k b0 b1 b2 : Nat) (rest : List Nat)
    (hp : p.pending = 0)
    (hpre : uart_preamble_loop 0xFF p.uart.wire = (2, k))
    (hack : p.uart.wire.drop k = b0 :: b1 :: b2 :: rest) :
    pn532_tx_mutex p cmd data1 data2 =
      if b2 ≠ 0 then tx_fault (tx_sent p cmd data1 data2 rest) PN532_ERR_BADACK
      else if b0 = 0xFF ∧ b1 = 0 then tx_fault (tx_sent p cmd data1 data2 rest) PN532_ERR_NACK
      else if b0 ≠ 0 ∨ b1 ≠ 0xFF then tx_fault (tx_sent p cmd data1 data2 rest) PN532_ERR_BADACK
      else ((data1.length + data2.length : Nat),
        { tx_sent p cmd data1 data2 rest with pending := u8 ((cmd : Int) + 1) }) := by
  have h1 := uart_tx_if
  have hpre2 : uart_preamble (tx_sent p cmd data1 data2 p.uart.wire) 50
      = (2, tx_sent p cmd data1 data2 (b0 :: b1 :: b2 :: rest)) := by
    simp [uart_preamble, tx_sent, Uart.avail, hpre, Uart.consume, hack]
  have hrx : uart_rx (tx_sent p cmd data1 data2 (b0 :: b1 :: b2 :: rest)) 3 10
      = ([b0, b1, b2], tx_sent p cmd data1 data2 rest) := by
    simp [uart_rx_eq, tx_sent, Uart.avail, Uart.consume]
  unfold pn532_tx_mutex
  rw [if_neg (by simp [hp])]
  simp only [h1, pn532_tx_mutex_written, hpre2, hrx]
  simp [at8]

theorem uart_preamble_tx (q : pn532_s) (ms : Int) :
    (uart_preamble q ms).2.uart.tx = q.uart.tx := rfl

theorem uart_rx_tx (q : pn532_s) (n : Nat) (ms : Int) :
    (uart_rx q n ms).2.uart.tx = q.uart.tx := rfl

/-- Whatever the acknowledgement, a send on a session with nothing pending
appends exactly one command frame to the bytes written. -/
theorem pn532_tx_mutex_tx (p : pn532_s) (cmd : Nat) (data1 data2 : List Nat)
    (hp : p.pending = 0) :
    (pn532_tx_mutex p cmd data1 data2).2.uart.tx = p.uart.tx ++ tx_frame cmd data1 data2 := by
  have h1 := uart_tx_if
  unfold pn532_tx_mutex
  rw [if_neg (by simp [hp])]
  simp only [h1, pn532_tx_mutex_written]
  split_ifs <;> simp [tx_fault, uart_preamble_tx, uart_rx_tx, tx_sent]

theorem tx_dcs_eq (cmd : Nat) (data1 data2 : List Nat) :
    tx_dcs cmd data1 data2 = (256 - (0xD4 + cmd + data1.sum + data2.sum) % 256) % 256 := by
  unfold tx_dcs
  rw [sum8_u8, sum8_u8]
  unfold u8
  omega

/-! ## C2: short and extended length form -/

/-- C2 (as amended): `pn532_tx_mutex` emits the extended-length form (marker
bytes FF FF, the 2-byte big-endian length and its checksum) exactly when the
declared length `len1 + len2 + 2` is at least 256, that is for every payload of
254 bytes or more; for every payload of at most 253 bytes it emits the short
form (1-byte length `len1 + len2 + 2` and its checksum). -/
theorem tx_length_form (p : pn532_s) (cmd : Nat) (data1 data2 : List Nat)
    (hp : p.pending = 0) :
    (254 ≤ data1.length + data2.length →
      (pn532_tx_mutex p cmd data1 data2).2.uart.tx
        = p.uart.tx ++ [0x55, 0x55, 0x55, 0x00, 0x00, 0xFF]
          ++ [0xFF, 0xFF, (data1.length + data2.length + 2) / 256 % 256,
              (data1.length + data2.length + 2) % 256,
              (256 - ((data1.length + data2.length + 2) / 256
                + (data1.length + data2.length + 2) % 256) % 256) % 256]
          ++ [0xD4, cmd] ++ data1 ++ data2 ++ [tx_dcs cmd data1 data2, 0x00]) ∧
    (data1.length + data2.length ≤ 253 →
      (pn532_tx_mutex p cmd data1 data2).2.uart.tx
        = p.uart.tx ++ [0x55, 0x55, 0x55, 0x00, 0x00, 0xFF]
          ++ [data1.length + data2.length + 2, 254 - (data1.length + data2.length)]
          ++ [0xD4, cmd] ++ data1 ++ data2 ++ [tx_dcs cmd data1 data2, 0x00]) := by
  rw [pn532_tx_mutex_tx p cmd data1 data2 hp]
  constructor
  · intro h
    simp only [tx_frame, pn532_tx_len_ext _ (show 256 ≤ data1.length + data2.length + 2 by omega),
      List.append_assoc]
  · intro h
    have e : (256 - (data1.length + data2.length + 2)) % 256
        = 254 - (data1.length + data2.length) := by omega
    simp only [tx_frame, pn532_tx_len_short _ (show data1.length + data2.length + 2 < 256 by omega),
      List.append_assoc, e]

theorem tx_length_form_witness :
    (pn532_tx_mutex (session ⟨[], [], []⟩) 0x4A [2, 0] []).2.uart.tx
      = [] ++ [0x55, 0x55, 0x55, 0x00, 0x00, 0xFF] ++ [[2, 0].length + ([] : List Nat).length + 2,
          254 - ([2, 0].length + ([] : List Nat).length)]
        ++ [0xD4, 0x4A] ++ [2, 0] ++ [] ++ [tx_dcs 0x4A [2, 0] [], 0x00] :=
  (tx_length_form (session ⟨[], [], []⟩) 0x4A [2, 0] [] rfl).2 (by decide)

/-- C2 fails for the payload lengths 254 and 255: the frame of a 254-byte
payload already carries the extended form `FF FF 01 00 FF`, that of a 255-byte
payload `FF FF 01 01 FE`. -/
theorem tx_length_form_fails_at_254 :
    ((pn532_tx_mutex (session ⟨[], [], []⟩) 0x40 (List.replicate 254 0) []).2.uart.tx).take 11
      = [0x55, 0x55, 0x55, 0x00, 0x00, 0xFF, 0xFF, 0xFF, 0x01, 0x00, 0xFF] ∧
    ((pn532_tx_mutex (session ⟨[], [], []⟩) 0x40 (List.replicate 254 0) [7]).2.uart.tx).take 11
      = [0x55, 0x55, 0x55, 0x00, 0x00, 0xFF, 0xFF, 0xFF, 0x01, 0x01, 0xFE] := by
  constructor
  · rw [pn532_tx_mutex_tx _ _ _ _ rfl]
    have h : pn532_tx_len ((List.replicate 254 0).length + ([] : List Nat).length + 2)
        = [0xFF, 0xFF, 0x01, 0x00, 0xFF] := by
      rw [List.length_replicate]; decide
    simp only [tx_frame, h]
    rfl
  · rw [pn532_tx_mutex_tx _ _ _ _ rfl]
    have h : pn532_tx_len ((List.replicate 254 0).length + [7].length + 2)
        = [0xFF, 0xFF, 0x01, 0x01, 0xFE] := by
      rw [List.length_replicate]; decide
    simp only [tx_frame, h]
    rfl

/-! ## C3: the body of a command frame -/

/-- C3: for every command id and every payload in two segments, the bytes
`pn532_tx_mutex` transmits after the start bytes and the length header are exactly
`D4, cmd, data1, data2, DCS, 00`, where `DCS` is a byte, makes
`D4 + cmd + (sum of the payload bytes) + DCS` zero modulo 256, and is the only
byte that does. -/
theorem tx_body_bytes (p : pn532_s) (cmd : Nat) (data1 data2 : List Nat)
    (hp : p.pending = 0) :
    (pn532_tx_mutex p cmd data1 data2).2.uart.tx
      = p.uart.tx ++ [0x55, 0x55, 0x55, 0x00, 0x00, 0xFF]
        ++ pn532_tx_len (data1.length + data2.length + 2)
        ++ [0xD4, cmd] ++ data1 ++ data2 ++ [tx_dcs cmd data1 data2, 0x00] ∧
    tx_dcs cmd data1 data2 < 256 ∧
    (0xD4 + cmd + data1.sum + data2.sum + tx_dcs cmd data1 data2) % 256 = 0 ∧
    ∀ d, d < 256 → (0xD4 + cmd + data1.sum + data2.sum + d) % 256 = 0 →
      d = tx_dcs cmd data1 data2 := by
  have hd := tx_dcs_eq cmd data1 data2
  refine ⟨?_, ?_, ?_, ?_⟩
  · rw [pn532_tx_mutex_tx p cmd data1 data2 hp]
    simp only [tx_frame, List.append_assoc]
  · omega
  · omega
  · intro d hlt hz
    omega

theorem tx_body_bytes_witness :
    (pn532_tx_mutex (session ⟨[], [], []⟩) 0x4A [2] [0]).2.uart.tx
      = [] ++ [0x55, 0x55, 0x55, 0x00, 0x00, 0xFF] ++ pn532_tx_len ([2].length + [0].length + 2)
        ++ [0xD4, 0x4A] ++ [2] ++ [0] ++ [tx_dcs 0x4A [2] [0], 0x00] ∧
    tx_dcs 0x4A [2] [0] < 256 ∧
    (0xD4 + 0x4A + [2].sum + [0].sum + tx_dcs 0x4A [2] [0]) % 256 = 0 ∧
    ∀ d, d < 256 → (0xD4 + 0x4A + [2].sum + [0].sum + d) % 256 = 0 →
      d = tx_dcs 0x4A [2] [0] :=
  tx_body_bytes (session ⟨[], [], []⟩) 0x4A [2] [0] rfl

/-! ## The payload of a reply -/

theorem store_take (m src : List Nat) : (store m src).take src.length = src := by
  simp [store]

theorem store_nil (m : List Nat) : store m [] = m := by
  simp [store]

theorem seg_len_le (max : Nat) (data : Option (List Nat)) (len : Nat) :
    seg_len max data len ≤ len := by
  unfold seg_len
  split
  · omega
  · split <;> omega

/-- One `if (dataN)` block on a stream that still holds `len` bytes or more. -/
theorem pn532_rx_seg_eq (q : pn532_s) (max : Nat) (data : Option (List Nat)) (len : Nat)
    (a : Int) (hl : len ≤ q.uart.avail.length) :
    pn532_rx_seg q max data len (u8 a)
      = ⟨true, { q with uart := q.uart.consume (seg_len max data len) },
          data.map (fun m => store m (q.uart.avail.take (seg_len max data len))),
          len - seg_len max data len,
          u8 (a + ((q.uart.avail.take (seg_len max data len)).sum : Nat))⟩ := by
  cases data with
  | none => simp [pn532_rx_seg, seg_len, Uart.consume_zero]
  | some m =>
    have hk := seg_len_le max (some m) len
    simp only [seg_len] at hk
    have hlen : (q.uart.avail.take (if max > len then len else max)).length
        = (if max > len then len else max) := by
      rw [List.length_take]; omega
    by_cases h0 : (if max > len then len else max) = 0
    · simp [pn532_rx_seg, seg_len, h0, Uart.consume_zero, store_nil]
    · have hst := store_take m (q.uart.avail.take (if max > len then len else max))
      rw [hlen] at hst
      simp only [pn532_rx_seg, seg_len, uart_rx_eq, ne_eq, h0, not_false_eq_true, if_true,
        hlen, lt_self_iff_false, if_false, hst, Option.map_some', sum8_u8, List.sum_reverse]

/-- The part of `pn532_rx_mutex` after a good header: the payload goes to the
buffers, then the checksum and the postamble are checked. -/
theorem pn532_rx_mutex_body (p q : pn532_s) (max1 : Nat) (data1 : Option (List Nat))
    (max2 : Nat) (data2 : Option (List Nat)) (ms : Int) (payload : List Nat) (dcs post : Nat)
    (rest : List Nat)
    (hhd : pn532_rx_header { p with pending := 0 } p.pending ms
      = (.ok (payload.length + 2), q))
    (hq : q.uart.avail = payload ++ dcs :: post :: rest)
    (hfit : payload.length ≤ max1 + max2)
    (hall : seg_len max1 data1 payload.length
      + seg_len max2 data2 (payload.length - seg_len max1 data1 payload.length)
      = payload.length) :
    pn532_rx_mutex p max1 data1 max2 data2 ms =
      if (dcs + 0xD5 + p.pending + payload.sum) % 256 ≠ 0 then
        rx_fault { q with uart := q.uart.consume (payload.length + 2) } PN532_ERR_CHECKSUM
          (data1.map (fun m => store m (payload.take (seg_len max1 data1 payload.length))))
          (data2.map (fun m => store m (payload.drop (seg_len max1 data1 payload.length))))
      else if post ≠ 0 then
        rx_fault { q with uart := q.uart.consume (payload.length + 2) } PN532_ERR_POSTAMBLE
          (data1.map (fun m => store m (payload.take (seg_len max1 data1 payload.length))))
          (data2.map (fun m => store m (payload.drop (seg_len max1 data1 payload.length))))
      else
        ⟨(payload.length : Nat), { q with uart := q.uart.consume (payload.length + 2) },
          data1.map (fun m => store m (payload.take (seg_len max1 data1 payload.length))),
          data2.map (fun m => store m (payload.drop (seg_len max1 data1 payload.length)))⟩ := by
  generalize hk1 : seg_len max1 data1 payload.length = k1 at hall ⊢
  generalize hk2 : seg_len max2 data2 (payload.length - k1) = k2 at hall
  have hlen : q.uart.avail.length = payload.length + 2 + rest.length := by
    rw [hq]; simp; omega
  have e1 := pn532_rx_seg_eq q max1 data1 payload.length (0xD5 + (p.pending : Int))
    (by omega)
  rw [hk1] at e1
  have t1 : q.uart.avail.take k1 = payload.take k1 := by
    rw [hq, List.take_append_of_le_length (by omega)]
  rw [t1] at e1
  have e2 := pn532_rx_seg_eq { q with uart := q.uart.consume k1 } max2 data2
    (payload.length - k1) (0xD5 + (p.pending : Int) + ((payload.take k1).sum : Nat))
    (by simp only [Uart.avail_consume, List.length_drop]; omega)
  rw [hk2] at e2
  have t2 : (q.uart.consume k1).avail.take k2 = payload.drop k1 := by
    rw [Uart.avail_consume, hq, List.drop_append_of_le_length (by omega),
      List.take_append_of_le_length (by simp only [List.length_drop]; omega),
      List.take_of_length_le (by simp only [List.length_drop]; omega)]
  simp only [t2] at e2
  have t3 : (q.uart.consume (k1 + k2)).avail.take 2 = [dcs, post] := by
    rw [Uart.avail_consume, hq, hall]
    simp
  have hsum : (payload.take k1).sum + (payload.drop k1).sum = payload.sum := by
    rw [← List.sum_append, List.take_append_drop]
  have hu : u8 ((dcs : Int) + (u8 (0xD5 + (p.pending : Int) + ((payload.take k1).sum : Nat)
      + ((payload.drop k1).sum : Nat)) : Nat)) = (dcs + 0xD5 + p.pending + payload.sum) % 256 := by
    rw [← hsum]; unfold u8; omega
  have hc : k1 + k2 + 2 = payload.length + 2 := by omega
  unfold pn532_rx_mutex
  have ha0 : at8 [dcs, post] 0 = dcs := rfl
  have ha1 : at8 [dcs, post] 1 = post := rfl
  have hl2 : ¬ ([dcs, post].length < 2) := by simp
  simp only [hhd, e1, e2, uart_rx_eq, Nat.add_sub_cancel, Uart.consume_consume, t3, hc, ha0, ha1,
    hu, hl2, show ¬ (payload.length + 2 < 2) by omega,
    show ¬ (payload.length > max1 + max2) by omega, if_false, not_true_eq_false,
    Bool.not_eq_true, ne_eq]

/-- The whole of `pn532_rx` on a reply frame with a valid header, the expected
command id and a payload the buffers take in full: only the data checksum and
the postamble decide the outcome. -/
theorem pn532_rx_frame (p : pn532_s) (max1 : Nat) (data1 : Option (List Nat)) (max2 : Nat)
    (data2 : Option (List Nat)) (ms : Int) (hdr payload : List Nat) (dcs post : Nat)
    (rest : List Nat)
    (hp : p.pending ≠ 0)
    (hw : p.uart.avail = reply_frame hdr p.pending payload dcs post ++ rest)
    (hh : valid_header hdr (payload.length + 2))
    (hfit : payload.length ≤ max1 + max2)
    (hall : seg_len max1 data1 payload.length
      + seg_len max2 data2 (payload.length - seg_len max1 data1 payload.length)
      = payload.length) :
    pn532_rx p max1 data1 max2 data2 ms =
      if (dcs + 0xD5 + p.pending + payload.sum) % 256 ≠ 0 then
        rx_fault { p with pending := 0, mutex := true,
                          uart := p.uart.consume (hdr.length + payload.length + 6) }
          PN532_ERR_CHECKSUM
          (data1.map (fun m => store m (payload.take (seg_len max1 data1 payload.length))))
          (data2.map (fun m => store m (payload.drop (seg_len max1 data1 payload.length))))
      else if post ≠ 0 then
        rx_fault { p with pending := 0, mutex := true,
                          uart := p.uart.consume (hdr.length + payload.length + 6) }
          PN532_ERR_POSTAMBLE
          (data1.map (fun m => store m (payload.take (seg_len max1 data1 payload.length))))
          (data2.map (fun m => store m (payload.drop (seg_len max1 data1 payload.length))))
      else
        ⟨(payload.length : Nat),
          { p with pending := 0, mutex := true,
                   uart := p.uart.consume (hdr.length + payload.length + 6) },
          data1.map (fun m => store m (payload.take (seg_len max1 data1 payload.length))),
          data2.map (fun m => store m (payload.drop (seg_len max1 data1 payload.length)))⟩ := by
  rcases hh with ⟨lcs, rfl, hck⟩ | ⟨hi, lo, lcs, rfl, hck, hlen⟩
  · have hw2 : ({ p with pending := 0 } : pn532_s).uart.avail
        = 0x00 :: 0xFF :: (payload.length + 2) :: lcs :: 0xD5 :: p.pending
          :: (payload ++ dcs :: post :: rest) := by
      simpa [reply_frame] using hw
    have hhd := rx_header_short { p with pending := 0 } p.pending ms _ _ _ hw2 hck
    have hq : (p.uart.consume 6).avail = payload ++ dcs :: post :: rest := by
      rw [Uart.avail_consume]
      simp only [] at hw2
      rw [hw2]; rfl
    have hb := pn532_rx_mutex_body p _ max1 data1 max2 data2 ms payload dcs post rest hhd hq
      hfit hall
    have hc : 6 + (payload.length + 2) = [payload.length + 2, lcs].length + payload.length + 6 := by
      simp; omega
    unfold pn532_rx
    rw [if_neg hp, hb]
    simp only [Uart.consume_consume, hc]
    split_ifs <;> rfl
  · have hw2 : ({ p with pending := 0 } : pn532_s).uart.avail
        = 0x00 :: 0xFF :: 0xFF :: 0xFF :: hi :: lo :: lcs :: 0xD5 :: p.pending
          :: (payload ++ dcs :: post :: rest) := by
      simpa [reply_frame] using hw
    have hhd := rx_header_ext { p with pending := 0 } p.pending ms _ _ _ _ hw2 hck
    rw [← hlen] at hhd
    have hq : (p.uart.consume 9).avail = payload ++ dcs :: post :: rest := by
      rw [Uart.avail_consume]
      simp only [] at hw2
      rw [hw2]; rfl
    have hb := pn532_rx_mutex_body p _ max1 data1 max2 data2 ms payload dcs post rest hhd hq
      hfit hall
    have hc : 9 + (payload.length + 2) = [0xFF, 0xFF, hi, lo, lcs].length + payload.length + 6 := by
      simp; omega
    unfold pn532_rx
    rw [if_neg hp, hb]
    simp only [Uart.consume_consume, hc]
    split_ifs <;> rfl

/-! ## C4: a well-formed reply is delivered to the two buffers -/

/-- C4: for every well-formed reply frame (preamble 00 FF, valid length header,
direction byte D5, command id equal to the pending id, `n` payload bytes with
`n ≤ max1 + max2`, correct data checksum, zero postamble) and two non-null
buffers, `pn532_rx` returns `n`; the first `min max1 n` payload bytes are written
at the start of `data1` and the remaining `n - min max1 n` at the start of
`data2`, in wire order. -/
theorem rx_well_formed (p : pn532_s) (max1 : Nat) (m1 : List Nat) (max2 : Nat) (m2 : List Nat)
    (ms : Int) (hdr payload : List Nat) (dcs : Nat) (rest : List Nat)
    (hp : p.pending ≠ 0)
    (hw : p.uart.avail = reply_frame hdr p.pending payload dcs 0 ++ rest)
    (hh : valid_header hdr (payload.length + 2))
    (hfit : payload.length ≤ max1 + max2)
    (hck : (0xD5 + p.pending + payload.sum + dcs) % 256 = 0) :
    (pn532_rx p max1 (some m1) max2 (some m2) ms).ret = payload.length ∧
    (pn532_rx p max1 (some m1) max2 (some m2) ms).data1
      = some (payload.take (min max1 payload.length)
          ++ m1.drop (min max1 payload.length)) ∧
    (pn532_rx p max1 (some m1) max2 (some m2) ms).data2
      = some (payload.drop (min max1 payload.length)
          ++ m2.drop (payload.length - min max1 payload.length)) ∧
    (pn532_rx p max1 (some m1) max2 (some m2) ms).p
      = { p with pending := 0, mutex := true,
                 uart := p.uart.consume (hdr.length + payload.length + 6) } := by
  have hk : seg_len max1 (some m1) payload.length = min max1 payload.length := by
    simp only [seg_len]; split <;> omega
  have hall : seg_len max1 (some m1) payload.length
      + seg_len max2 (some m2) (payload.length - seg_len max1 (some m1) payload.length)
      = payload.length := by
    rw [hk]; simp only [seg_len]; split <;> omega
  rw [pn532_rx_frame p max1 (some m1) max2 (some m2) ms hdr payload dcs 0 rest hp hw hh hfit hall]
  have hc : (dcs + 0xD5 + p.pending + payload.sum) % 256 = 0 := by omega
  have hl1 : (payload.take (min max1 payload.length)).length = min max1 payload.length := by
    rw [List.length_take]; omega
  have hl2 : (payload.drop (min max1 payload.length)).length
      = payload.length - min max1 payload.length := by
    rw [List.length_drop]
  simp [hc, hk, store, hl1, hl2]

theorem rx_well_formed_witness :
    (pn532_rx { session ⟨[], [0x00, 0xFF, 5, 251, 0xD5, 0x4B, 1, 2, 3, 0xDA, 0], []⟩ with
        pending := 0x4B, mutex := false } 2 (some [9, 9]) 4 (some [9, 9, 9, 9]) 110).ret
      = ([1, 2, 3] : List Nat).length ∧
    (pn532_rx { session ⟨[], [0x00, 0xFF, 5, 251, 0xD5, 0x4B, 1, 2, 3, 0xDA, 0], []⟩ with
        pending := 0x4B, mutex := false } 2 (some [9, 9]) 4 (some [9, 9, 9, 9]) 110).data1
      = some ([1, 2, 3].take (min 2 [1, 2, 3].length) ++ [9, 9].drop (min 2 [1, 2, 3].length)) ∧
    (pn532_rx { session ⟨[], [0x00, 0xFF, 5, 251, 0xD5, 0x4B, 1, 2, 3, 0xDA, 0], []⟩ with
        pending := 0x4B, mutex := false } 2 (some [9, 9]) 4 (some [9, 9, 9, 9]) 110).data2
      = some ([1, 2, 3].drop (min 2 [1, 2, 3].length)
          ++ [9, 9, 9, 9].drop ([1, 2, 3].length - min 2 [1, 2, 3].length)) ∧
    (pn532_rx { session ⟨[], [0x00, 0xFF, 5, 251, 0xD5, 0x4B, 1, 2, 3, 0xDA, 0], []⟩ with
        pending := 0x4B, mutex := false } 2 (some [9, 9]) 4 (some [9, 9, 9, 9]) 110).p
      = { ({ session ⟨[], [0x00, 0xFF, 5, 251, 0xD5, 0x4B, 1, 2, 3, 0xDA, 0], []⟩ with
            pending := 0x4B, mutex := false } : pn532_s) with
          pending := 0, mutex := true,
          uart := (Uart.mk [] [0x00, 0xFF, 5, 251, 0xD5, 0x4B, 1, 2, 3, 0xDA, 0] []).consume
            ([5, 251].length + [1, 2, 3].length + 6) } :=
  rx_well_formed
    { session ⟨[], [0x00, 0xFF, 5, 251, 0xD5, 0x4B, 1, 2, 3, 0xDA, 0], []⟩ with
      pending := 0x4B, mutex := false }
    2 [9, 9] 4 [9, 9, 9, 9] 110 [5, 251] [1, 2, 3] 0xDA [] (by decide) (by decide)
    (Or.inl ⟨251, rfl, by decide⟩) (by decide) (by decide)

/-! ## C5: one changed payload byte is a checksum fault -/

theorem sum_set_add (l : List Nat) (i b : Nat) (hi : i < l.length) :
    (l.set i b).sum + l.getD i 0 = l.sum + b := by
  induction l generalizing i with
  | nil => simp at hi
  | cons x xs ih =>
    cases i with
    | zero => simp; omega
    | succ j =>
      have h := ih j (by simpa using hi)
      simp only [List.set_cons_succ, List.sum_cons, List.getD_cons_succ] at h ⊢
      omega

/-- The two `if (dataN)` blocks together read the whole payload exactly when
its length is at most the sum of the capacities of the buffers that are not
`NULL`. -/
theorem seg_len_all_iff (max1 : Nat) (data1 : Option (List Nat)) (max2 : Nat)
    (data2 : Option (List Nat)) (n : Nat) :
    seg_len max1 data1 n + seg_len max2 data2 (n - seg_len max1 data1 n) = n ↔
      n ≤ (if data1.isSome then max1 else 0) + (if data2.isSome then max2 else 0) := by
  cases data1 <;> cases data2 <;>
    simp only [seg_len, Option.isSome_none, Option.isSome_some, if_true, if_false,
      Bool.false_eq_true] <;>
    constructor <;> intro h <;> (try split_ifs at h ⊢) <;> omega

/-- C5 (as amended): take a reply frame `pn532_rx` accepts (valid header,
direction D5, command id equal to pending, correct data checksum, zero
postamble) whose payload fits the caller's non-null buffers, that is, the two
copy blocks read it in full (its length is at most the sum of the capacities
of the buffers that are not `NULL`, see `seg_len_all_iff`), and change exactly
one payload byte to a different byte value: on the changed frame `pn532_rx`
returns `-PN532_ERR_CHECKSUM` and records `PN532_ERR_CHECKSUM` as the last
error. -/
theorem rx_changed_byte (p : pn532_s) (max1 : Nat) (data1 : Option (List Nat)) (max2 : Nat)
    (data2 : Option (List Nat)) (ms : Int) (hdr payload : List Nat) (dcs : Nat)
    (rest : List Nat) (i b : Nat)
    (hp : p.pending ≠ 0)
    (hh : valid_header hdr (payload.length + 2))
    (hfit : payload.length ≤ max1 + max2)
    (hall : seg_len max1 data1 payload.length
      + seg_len max2 data2 (payload.length - seg_len max1 data1 payload.length)
      = payload.length)
    (hck : (0xD5 + p.pending + payload.sum + dcs) % 256 = 0)
    (hi : i < payload.length)
    (hold : payload.getD i 0 < 256)
    (hb : b < 256)
    (hne : b ≠ payload.getD i 0)
    (hw : p.uart.avail = reply_frame hdr p.pending (payload.set i b) dcs 0 ++ rest) :
    (pn532_rx p max1 data1 max2 data2 ms).ret = -(PN532_ERR_CHECKSUM : Int) ∧
    (pn532_rx p max1 data1 max2 data2 ms).p.lasterr = PN532_ERR_CHECKSUM := by
  have hlen : (payload.set i b).length = payload.length := List.length_set _ _ _
  have hs := sum_set_add payload i b hi
  have hbad : (dcs + 0xD5 + p.pending + (payload.set i b).sum) % 256 ≠ 0 := by omega
  rw [pn532_rx_frame p max1 data1 max2 data2 ms hdr (payload.set i b) dcs 0 rest hp hw
    (by rw [hlen]; exact hh) (by rw [hlen]; exact hfit) (by rw [hlen]; exact hall)]
  rw [if_pos hbad]
  exact ⟨rfl, rfl⟩

theorem rx_changed_byte_witness :
    (pn532_rx { session ⟨[], [0x00, 0xFF, 5, 251, 0xD5, 0x4B, 1, 7, 3, 0xDA, 0], []⟩ with
        pending := 0x4B, mutex := false } 0 none 4 (some [9, 9, 9, 9]) 110).ret
      = -(PN532_ERR_CHECKSUM : Int) ∧
    (pn532_rx { session ⟨[], [0x00, 0xFF, 5, 251, 0xD5, 0x4B, 1, 7, 3, 0xDA, 0], []⟩ with
        pending := 0x4B, mutex := false } 0 none 4 (some [9, 9, 9, 9]) 110).p.lasterr
      = PN532_ERR_CHECKSUM :=
  rx_changed_byte
    { session ⟨[], [0x00, 0xFF, 5, 251, 0xD5, 0x4B, 1, 7, 3, 0xDA, 0], []⟩ with
      pending := 0x4B, mutex := false }
    0 none 4 (some [9, 9, 9, 9]) 110 [5, 251] [1, 2, 3] 0xDA [] 1 7 (by decide)
    (Or.inl ⟨251, rfl, by decide⟩) (by decide) (by decide) (by decide) (by decide) (by decide)
    (by decide) (by decide) (by decide)

/-- C5 fails when a capacity is counted for a `NULL` buffer.  The frame
`00 FF 04 FC D5 4B E0 00 00 00` is well formed, its 2 payload bytes fit
`max1 + max2 = 2 + 0`, and `pn532_rx` with `data1 = NULL` accepts it (result
2): no copy block reads the payload, and the two payload bytes pass as checksum
and postamble.  With the second payload byte changed from 00 to 01 the result
is `-PN532_ERR_POSTAMBLE`, not the checksum fault. -/
theorem rx_changed_byte_fails_with_null_buffer :
    valid_header [4, 252] ([0xE0, 0x00].length + 2) ∧
    [0xE0, 0x00].length ≤ 2 + 0 ∧
    (0xD5 + 0x4B + [0xE0, 0x00].sum + 0) % 256 = 0 ∧
    (pn532_rx { session ⟨[], reply_frame [4, 252] 0x4B [0xE0, 0x00] 0 0, []⟩ with
        pending := 0x4B, mutex := false } 2 none 0 none 110).ret = 2 ∧
    [0xE0, 0x00].set 1 0x01 = [0xE0, 0x01] ∧
    (pn532_rx { session ⟨[], reply_frame [4, 252] 0x4B ([0xE0, 0x00].set 1 0x01) 0 0, []⟩ with
        pending := 0x4B, mutex := false } 2 none 0 none 110).ret
      = -(PN532_ERR_POSTAMBLE : Int) ∧
    (pn532_rx { session ⟨[], reply_frame [4, 252] 0x4B ([0xE0, 0x00].set 1 0x01) 0 0, []⟩ with
        pending := 0x4B, mutex := false } 2 none 0 none 110).p.lasterr = PN532_ERR_POSTAMBLE ∧
    -(PN532_ERR_POSTAMBLE : Int) ≠ -(PN532_ERR_CHECKSUM : Int) := by
  refine ⟨Or.inl ⟨252, rfl, by decide⟩, by decide, by decide, by decide, by decide, by decide,
    by decide, by decide⟩

/-! ## C6: a reply larger than the buffers -/

theorem pn532_rx_mutex_space (p q : pn532_s) (max1 : Nat) (data1 : Option (List Nat))
    (max2 : Nat) (data2 : Option (List Nat)) (ms : Int) (len : Nat)
    (hhd : pn532_rx_header { p with pending := 0 } p.pending ms = (.ok len, q))
    (hbig : len - 2 > max1 + max2) :
    pn532_rx_mutex p max1 data1 max2 data2 ms = rx_fault q PN532_ERR_SPACE data1 data2 := by
  unfold pn532_rx_mutex
  simp only [hhd, show ¬ (len < 2) by omega, hbig, if_true, if_false]

/-- C6: for every reply frame with a valid header, direction byte D5 and the
expected command id whose usable payload length `len - 2` exceeds
`max1 + max2`, `pn532_rx` returns `-PN532_ERR_SPACE`, records `PN532_ERR_SPACE`
as last error, leaves both caller buffers as they were and has read nothing
beyond the header: everything that follows it is still in the transport. -/
theorem rx_too_big (p : pn532_s) (max1 : Nat) (data1 : Option (List Nat)) (max2 : Nat)
    (data2 : Option (List Nat)) (ms : Int) (hdr : List Nat) (len : Nat) (rest : List Nat)
    (hp : p.pending ≠ 0)
    (hw : p.uart.avail = [0x00, 0xFF] ++ hdr ++ [0xD5, p.pending] ++ rest)
    (hh : valid_header hdr len)
    (hbig : len - 2 > max1 + max2) :
    pn532_rx p max1 data1 max2 data2 ms
      = ⟨-(PN532_ERR_SPACE : Int),
          { p with pending := 0, mutex := true, lasterr := PN532_ERR_SPACE,
                   uart := p.uart.consume (hdr.length + 4) },
          data1, data2⟩ ∧
    (p.uart.consume (hdr.length + 4)).avail = rest := by
  rcases hh with ⟨lcs, rfl, hck⟩ | ⟨hi, lo, lcs, rfl, hck, hlen⟩
  · have hw2 : ({ p with pending := 0 } : pn532_s).uart.avail
        = 0x00 :: 0xFF :: len :: lcs :: 0xD5 :: p.pending :: rest := by
      simpa using hw
    have hhd := rx_header_short { p with pending := 0 } p.pending ms _ _ _ hw2 hck
    have hb := pn532_rx_mutex_space p _ max1 data1 max2 data2 ms len hhd hbig
    constructor
    · unfold pn532_rx
      rw [if_neg hp, hb]
      rfl
    · rw [Uart.avail_consume]
      simp only [] at hw2
      rw [hw2]; rfl
  · have hw2 : ({ p with pending := 0 } : pn532_s).uart.avail
        = 0x00 :: 0xFF :: 0xFF :: 0xFF :: hi :: lo :: lcs :: 0xD5 :: p.pending :: rest := by
      simpa using hw
    have hhd := rx_header_ext { p with pending := 0 } p.pending ms _ _ _ _ hw2 hck
    rw [← hlen] at hhd
    have hb := pn532_rx_mutex_space p _ max1 data1 max2 data2 ms len hhd hbig
    constructor
    · unfold pn532_rx
      rw [if_neg hp, hb]
      rfl
    · rw [Uart.avail_consume]
      simp only [] at hw2
      rw [hw2]; rfl

theorem rx_too_big_witness :
    pn532_rx { session ⟨[], [0x00, 0xFF, 5, 251, 0xD5, 0x4B, 1, 2, 3, 0xDA, 0], []⟩ with
        pending := 0x4B, mutex := false } 1 (some [9]) 1 (some [8]) 110
      = ⟨-(PN532_ERR_SPACE : Int),
          { ({ session ⟨[], [0x00, 0xFF, 5, 251, 0xD5, 0x4B, 1, 2, 3, 0xDA, 0], []⟩ with
              pending := 0x4B, mutex := false } : pn532_s) with
            pending := 0, mutex := true, lasterr := PN532_ERR_SPACE,
            uart := (Uart.mk [] [0x00, 0xFF, 5, 251, 0xD5, 0x4B, 1, 2, 3, 0xDA, 0] []).consume
              ([5, 251].length + 4) },
          some [9], some [8]⟩ ∧
    ((Uart.mk [] [0x00, 0xFF, 5, 251, 0xD5, 0x4B, 1, 2, 3, 0xDA, 0] []).consume
        ([5, 251].length + 4)).avail = [1, 2, 3, 0xDA, 0] :=
  rx_too_big
    { session ⟨[], [0x00, 0xFF, 5, 251, 0xD5, 0x4B, 1, 2, 3, 0xDA, 0], []⟩ with
      pending := 0x4B, mutex := false }
    1 (some [9]) 1 (some [8]) 110 [5, 251] 5 [1, 2, 3, 0xDA, 0] (by decide) (by decide)
    (Or.inl ⟨251, rfl, by decide⟩) (by decide)

/-! ## The acknowledgement of a send -/

/-- The whole of `pn532_tx` on a session with nothing pending and the semaphore
available, when the acknowledgement is found after `k` bytes of the stream and
is `b0 b1 b2`. -/
theorem pn532_tx_ack (p : pn532_s) (cmd : Nat) (data1 data2 : List Nat)
    (k b0 b1 b2 : Nat) (rest : List Nat)
    (hp : p.pending = 0) (hm : p.mutex = true)
    (hpre : uart_preamble_loop 0xFF p.uart.wire = (2, k))
    (hack : p.uart.wire.drop k = b0 :: b1 :: b2 :: rest) :
    pn532_tx p cmd data1 data2 = some (
      if b2 ≠ 0 then
        (-(PN532_ERR_BADACK : Int),
          { tx_sent p cmd data1 data2 rest with lasterr := PN532_ERR_BADACK })
      else if b0 = 0xFF ∧ b1 = 0 then
        (-(PN532_ERR_NACK : Int),
          { tx_sent p cmd data1 data2 rest with lasterr := PN532_ERR_NACK })
      else if b0 ≠ 0 ∨ b1 ≠ 0xFF then
        (-(PN532_ERR_BADACK : Int),
          { tx_sent p cmd data1 data2 rest with lasterr := PN532_ERR_BADACK })
      else
        ((data1.length + data2.length : Nat),
          { tx_sent p cmd data1 data2 rest with
            pending := u8 ((cmd : Int) + 1), mutex := decide (u8 ((cmd : Int) + 1) = 0) })) := by
  have h := pn532_tx_mutex_ack { p with mutex := false } cmd data1 data2 k b0 b1 b2 rest
    hp hpre hack
  unfold pn532_tx xSemaphoreTake
  simp only [hm, if_true, h]
  by_cases h1 : b2 ≠ 0
  · simp only [if_pos h1]
    simp [tx_fault, tx_sent, hp, xSemaphoreGive, hm]
  · simp only [if_neg h1]
    by_cases h2 : b0 = 0xFF ∧ b1 = 0
    · simp only [if_pos h2]
      simp [tx_fault, tx_sent, hp, xSemaphoreGive, hm]
    · simp only [if_neg h2]
      by_cases h3 : b0 ≠ 0 ∨ b1 ≠ 0xFF
      · simp only [if_pos h3]
        simp [tx_fault, tx_sent, hp, xSemaphoreGive, hm]
      · simp only [if_neg h3]
        by_cases hz : u8 ((cmd : Int) + 1) = 0 <;>
          simp [tx_sent, xSemaphoreGive, hz]

/-! ## C7: the pending id after a send -/

theorem pn532_rx_header_error (p q : pn532_s) (pending : Nat) (ms : Int) (e : Nat)
    (h : pn532_rx_header p pending ms = (.error e, q)) :
    e = PN532_ERR_TIMEOUT ∨ e = PN532_ERR_HEADER ∨ e = PN532_ERR_CMDMISMATCH := by
  simp only [pn532_rx_header] at h
  split_ifs at h <;> simp only [Prod.mk.injEq, Except.error.injEq, reduceCtorEq, false_and] at h <;>
    simp [← h.1]

/-- The receive path proper never answers with the not-pending fault. -/
theorem pn532_rx_mutex_ret (p : pn532_s) (max1 : Nat) (data1 : Option (List Nat)) (max2 : Nat)
    (data2 : Option (List Nat)) (ms : Int) :
    (pn532_rx_mutex p max1 data1 max2 data2 ms).ret ≠ -(PN532_ERR_NOTPENDING : Int) := by
  simp only [pn532_rx_mutex]
  split
  · next e q hq =>
    rcases pn532_rx_header_error _ _ _ _ _ hq with h | h | h <;>
      simp [rx_fault, h, PN532_ERR_TIMEOUT, PN532_ERR_HEADER, PN532_ERR_CMDMISMATCH,
        PN532_ERR_NOTPENDING]
  · next len q hq =>
    split_ifs <;>
      simp [rx_fault, PN532_ERR_TIMEOUT, PN532_ERR_HEADER, PN532_ERR_SPACE, PN532_ERR_CHECKSUM,
        PN532_ERR_POSTAMBLE, PN532_ERR_NOTPENDING]

theorem pn532_rx_of_pending (q : pn532_s) (max1 : Nat) (d1 : Option (List Nat)) (max2 : Nat)
    (d2 : Option (List Nat)) (ms : Int) (hq : q.pending ≠ 0) :
    pn532_rx q max1 d1 max2 d2 ms
      = { pn532_rx_mutex q max1 d1 max2 d2 ms with
          p := xSemaphoreGive (pn532_rx_mutex q max1 d1 max2 d2 ms).p } := by
  unfold pn532_rx
  rw [if_neg hq]

/-- C7 (as amended): for every command id `cmd` in 0..254, a send (`pn532_tx`)
whose acknowledgement handshake succeeds returns `len1 + len2` and leaves the
session in the command-pending state with expected reply id `cmd + 1`, so that
the next `pn532_rx` is taken as the matching receive (it runs
`pn532_rx_mutex`) and is never rejected with the not-pending fault. -/
theorem tx_sets_pending (p : pn532_s) (cmd : Nat) (data1 data2 : List Nat) (k : Nat)
    (rest : List Nat)
    (hc : cmd ≤ 254) (hp : p.pending = 0) (hm : p.mutex = true)
    (hpre : uart_preamble_loop 0xFF p.uart.wire = (2, k))
    (hack : p.uart.wire.drop k = 0x00 :: 0xFF :: 0x00 :: rest) :
    ∃ q, pn532_tx p cmd data1 data2 = some (((data1.length + data2.length : Nat) : Int), q) ∧
      q.pending = cmd + 1 ∧ q.pending ≠ 0 ∧
      ∀ (max1 : Nat) (d1 : Option (List Nat)) (max2 : Nat) (d2 : Option (List Nat)) (ms : Int),
        pn532_rx q max1 d1 max2 d2 ms
          = { pn532_rx_mutex q max1 d1 max2 d2 ms with
              p := xSemaphoreGive (pn532_rx_mutex q max1 d1 max2 d2 ms).p } ∧
        (pn532_rx q max1 d1 max2 d2 ms).ret ≠ -(PN532_ERR_NOTPENDING : Int) := by
  have hu : u8 ((cmd : Int) + 1) = cmd + 1 := by unfold u8; omega
  have h := pn532_tx_ack p cmd data1 data2 k 0x00 0xFF 0x00 rest hp hm hpre hack
  simp only [ne_eq, not_true_eq_false, if_false, OfNat.ofNat_ne_zero, false_and, or_self,
    OfNat.zero_ne_ofNat, hu] at h
  refine ⟨_, h, rfl, by simp, ?_⟩
  intro max1 d1 max2 d2 ms
  have hrx := pn532_rx_of_pending
    { tx_sent p cmd data1 data2 rest with pending := cmd + 1, mutex := decide (cmd + 1 = 0) }
    max1 d1 max2 d2 ms (by simp)
  refine ⟨hrx, ?_⟩
  rw [hrx]
  exact pn532_rx_mutex_ret _ _ _ _ _ _

theorem tx_sets_pending_witness :
    ∃ q, pn532_tx (session ⟨[], [0x00, 0x00, 0xFF, 0x00, 0xFF, 0x00], []⟩) 0x4A [2, 0] []
        = some ((([2, 0].length + ([] : List Nat).length : Nat) : Int), q) ∧
      q.pending = 0x4A + 1 ∧ q.pending ≠ 0 ∧
      ∀ (max1 : Nat) (d1 : Option (List Nat)) (max2 : Nat) (d2 : Option (List Nat)) (ms : Int),
        pn532_rx q max1 d1 max2 d2 ms
          = { pn532_rx_mutex q max1 d1 max2 d2 ms with
              p := xSemaphoreGive (pn532_rx_mutex q max1 d1 max2 d2 ms).p } ∧
        (pn532_rx q max1 d1 max2 d2 ms).ret ≠ -(PN532_ERR_NOTPENDING : Int) :=
  tx_sets_pending (session ⟨[], [0x00, 0x00, 0xFF, 0x00, 0xFF, 0x00], []⟩) 0x4A [2, 0] [] 3 []
    (by decide) rfl rfl (by decide) (by decide)

/-- C7 fails at `cmd = 255`: the acknowledged send returns 0 (success), the
stored `cmd + 1` wraps to 0 in the 8-bit field, the semaphore is given back,
and the next `pn532_rx` is rejected with the not-pending fault. -/
theorem tx_sets_pending_fails_at_255 :
    (pn532_tx (session ⟨[], [0x00, 0x00, 0xFF, 0x00, 0xFF, 0x00], []⟩) 0xFF [] []).map
        (fun r => (r.1, r.2.pending, r.2.mutex)) = some (0, 0, true) ∧
    (pn532_tx (session ⟨[], [0x00, 0x00, 0xFF, 0x00, 0xFF, 0x00], []⟩) 0xFF [] []).map
        (fun r => (pn532_rx r.2 0 none 30 (some (List.replicate 30 0)) 50).ret)
      = some (-(PN532_ERR_NOTPENDING : Int)) := by
  constructor <;> decide

/-! ## C8: the acknowledgement decides the send -/

/-- C8 (as amended): for a session with no command pending and a command id
`cmd` in 0..254, once the frame is transmitted, the preamble is found and 3
acknowledgement bytes `b0 b1 b2` are read, the send succeeds (returns the
non-negative value `len1 + len2` and sets pending, to `cmd + 1`) if and only
if the 3 bytes are exactly 00 FF 00; for every other 3-byte sequence it returns
a negative fault and pending stays unset. -/
theorem tx_ack_decides (p : pn532_s) (cmd : Nat) (data1 data2 : List Nat)
    (k b0 b1 b2 : Nat) (rest : List Nat)
    (hc : cmd ≤ 254) (hp : p.pending = 0) (hm : p.mutex = true)
    (hpre : uart_preamble_loop 0xFF p.uart.wire = (2, k))
    (hack : p.uart.wire.drop k = b0 :: b1 :: b2 :: rest) :
    ∃ r, pn532_tx p cmd data1 data2 = some r ∧
      ((r.1 = ((data1.length + data2.length : Nat) : Int) ∧ r.2.pending = cmd + 1 ∧
          r.2.pending ≠ 0)
        ↔ (b0 = 0x00 ∧ b1 = 0xFF ∧ b2 = 0x00)) ∧
      (¬ (b0 = 0x00 ∧ b1 = 0xFF ∧ b2 = 0x00) → r.1 < 0 ∧ r.2.pending = 0) := by
  have hu : u8 ((cmd : Int) + 1) = cmd + 1 := by unfold u8; omega
  have h := pn532_tx_ack p cmd data1 data2 k b0 b1 b2 rest hp hm hpre hack
  refine ⟨_, h, ?_, ?_⟩
  · by_cases h1 : b2 ≠ 0
    · simp only [if_pos h1]
      constructor
      · intro hh
        have := hh.1
        simp only [PN532_ERR_BADACK] at this
        omega
      · intro hh; exact absurd hh.2.2 h1
    · simp only [if_neg h1]
      by_cases h2 : b0 = 0xFF ∧ b1 = 0
      · simp only [if_pos h2]
        constructor
        · intro hh
          have := hh.1
          simp only [PN532_ERR_NACK] at this
          omega
        · intro hh; omega
      · simp only [if_neg h2]
        by_cases h3 : b0 ≠ 0 ∨ b1 ≠ 0xFF
        · simp only [if_pos h3]
          constructor
          · intro hh
            have := hh.1
            simp only [PN532_ERR_BADACK] at this
            omega
          · intro hh; omega
        · rw [if_neg h3, hu]
          constructor
          · intro _; omega
          · intro _; exact ⟨rfl, rfl, Nat.succ_ne_zero cmd⟩
  · intro hbad
    by_cases h1 : b2 ≠ 0
    · rw [if_pos h1]
      exact ⟨by simp [PN532_ERR_BADACK], hp⟩
    · rw [if_neg h1]
      by_cases h2 : b0 = 0xFF ∧ b1 = 0
      · rw [if_pos h2]
        exact ⟨by simp [PN532_ERR_NACK], hp⟩
      · rw [if_neg h2]
        by_cases h3 : b0 ≠ 0 ∨ b1 ≠ 0xFF
        · rw [if_pos h3]
          exact ⟨by simp [PN532_ERR_BADACK], hp⟩
        · exfalso; omega

theorem tx_ack_decides_witness :
    ∃ r, pn532_tx (session ⟨[7], [0x00, 0x00, 0xFF, 0x00, 0xFF, 0x00, 9], []⟩) 0x02 [] []
        = some r ∧
      ((r.1 = (((([] : List Nat).length + ([] : List Nat).length : Nat)) : Int) ∧
          r.2.pending = 0x02 + 1 ∧ r.2.pending ≠ 0)
        ↔ ((0x00 : Nat) = 0x00 ∧ (0xFF : Nat) = 0xFF ∧ (0x00 : Nat) = 0x00)) ∧
      (¬ ((0x00 : Nat) = 0x00 ∧ (0xFF : Nat) = 0xFF ∧ (0x00 : Nat) = 0x00) →
        r.1 < 0 ∧ r.2.pending = 0) :=
  tx_ack_decides (session ⟨[7], [0x00, 0x00, 0xFF, 0x00, 0xFF, 0x00, 9], []⟩) 0x02 [] [] 3
    0x00 0xFF 0x00 [9] (by decide) rfl rfl (by decide) (by decide)

/-- C8 fails at `cmd = 255`: the 3 bytes are exactly 00 FF 00 and the send
returns the non-negative `len1 + len2 = 1`, yet pending is unset after it. -/
theorem tx_ack_decides_fails_at_255 :
    (pn532_tx (session ⟨[], [0x00, 0xFF, 0x00, 0xFF, 0x00], []⟩) 0xFF [1] []).map
        (fun r => (r.1, r.2.pending)) = some (1, 0) := by
  decide

/-! ## C9: negative and malformed acknowledgements -/

/-- C9 (as amended): for every 3-byte acknowledgement `b0 b1 b2` read after the
preamble that differs from 00 FF 00, the send fails with the
negative-acknowledgement fault `PN532_ERR_NACK` when the bytes are FF 00 00
(`b0 = 0xFF`, `b1 = 0x00`, `b2 = 0x00`), and with the malformed-acknowledgement
fault `PN532_ERR_BADACK` for every other mismatch (all-zero bytes included). -/
theorem tx_ack_fault (p : pn532_s) (cmd : Nat) (data1 data2 : List Nat)
    (k b0 b1 b2 : Nat) (rest : List Nat)
    (hp : p.pending = 0) (hm : p.mutex = true)
    (hpre : uart_preamble_loop 0xFF p.uart.wire = (2, k))
    (hack : p.uart.wire.drop k = b0 :: b1 :: b2 :: rest)
    (hbad : ¬ (b0 = 0x00 ∧ b1 = 0xFF ∧ b2 = 0x00)) :
    ∃ r, pn532_tx p cmd data1 data2 = some r ∧
      ((b0 = 0xFF ∧ b1 = 0x00 ∧ b2 = 0x00) →
        r.1 = -(PN532_ERR_NACK : Int) ∧ r.2.lasterr = PN532_ERR_NACK) ∧
      (¬ (b0 = 0xFF ∧ b1 = 0x00 ∧ b2 = 0x00) →
        r.1 = -(PN532_ERR_BADACK : Int) ∧ r.2.lasterr = PN532_ERR_BADACK) := by
  have h := pn532_tx_ack p cmd data1 data2 k b0 b1 b2 rest hp hm hpre hack
  refine ⟨_, h, ?_, ?_⟩
  · rintro ⟨rfl, rfl, rfl⟩
    simp
  · intro hn
    by_cases h1 : b2 ≠ 0
    · rw [if_pos h1]
      exact ⟨rfl, rfl⟩
    · rw [if_neg h1]
      by_cases h2 : b0 = 0xFF ∧ b1 = 0
      · exfalso; omega
      · rw [if_neg h2]
        by_cases h3 : b0 ≠ 0 ∨ b1 ≠ 0xFF
        · rw [if_pos h3]
          exact ⟨rfl, rfl⟩
        · exfalso; omega

theorem tx_ack_fault_witness :
    ∃ r, pn532_tx (session ⟨[], [0x00, 0x00, 0xFF, 0xFF, 0x00, 0x00], []⟩) 0x4A [2, 0] []
        = some r ∧
      (((0xFF : Nat) = 0xFF ∧ (0x00 : Nat) = 0x00 ∧ (0x00 : Nat) = 0x00) →
        r.1 = -(PN532_ERR_NACK : Int) ∧ r.2.lasterr = PN532_ERR_NACK) ∧
      (¬ ((0xFF : Nat) = 0xFF ∧ (0x00 : Nat) = 0x00 ∧ (0x00 : Nat) = 0x00) →
        r.1 = -(PN532_ERR_BADACK : Int) ∧ r.2.lasterr = PN532_ERR_BADACK) :=
  tx_ack_fault (session ⟨[], [0x00, 0x00, 0xFF, 0xFF, 0x00, 0x00], []⟩) 0x4A [2, 0] [] 3
    0xFF 0x00 0x00 [] rfl rfl (by decide) (by decide) (by decide)

/-- C9 fails on the all-zero acknowledgement 00 00 00, which is answered with
`PN532_ERR_BADACK`, not `PN532_ERR_NACK`; the negative acknowledgement the code
recognises is FF 00 00. -/
theorem tx_ack_fault_fails_at_zeros :
    (pn532_tx (session ⟨[], [0x00, 0xFF, 0x00, 0x00, 0x00], []⟩) 0x4A [2, 0] []).map
        (fun r => (r.1, r.2.lasterr)) = some (-(PN532_ERR_BADACK : Int), PN532_ERR_BADACK) ∧
    (pn532_tx (session ⟨[], [0x00, 0xFF, 0xFF, 0x00, 0x00], []⟩) 0x4A [2, 0] []).map
        (fun r => (r.1, r.2.lasterr)) = some (-(PN532_ERR_NACK : Int), PN532_ERR_NACK) := by
  constructor <;> decide

/-! ## C10: a send while a command is pending -/

/-- C10 (as amended): for every session in which a command is pending and every
command id and payload, `pn532_tx_mutex` fails with `-PN532_ERR_CMDPENDING`,
leaves pending at its previous value and transmits nothing; `pn532_tx` gives
that same answer when it obtains the semaphore, and while the semaphore is
held for the pending command it blocks in `xSemaphoreTake` without returning,
pending and the transport untouched. -/
theorem tx_while_pending (p : pn532_s) (cmd : Nat) (data1 data2 : List Nat)
    (hp : p.pending ≠ 0) :
    pn532_tx_mutex p cmd data1 data2
      = (-(PN532_ERR_CMDPENDING : Int), { p with lasterr := PN532_ERR_CMDPENDING }) ∧
    (p.mutex = true →
      pn532_tx p cmd data1 data2
        = some (-(PN532_ERR_CMDPENDING : Int),
            { p with lasterr := PN532_ERR_CMDPENDING, mutex := false })) ∧
    (p.mutex = false → pn532_tx p cmd data1 data2 = none) := by
  have h1 : ∀ q : pn532_s, q.pending ≠ 0 → pn532_tx_mutex q cmd data1 data2
      = (-(PN532_ERR_CMDPENDING : Int), { q with lasterr := PN532_ERR_CMDPENDING }) := by
    intro q hq
    unfold pn532_tx_mutex
    rw [if_pos hq]
    rfl
  refine ⟨h1 p hp, ?_, ?_⟩
  · intro hm
    unfold pn532_tx xSemaphoreTake
    simp only [hm, if_true]
    rw [h1 { p with mutex := false } hp]
    simp [hp]
  · intro hm
    unfold pn532_tx xSemaphoreTake
    simp [hm]

theorem tx_while_pending_witness :
    pn532_tx_mutex { session ⟨[1], [2], [3]⟩ with pending := 0x4B, mutex := false } 0x4A [2, 0] []
      = (-(PN532_ERR_CMDPENDING : Int),
          { ({ session ⟨[1], [2], [3]⟩ with pending := 0x4B, mutex := false } : pn532_s) with
            lasterr := PN532_ERR_CMDPENDING }) ∧
    pn532_tx { session ⟨[1], [2], [3]⟩ with pending := 0x4B, mutex := false } 0x4A [2, 0] []
      = none :=
  ⟨(tx_while_pending { session ⟨[1], [2], [3]⟩ with pending := 0x4B, mutex := false }
      0x4A [2, 0] [] (by decide)).1,
   (tx_while_pending { session ⟨[1], [2], [3]⟩ with pending := 0x4B, mutex := false }
      0x4A [2, 0] [] (by decide)).2.2 rfl⟩

/-- C10 fails in the session a successful send leaves behind: the first
`pn532_tx` returns with the reply id 0x4B pending and the semaphore taken, and a
second `pn532_tx` on that session does not return `-PN532_ERR_CMDPENDING`: it
blocks on the semaphore. -/
theorem tx_while_pending_blocks :
    (pn532_tx (session ⟨[], [0x00, 0x00, 0xFF, 0x00, 0xFF, 0x00], []⟩) 0x4A [2, 0] []).map
        (fun r => (r.1, r.2.pending, r.2.mutex)) = some (2, 0x4B, false) ∧
    (pn532_tx (session ⟨[], [0x00, 0x00, 0xFF, 0x00, 0xFF, 0x00], []⟩) 0x4A [2, 0] []).map
        (fun r => pn532_tx r.2 0x4A [2, 0] []) = some none := by
  constructor <;> decide

/-! ## C11: a receive with nothing pending -/

/-- C11: for every session with no command pending and every choice of buffers
and timeout, `pn532_rx` returns `-PN532_ERR_NOTPENDING` and performs no transport
read or write: the transport state and the caller buffers are as before (only
the last error is set). -/
theorem rx_not_pending (p : pn532_s) (max1 : Nat) (data1 : Option (List Nat)) (max2 : Nat)
    (data2 : Option (List Nat)) (ms : Int) (hp : p.pending = 0) :
    (pn532_rx p max1 data1 max2 data2 ms).ret = -(PN532_ERR_NOTPENDING : Int) ∧
    (pn532_rx p max1 data1 max2 data2 ms).p.uart = p.uart ∧
    (pn532_rx p max1 data1 max2 data2 ms).data1 = data1 ∧
    (pn532_rx p max1 data1 max2 data2 ms).data2 = data2 ∧
    (pn532_rx p max1 data1 max2 data2 ms).p = { p with lasterr := PN532_ERR_NOTPENDING } := by
  unfold pn532_rx
  rw [if_pos hp]
  exact ⟨rfl, rfl, rfl, rfl, rfl⟩

theorem rx_not_pending_witness :
    (pn532_rx (session ⟨[1, 2], [0x00, 0xFF, 3, 0xFD, 0xD5, 0x4B, 0, 0xE0, 0], [7]⟩)
        2 (some [9, 9]) 4 none 110).ret = -(PN532_ERR_NOTPENDING : Int) ∧
    (pn532_rx (session ⟨[1, 2], [0x00, 0xFF, 3, 0xFD, 0xD5, 0x4B, 0, 0xE0, 0], [7]⟩)
        2 (some [9, 9]) 4 none 110).p.uart
      = (session ⟨[1, 2], [0x00, 0xFF, 3, 0xFD, 0xD5, 0x4B, 0, 0xE0, 0], [7]⟩).uart ∧
    (pn532_rx (session ⟨[1, 2], [0x00, 0xFF, 3, 0xFD, 0xD5, 0x4B, 0, 0xE0, 0], [7]⟩)
        2 (some [9, 9]) 4 none 110).data1 = some [9, 9] ∧
    (pn532_rx (session ⟨[1, 2], [0x00, 0xFF, 3, 0xFD, 0xD5, 0x4B, 0, 0xE0, 0], [7]⟩)
        2 (some [9, 9]) 4 none 110).data2 = none ∧
    (pn532_rx (session ⟨[1, 2], [0x00, 0xFF, 3, 0xFD, 0xD5, 0x4B, 0, 0xE0, 0], [7]⟩)
        2 (some [9, 9]) 4 none 110).p
      = { session ⟨[1, 2], [0x00, 0xFF, 3, 0xFD, 0xD5, 0x4B, 0, 0xE0, 0], [7]⟩ with
          lasterr := PN532_ERR_NOTPENDING } :=
  rx_not_pending (session ⟨[1, 2], [0x00, 0xFF, 3, 0xFD, 0xD5, 0x4B, 0, 0xE0, 0], [7]⟩)
    2 (some [9, 9]) 4 none 110 rfl

/-! ## The discovery reply -/

/-- `pn532_Cards` from the point where it calls `pn532_rx`. -/
theorem pn532_Cards_of_awaits (p q : pn532_s) (buf : List Nat) (ha : cards_awaits p q) :
    pn532_Cards p buf =
      if (pn532_rx q 0 none 100 (some buf) 110).ret < 0 then
        some ((pn532_rx q 0 none 100 (some buf) 110).ret, (pn532_rx q 0 none 100 (some buf) 110).p)
      else
        some (pn532_Cards_parse (pn532_rx q 0 none 100 (some buf) 110).p
          ((pn532_rx q 0 none 100 (some buf) 110).data2.getD buf)
          (pn532_rx q 0 none 100 (some buf) 110).ret.toNat) := by
  rcases ha with ⟨hp, rfl⟩ | ⟨hp, hq, l, hs⟩
  · simp [pn532_Cards, hp]
  · simp [pn532_Cards, hp, hs, hq]

/-- `pn532_Cards` on a well-formed discovery reply of at most 100 payload bytes:
the parse runs on the local array with the payload at its start. -/
theorem pn532_Cards_reply (p q : pn532_s) (buf hdr payload : List Nat) (dcs : Nat)
    (rest : List Nat)
    (ha : cards_awaits p q)
    (hw : q.uart.avail = reply_frame hdr 0x4B payload dcs 0 ++ rest)
    (hh : valid_header hdr (payload.length + 2))
    (hfit : payload.length ≤ 100)
    (hck : (0xD5 + 0x4B + payload.sum + dcs) % 256 = 0) :
    pn532_Cards p buf = some (pn532_Cards_parse
      { q with pending := 0, mutex := true,
               uart := q.uart.consume (hdr.length + payload.length + 6) }
      (payload ++ buf.drop payload.length) payload.length) := by
  have hq : q.pending = 0x4B := by
    rcases ha with ⟨hp, rfl⟩ | ⟨_, hq, _⟩
    · exact hp
    · exact hq
  have hall : seg_len 0 none payload.length
      + seg_len 100 (some buf) (payload.length - seg_len 0 none payload.length)
      = payload.length := by
    simp only [seg_len]; split <;> omega
  have hrx := pn532_rx_frame q 0 none 100 (some buf) 110 hdr payload dcs 0 rest
    (by rw [hq]; decide) (by rw [hq]; exact hw) hh (by omega) hall
  have hc : (dcs + 0xD5 + q.pending + payload.sum) % 256 = 0 := by rw [hq]; omega
  rw [if_neg (by simpa using hc), if_neg (by simp)] at hrx
  rw [pn532_Cards_of_awaits p q buf ha, hrx]
  simp [seg_len, store]

/-! ## C12: the zero-card reply -/

/-- C12: for every prior registry state, when `pn532_Cards` receives a discovery
reply whose payload is the single byte 00 it returns 0 and leaves `cards = 0`,
all 11 `nfcid` bytes zero and all 30 `ats` bytes zero. -/
theorem cards_zero_reply (p q : pn532_s) (buf hdr : List Nat) (dcs : Nat) (rest : List Nat)
    (ha : cards_awaits p q)
    (hw : q.uart.avail = reply_frame hdr 0x4B [0x00] dcs 0 ++ rest)
    (hh : valid_header hdr 3)
    (hck : (0xD5 + 0x4B + 0x00 + dcs) % 256 = 0) :
    pn532_Cards p buf
      = some (0, { q with pending := 0, mutex := true,
                          uart := q.uart.consume (hdr.length + 7),
                          cards := 0, nfcid := List.replicate 11 0,
                          ats := List.replicate 30 0 }) := by
  rw [pn532_Cards_reply p q buf hdr [0x00] dcs rest ha hw hh (by simp) (by simpa using hck)]
  simp [pn532_Cards_parse, at8]

theorem cards_zero_reply_witness :
    pn532_Cards
        { session ⟨[], [0x00, 0xFF, 3, 0xFD, 0xD5, 0x4B, 0x00, 0xE0, 0x00], []⟩ with
          pending := 0x4B, mutex := false, cards := 1, tg := 1, sens_res := 0x0344,
          sel_res := 0x20, nfcid := [4, 1, 2, 3, 4, 0, 0, 0, 0, 0, 0],
          ats := [2, 0x75, 0x77] ++ List.replicate 27 0 }
        (List.replicate 100 0xEE)
      = some (0,
          { ({ session ⟨[], [0x00, 0xFF, 3, 0xFD, 0xD5, 0x4B, 0x00, 0xE0, 0x00], []⟩ with
              pending := 0x4B, mutex := false, cards := 1, tg := 1, sens_res := 0x0344,
              sel_res := 0x20, nfcid := [4, 1, 2, 3, 4, 0, 0, 0, 0, 0, 0],
              ats := [2, 0x75, 0x77] ++ List.replicate 27 0 } : pn532_s) with
            pending := 0, mutex := true,
            uart := (Uart.mk [] [0x00, 0xFF, 3, 0xFD, 0xD5, 0x4B, 0x00, 0xE0, 0x00] []).consume
              ([3, 0xFD].length + 7),
            cards := 0, nfcid := List.replicate 11 0, ats := List.replicate 30 0 }) :=
  cards_zero_reply _ _ (List.replicate 100 0xEE) [3, 0xFD] 0xE0 [] (Or.inl ⟨rfl, rfl⟩)
    (by decide) (Or.inl ⟨0xFD, rfl, by decide⟩) (by decide)

/-! ## C13: the reply for one card -/

theorem at8_append_left (a b : List Nat) (i : Nat) (h : i < a.length) :
    at8 (a ++ b) i = at8 a i := by
  simp [at8, List.getD_eq_getElem?_getD, List.getElem?_append_left h]

theorem at8_append_length (a b : List Nat) (x : Nat) : at8 (a ++ x :: b) a.length = x := by
  induction a with
  | nil => rfl
  | cons y ys ih => simpa [at8] using ih

theorem store_replicate (n x : Nat) (src : List Nat) :
    store (List.replicate (n + 1) 0) (x :: src) = x :: (src ++ List.replicate (n - src.length) 0) := by
  unfold store
  rw [List.length_cons, List.drop_replicate]
  have h : n + 1 - (src.length + 1) = n - src.length := by omega
  rw [h]
  rfl

/-- The parse of `pn532_Cards` on a reply for one card with a UID of at most 10
bytes and an ATS of at most 29 bytes after its length byte; `g` is whatever
follows the reply in the local array. -/
theorem pn532_Cards_parse_card (p : pn532_s) (count tg sh sl sel : Nat) (uid atsb g : List Nat)
    (hc : count ≠ 0) (hu : uid.length ≤ 10) (hat : atsb.length ≤ 29)
    (hsh : sh < 256) (hsl : sl < 256) :
    pn532_Cards_parse p
        ([count, tg, sh, sl, sel] ++ (uid.length :: uid) ++ ((atsb.length + 1) :: atsb) ++ g)
        (7 + uid.length + atsb.length)
      = ((count : Int),
          { p with cards := count, tg := tg, sens_res := 256 * sh + sl, sel_res := sel,
                   nfcid := uid.length :: uid ++ List.replicate (10 - uid.length) 0,
                   ats := atsb.length :: atsb ++ List.replicate (29 - atsb.length) 0 }) := by
  have e0 : at8 ([count, tg, sh, sl, sel] ++ (uid.length :: uid)
      ++ ((atsb.length + 1) :: atsb) ++ g) 0 = count := rfl
  have e1 : at8 ([count, tg, sh, sl, sel] ++ (uid.length :: uid)
      ++ ((atsb.length + 1) :: atsb) ++ g) 1 = tg := rfl
  have e2 : at8 ([count, tg, sh, sl, sel] ++ (uid.length :: uid)
      ++ ((atsb.length + 1) :: atsb) ++ g) 2 = sh := rfl
  have e3 : at8 ([count, tg, sh, sl, sel] ++ (uid.length :: uid)
      ++ ((atsb.length + 1) :: atsb) ++ g) 3 = sl := rfl
  have e4 : at8 ([count, tg, sh, sl, sel] ++ (uid.length :: uid)
      ++ ((atsb.length + 1) :: atsb) ++ g) 4 = sel := rfl
  have e5 : at8 ([count, tg, sh, sl, sel] ++ (uid.length :: uid)
      ++ ((atsb.length + 1) :: atsb) ++ g) 5 = uid.length := rfl
  have d5 : (([count, tg, sh, sl, sel] ++ (uid.length :: uid)
      ++ ((atsb.length + 1) :: atsb) ++ g).drop 5).take (uid.length + 1)
      = uid.length :: uid := by
    simp
  have hb : 5 + uid.length + 1 = ([count, tg, sh, sl, sel] ++ (uid.length :: uid)).length := by
    simp; omega
  have hl : [count, tg, sh, sl, sel] ++ (uid.length :: uid) ++ ((atsb.length + 1) :: atsb) ++ g
      = ([count, tg, sh, sl, sel] ++ (uid.length :: uid))
        ++ (atsb.length + 1) :: (atsb ++ g) := by
    simp
  have e6 : at8 ([count, tg, sh, sl, sel] ++ (uid.length :: uid)
      ++ ((atsb.length + 1) :: atsb) ++ g) (5 + uid.length + 1) = atsb.length + 1 := by
    rw [hl, hb]
    exact at8_append_length _ _ _
  have d6 : (([count, tg, sh, sl, sel] ++ (uid.length :: uid)
      ++ ((atsb.length + 1) :: atsb) ++ g).drop (5 + uid.length + 1)).take (atsb.length + 1)
      = (atsb.length + 1) :: atsb := by
    rw [hl, hb, List.drop_left]
    simp
  have hs : ((sh <<< 8) + sl) % 65536 = 256 * sh + sl := by
    rw [Nat.shiftLeft_eq]; omega
  have hn : store (List.replicate 11 0) (uid.length :: uid)
      = uid.length :: uid ++ List.replicate (10 - uid.length) 0 :=
    store_replicate 10 _ _
  have hats : (store (List.replicate 30 0) ((atsb.length + 1) :: atsb)).set 0
        (u8 ((at8 (store (List.replicate 30 0) ((atsb.length + 1) :: atsb)) 0 : Int) - 1))
      = atsb.length :: atsb ++ List.replicate (29 - atsb.length) 0 := by
    have hu8 : u8 (((atsb.length + 1 : Nat) : Int) - 1) = atsb.length := by unfold u8; omega
    rw [store_replicate 29]
    simp only [at8, List.getD_cons_zero, List.set_cons_zero, hu8, List.cons_append]
  simp only [pn532_Cards_parse, Nat.reduceAdd, e0, e1, e2, e3, e4, e5, d5, e6, d6, hs, hn, hats]
  clear e0 e1 e2 e3 e4 e5 d5 hb hl e6 d6 hs hn
  split_ifs <;>
    first | omega | rfl | (exfalso; simp only [false_or] at *; omega) | simp only [hats]

/-- C13: for every discovery reply payload of the form
`[count, tg, sens_hi, sens_lo, sel, ulen, ulen UID bytes, alen, alen - 1 ATS bytes]`
with `count ≠ 0`, `ulen ≤ 10` and `1 ≤ alen ≤ 30` (here `ulen = uid.length`,
`alen = atsb.length + 1`; the total length is then at most 100), `pn532_Cards`
returns `count` and sets `cards = count`, `tg`, `sens_res = 256 * sens_hi + sens_lo`,
`sel_res = sel`, `nfcid` to `ulen` followed by exactly the UID bytes (the rest of
the 11 bytes zero) and `ats` to `alen - 1` followed by exactly the `alen - 1` ATS
bytes (the rest of the 30 bytes zero). -/
theorem cards_one_card (p q : pn532_s) (buf hdr : List Nat) (dcs : Nat) (rest : List Nat)
    (count tg sh sl sel : Nat) (uid atsb : List Nat)
    (ha : cards_awaits p q)
    (hw : q.uart.avail
      = reply_frame hdr 0x4B
          ([count, tg, sh, sl, sel] ++ (uid.length :: uid) ++ ((atsb.length + 1) :: atsb))
          dcs 0 ++ rest)
    (hh : valid_header hdr (7 + uid.length + atsb.length + 2))
    (hck : (0xD5 + 0x4B
      + ([count, tg, sh, sl, sel] ++ (uid.length :: uid) ++ ((atsb.length + 1) :: atsb)).sum
      + dcs) % 256 = 0)
    (hc : count ≠ 0) (hu : uid.length ≤ 10) (hat : atsb.length + 1 ≤ 30)
    (hsh : sh < 256) (hsl : sl < 256) :
    pn532_Cards p buf
      = some ((count : Int),
          { q with pending := 0, mutex := true,
                   uart := q.uart.consume (hdr.length + (7 + uid.length + atsb.length) + 6),
                   cards := count, tg := tg, sens_res := 256 * sh + sl, sel_res := sel,
                   nfcid := uid.length :: uid ++ List.replicate (10 - uid.length) 0,
                   ats := atsb.length :: atsb ++ List.replicate (29 - atsb.length) 0 }) := by
  have hlen : ([count, tg, sh, sl, sel] ++ (uid.length :: uid)
      ++ ((atsb.length + 1) :: atsb)).length = 7 + uid.length + atsb.length := by
    simp; omega
  rw [pn532_Cards_reply p q buf hdr _ dcs rest ha hw (by rw [hlen]; exact hh)
    (by rw [hlen]; omega) hck, hlen]
  rw [pn532_Cards_parse_card _ count tg sh sl sel uid atsb _ hc hu (by omega) hsh hsl]

theorem cards_one_card_witness :
    pn532_Cards
        { session ⟨[], [0x00, 0xFF, 15, 241, 0xD5, 0x4B,
            1, 1, 0x03, 0x44, 0x20, 4, 0xA, 0xB, 0xC, 0xD, 3, 0x75, 0x77, 0x56, 0x00], []⟩ with
          pending := 0x4B, mutex := false }
        (List.replicate 100 0xEE)
      = some (((1 : Nat) : Int),
          { ({ session ⟨[], [0x00, 0xFF, 15, 241, 0xD5, 0x4B,
              1, 1, 0x03, 0x44, 0x20, 4, 0xA, 0xB, 0xC, 0xD, 3, 0x75, 0x77, 0x56, 0x00], []⟩ with
              pending := 0x4B, mutex := false } : pn532_s) with
            pending := 0, mutex := true,
            uart := (Uart.mk [] [0x00, 0xFF, 15, 241, 0xD5, 0x4B,
              1, 1, 0x03, 0x44, 0x20, 4, 0xA, 0xB, 0xC, 0xD, 3, 0x75, 0x77, 0x56, 0x00] []).consume
              ([15, 241].length + (7 + [0xA, 0xB, 0xC, 0xD].length + [0x75, 0x77].length) + 6),
            cards := 1, tg := 1, sens_res := 256 * 0x03 + 0x44, sel_res := 0x20,
            nfcid := [0xA, 0xB, 0xC, 0xD].length :: [0xA, 0xB, 0xC, 0xD]
              ++ List.replicate (10 - [0xA, 0xB, 0xC, 0xD].length) 0,
            ats := [0x75, 0x77].length :: [0x75, 0x77]
              ++ List.replicate (29 - [0x75, 0x77].length) 0 }) :=
  cards_one_card _ _ (List.replicate 100 0xEE) [15, 241] 0x56 [] 1 1 0x03 0x44 0x20
    [0xA, 0xB, 0xC, 0xD] [0x75, 0x77] (Or.inl ⟨rfl, rfl⟩) (by decide)
    (Or.inl ⟨241, rfl, by decide⟩) (by decide) (by decide) (by decide) (by decide) (by decide)
    (by decide)

/-- An acknowledged `pn532_ILPT_Send` on an idle session leaves the session
`pn532_Cards` then receives in. -/
theorem cards_awaits_of_ack (p : pn532_s) (k : Nat) (rest : List Nat)
    (hp : p.pending = 0) (hm : p.mutex = true)
    (hpre : uart_preamble_loop 0xFF p.uart.wire = (2, k))
    (hack : p.uart.wire.drop k = 0x00 :: 0xFF :: 0x00 :: rest) :
    cards_awaits p { tx_sent p 0x4A [2, 0] [] rest with pending := 0x4B, mutex := false } := by
  have h := pn532_tx_ack p 0x4A [2, 0] [] k 0x00 0xFF 0x00 rest hp hm hpre hack
  have hu : u8 ((0x4A : Nat) + 1 : Int) = 0x4B := by decide
  simp only [ne_eq, not_true_eq_false, if_false, OfNat.ofNat_ne_zero, false_and, or_self,
    OfNat.zero_ne_ofNat, hu] at h
  refine Or.inr ⟨hp, rfl, 0, ?_⟩
  simp [pn532_ILPT_Send, h]

/-! ## C14: data exchange with no card registered -/

/-- C14: for every session whose registry card count is 0, `pn532_dx` returns 0
at once for every payload: the session (transport, pending, registry, last
error) and the caller buffer are unchanged. -/
theorem dx_no_card (p : pn532_s) (len : Nat) (data : List Nat) (max : Nat)
    (hc : p.cards = 0) :
    pn532_dx p len data max = some ⟨0, p, data⟩ := by
  unfold pn532_dx
  rw [if_pos hc]

theorem dx_no_card_witness :
    pn532_dx { session ⟨[1], [0x00, 0xFF, 0x00, 0xFF, 0x00], [2]⟩ with
        pending := 0x4B, mutex := false } 2 [0x30, 4, 9, 9] 26
      = some ⟨0, { session ⟨[1], [0x00, 0xFF, 0x00, 0xFF, 0x00], [2]⟩ with
          pending := 0x4B, mutex := false }, [0x30, 4, 9, 9]⟩ :=
  dx_no_card _ 2 [0x30, 4, 9, 9] 26 rfl

/-! ## The reply to a data exchange -/

theorem Uart.consume_wire (a rest t : List Nat) (n : Nat) (h : n = a.length) :
    (Uart.mk [] (a ++ rest) t).consume n = Uart.mk [] rest t := by
  subst h
  simp [Uart.consume]

/-- The whole of `pn532_dx` on a session with a card registered, nothing pending
and the semaphore available, when the command is acknowledged and a well-formed
reply of at most `1 + max` payload bytes follows. -/
theorem pn532_dx_reply (p : pn532_s) (len : Nat) (data : List Nat) (max k : Nat)
    (hdr payload : List Nat) (dcs : Nat) (rest : List Nat)
    (hc : p.cards ≠ 0) (hp : p.pending = 0) (hm : p.mutex = true)
    (hpre : uart_preamble_loop 0xFF p.uart.wire = (2, k))
    (hack : p.uart.wire.drop k
      = 0x00 :: 0xFF :: 0x00 :: (reply_frame hdr 0x41 payload dcs 0 ++ rest))
    (hh : valid_header hdr (payload.length + 2))
    (hfit : payload.length ≤ 1 + max)
    (hck : (0xD5 + 0x41 + payload.sum + dcs) % 256 = 0) :
    pn532_dx p len data max = some (
      match payload with
      | [] =>
        ⟨-(PN532_ERR_SHORT : Int),
          { tx_sent p 0x40 [p.tg] (data.take len) rest with lasterr := PN532_ERR_SHORT }, data⟩
      | s :: resp =>
        if s ≠ 0 then
          ⟨-(PN532_ERR_STATUS : Int) - s,
            { tx_sent p 0x40 [p.tg] (data.take len) rest with
              lasterr := u8 ((PN532_ERR_STATUS : Int) + s) },
            resp ++ data.drop resp.length⟩
        else
          ⟨(resp.length : Int), tx_sent p 0x40 [p.tg] (data.take len) rest,
            resp ++ data.drop resp.length⟩) := by
  have hu : u8 ((0x40 : Nat) + 1 : Int) = 0x41 := by decide
  obtain ⟨q0, hq0⟩ : ∃ q0 : pn532_s, q0 = { tx_sent p 0x40 [p.tg] (data.take len)
      (reply_frame hdr 0x41 payload dcs 0 ++ rest) with pending := 0x41, mutex := false } :=
    ⟨_, rfl⟩
  have htx : pn532_tx p 0x40 [p.tg] (data.take len)
      = some ((([p.tg].length + (data.take len).length : Nat) : Int), q0) := by
    rw [pn532_tx_ack p 0x40 [p.tg] (data.take len) k 0x00 0xFF 0x00
      (reply_frame hdr 0x41 payload dcs 0 ++ rest) hp hm hpre hack, hq0]
    have hu2 : u8 65 = 65 := by decide
    simp [hu2]
  have hall : seg_len 1 (some [0]) payload.length
      + seg_len max (some data) (payload.length - seg_len 1 (some [0]) payload.length)
      = payload.length := by
    simp only [seg_len]; split <;> split <;> omega
  have hlen : hdr.length + payload.length + 6 = (reply_frame hdr 0x41 payload dcs 0).length := by
    simp [reply_frame]; omega
  have hfin : ({ q0 with pending := 0, mutex := true, uart := q0.uart.consume (hdr.length + payload.length + 6) } : pn532_s)
      = tx_sent p 0x40 [p.tg] (data.take len) rest := by
    rw [hq0]
    simp only [tx_sent, Uart.consume_wire _ _ _ _ hlen]
    cases p
    simp only at hp hm
    subst hp hm
    rfl
  have hcs : (dcs + 0xD5 + q0.pending + payload.sum) % 256 = 0 := by
    rw [hq0]; simp only; omega
  have hrx := pn532_rx_frame q0 1 (some [0]) max (some data) 500 hdr payload dcs 0 rest
    (by rw [hq0]; simp) (by rw [hq0]; simp [tx_sent, Uart.avail]) hh (by omega) hall
  rw [if_neg (by simpa using hcs), if_neg (by simp), hfin] at hrx
  have hnn : (([p.tg].length + (data.take len).length : Nat) : Int) ≥ 0 := by omega
  unfold pn532_dx
  rw [if_neg hc]
  simp only [PN532_COMMAND_INDATAEXCHANGE, htx, hnn, if_true, hrx]
  cases payload with
  | nil =>
    simp [seg_len, store, at8, PN532_ERR_SHORT, u8]
  | cons s resp =>
    have hne : ¬ ((resp.length : Int) + 1 = 0) := by omega
    have hge : ¬ ((resp.length : Int) + 1 < 0) := by omega
    have hle : (1 : Int) ≤ (resp.length : Int) + 1 := by omega
    by_cases hs : s = 0
    · simp [seg_len, store, at8, hs, hne, hge]
    · have hneg : -(PN532_ERR_STATUS : Int) - (s : Int) < 0 := by
        simp only [PN532_ERR_STATUS]; omega
      simp [seg_len, store, at8, hs, hne, hle, hneg]
      rw [add_comm]

/-! ## C15: a non-zero status byte -/

/-- C15 (as amended): for every non-zero status byte `s` in 1..241 at the start
of the chip's reply to the data-exchange command, `pn532_dx` returns
`-(PN532_ERR_STATUS + s)`, a negative value and never a payload length, and
records exactly the code `PN532_ERR_STATUS + s` as the session's last error,
the value `pn532_lasterr` then returns. -/
theorem dx_status_fault (p : pn532_s) (len : Nat) (data : List Nat) (max k : Nat)
    (hdr : List Nat) (s : Nat) (resp : List Nat) (dcs : Nat) (rest : List Nat)
    (hc : p.cards ≠ 0) (hp : p.pending = 0) (hm : p.mutex = true)
    (hpre : uart_preamble_loop 0xFF p.uart.wire = (2, k))
    (hack : p.uart.wire.drop k
      = 0x00 :: 0xFF :: 0x00 :: (reply_frame hdr 0x41 (s :: resp) dcs 0 ++ rest))
    (hh : valid_header hdr ((s :: resp).length + 2))
    (hfit : resp.length ≤ max)
    (hck : (0xD5 + 0x41 + (s :: resp).sum + dcs) % 256 = 0)
    (hs0 : s ≠ 0) (hs : s ≤ 241) :
    ∃ d, pn532_dx p len data max = some d ∧
      d.ret = -((PN532_ERR_STATUS + s : Nat) : Int) ∧ d.ret < 0 ∧
      d.p.lasterr = PN532_ERR_STATUS + s ∧
      pn532_lasterr d.p = ((PN532_ERR_STATUS + s : Nat) : Int) := by
  have h := pn532_dx_reply p len data max k hdr (s :: resp) dcs rest hc hp hm hpre hack hh
    (by simp only [List.length_cons]; omega) hck
  simp only [ne_eq, hs0, not_false_eq_true, if_true] at h
  have hu : u8 ((PN532_ERR_STATUS : Int) + s) = PN532_ERR_STATUS + s := by
    unfold u8; simp only [PN532_ERR_STATUS]; omega
  refine ⟨_, h, ?_, ?_, ?_, ?_⟩
  · simp only [PN532_ERR_STATUS]; omega
  · simp only [PN532_ERR_STATUS]; omega
  · exact hu
  · simp only [pn532_lasterr, hu]

theorem dx_status_fault_witness :
    ∃ d, pn532_dx
        { session ⟨[], [0x00, 0xFF, 0x00, 0xFF, 0x00,
            0x00, 0xFF, 3, 0xFD, 0xD5, 0x41, 0x14, 0xD6, 0x00], []⟩ with cards := 1, tg := 1 }
        2 [0x30, 4, 9, 9] 26 = some d ∧
      d.ret = -((PN532_ERR_STATUS + 0x14 : Nat) : Int) ∧ d.ret < 0 ∧
      d.p.lasterr = PN532_ERR_STATUS + 0x14 ∧
      pn532_lasterr d.p = ((PN532_ERR_STATUS + 0x14 : Nat) : Int) :=
  dx_status_fault _ 2 [0x30, 4, 9, 9] 26 2 [3, 0xFD] 0x14 [] 0xD6 [] (by decide) rfl rfl
    (by decide) (by decide) (Or.inl ⟨0xFD, rfl, by decide⟩) (by decide) (by decide) (by decide)
    (by decide)

/-- C15 fails at the status byte 255: `pn532_dx` returns `-(14 + 255) = -269`,
but the last error is kept in 8 bits and holds `269 - 256 = 13`, the code of
`PN532_ERR_POSTAMBLE`, which is what `pn532_lasterr` then returns. -/
theorem dx_status_fault_fails_at_255 :
    (pn532_dx
        { session ⟨[], [0x00, 0xFF, 0x00, 0xFF, 0x00,
            0x00, 0xFF, 3, 0xFD, 0xD5, 0x41, 0xFF, 0xEB, 0x00], []⟩ with cards := 1, tg := 1 }
        2 [0x30, 4, 9, 9] 26).map (fun d => (d.ret, d.p.lasterr, pn532_lasterr d.p))
      = some (-269, PN532_ERR_POSTAMBLE, 13) := by
  decide

/-! ## C16: a data exchange the card answers -/

/-- C16: for every session with a card registered and no command pending, if
the data-exchange command is acknowledged and the chip's reply payload is a
zero status byte followed by `k` card-response bytes with `k ≤ max`, `pn532_dx`
returns `k` and the first `k` bytes of the caller buffer `data` are exactly
those response bytes (the bytes of `data` beyond them are as before). -/
theorem dx_reply_ok (p : pn532_s) (len : Nat) (data : List Nat) (max k : Nat)
    (hdr resp : List Nat) (dcs : Nat) (rest : List Nat)
    (hc : p.cards ≠ 0) (hp : p.pending = 0) (hm : p.mutex = true)
    (hpre : uart_preamble_loop 0xFF p.uart.wire = (2, k))
    (hack : p.uart.wire.drop k
      = 0x00 :: 0xFF :: 0x00 :: (reply_frame hdr 0x41 (0x00 :: resp) dcs 0 ++ rest))
    (hh : valid_header hdr ((0x00 :: resp).length + 2))
    (hfit : resp.length ≤ max)
    (hck : (0xD5 + 0x41 + (0x00 :: resp).sum + dcs) % 256 = 0) :
    ∃ d, pn532_dx p len data max = some d ∧
      d.ret = (resp.length : Int) ∧
      d.data.take resp.length = resp ∧
      d.data = resp ++ data.drop resp.length ∧
      d.p = tx_sent p 0x40 [p.tg] (data.take len) rest := by
  have h := pn532_dx_reply p len data max k hdr (0x00 :: resp) dcs rest hc hp hm hpre hack hh
    (by simp only [List.length_cons]; omega) hck
  simp only [ne_eq, not_true_eq_false, if_false] at h
  exact ⟨_, h, rfl, by simp, rfl, rfl⟩

theorem dx_reply_ok_witness :
    ∃ d, pn532_dx
        { session ⟨[], [0x00, 0xFF, 0x00, 0xFF, 0x00,
            0x00, 0xFF, 5, 0xFB, 0xD5, 0x41, 0x00, 7, 8, 0xDB, 0x00], []⟩ with cards := 1, tg := 1 }
        2 [0x30, 4, 9, 9] 26 = some d ∧
      d.ret = (([7, 8] : List Nat).length : Int) ∧
      d.data.take ([7, 8] : List Nat).length = [7, 8] ∧
      d.data = [7, 8] ++ [0x30, 4, 9, 9].drop ([7, 8] : List Nat).length ∧
      d.p = tx_sent
        { session ⟨[], [0x00, 0xFF, 0x00, 0xFF, 0x00,
            0x00, 0xFF, 5, 0xFB, 0xD5, 0x41, 0x00, 7, 8, 0xDB, 0x00], []⟩ with cards := 1, tg := 1 }
        0x40 [1] ([0x30, 4, 9, 9].take 2) [] :=
  dx_reply_ok _ 2 [0x30, 4, 9, 9] 26 2 [5, 0xFB] [7, 8] 0xDB [] (by decide) rfl rfl
    (by decide) (by decide) (Or.inl ⟨0xFB, rfl, by decide⟩) (by decide) (by decide)

/-! ## C17: the page range of an NTAG2xx write -/

/-- The scratch buffer `pn532_ntag2xx_WritePage` hands to the data exchange. -/
theorem write_page_buffer (page : Nat) (data : List Nat) (hd : 4 ≤ data.length) :
    store_at (((List.replicate PN532_PACKBUFFSIZ 0).set 0 MIFARE_ULTRALIGHT_CMD_WRITE).set 1 page)
        2 (data.take 4)
      = [0xA2, page] ++ data.take 4 ++ List.replicate 58 0 := by
  have hl : (data.take 4).length = 4 := by rw [List.length_take]; omega
  unfold store_at
  rw [hl]
  rfl

/-! ## What sends and receives leave alone -/

theorem core_rx_header (p : pn532_s) (pending : Nat) (ms : Int) :
    core (pn532_rx_header p pending ms).2 = core p := by
  simp only [pn532_rx_header]
  split_ifs <;> rfl

theorem core_rx_seg (p : pn532_s) (max : Nat) (data : Option (List Nat)) (len sum : Nat) :
    core (pn532_rx_seg p max data len sum).p = core p := by
  unfold pn532_rx_seg
  split
  · rfl
  · simp only []
    split_ifs <;> rfl

theorem core_rx_mutex (p : pn532_s) (max1 : Nat) (data1 : Option (List Nat)) (max2 : Nat)
    (data2 : Option (List Nat)) (ms : Int) :
    core (pn532_rx_mutex p max1 data1 max2 data2 ms).p = core { p with pending := 0 } := by
  have hh := core_rx_header { p with pending := 0 } p.pending ms
  simp only [pn532_rx_mutex]
  split
  · next e q hq =>
    rw [hq] at hh
    exact hh
  · next len q hq =>
    rw [hq] at hh
    simp only at hh
    have h1 := core_rx_seg q max1 data1 (len - 2) (u8 (0xD5 + (p.pending : Int)))
    have h2 := core_rx_seg (pn532_rx_seg q max1 data1 (len - 2) (u8 (0xD5 + (p.pending : Int)))).p
      max2 data2 (pn532_rx_seg q max1 data1 (len - 2) (u8 (0xD5 + (p.pending : Int)))).len
      (pn532_rx_seg q max1 data1 (len - 2) (u8 (0xD5 + (p.pending : Int)))).sum
    split_ifs
    all_goals first
      | exact hh
      | exact h1.trans hh
      | exact h2.trans (h1.trans hh)

theorem core_update (a b : pn532_s) (x : Nat) (y : Bool) (h : core a = core b) :
    core { a with pending := x, mutex := y } = core { b with pending := x, mutex := y } := by
  cases a
  cases b
  simp only [core, pn532_s.mk.injEq] at h ⊢
  simp [h]

theorem core_lasterr (a : pn532_s) (e : Nat) : core { a with lasterr := e } = core a := rfl

theorem core_idle (a b : pn532_s) (h : core a = core b) (hb : idle b) : idle a := by
  have h1 : (core a).pending = (core b).pending := by rw [h]
  have h2 : (core a).mutex = (core b).mutex := by rw [h]
  exact ⟨h1.trans hb.1, h2.trans hb.2⟩

theorem core_of_idle (p : pn532_s) (h : idle p) :
    core { p with pending := 0, mutex := true } = core p := by
  cases p
  simp only [idle] at h
  simp [core, h.1, h.2]

theorem core_rx (q : pn532_s) (max1 : Nat) (d1 : Option (List Nat)) (max2 : Nat)
    (d2 : Option (List Nat)) (ms : Int) (hq : q.pending ≠ 0) :
    core (pn532_rx q max1 d1 max2 d2 ms).p = core { q with pending := 0, mutex := true } := by
  rw [pn532_rx_of_pending q max1 d1 max2 d2 ms hq]
  have h := core_rx_mutex q max1 d1 max2 d2 ms
  have h2 := core_update _ _ 0 true h
  simp only [xSemaphoreGive]
  cases hr : (pn532_rx_mutex q max1 d1 max2 d2 ms).p
  rw [hr] at h
  simp only [core, pn532_s.mk.injEq] at h ⊢
  simp [h]

/-- A send on a session with nothing pending either fails and leaves pending
unset, or succeeds and stores the reply id. -/
theorem core_tx_mutex (p : pn532_s) (cmd : Nat) (data1 data2 : List Nat) (hp : p.pending = 0) :
    ((pn532_tx_mutex p cmd data1 data2).1 < 0 ∧
      core (pn532_tx_mutex p cmd data1 data2).2 = core p) ∨
    (0 ≤ (pn532_tx_mutex p cmd data1 data2).1 ∧
      core (pn532_tx_mutex p cmd data1 data2).2
        = core { p with pending := u8 ((cmd : Int) + 1) }) := by
  have h1 := uart_tx_if
  unfold pn532_tx_mutex
  rw [if_neg (by simp [hp])]
  simp only [h1, pn532_tx_mutex_written]
  split_ifs
  all_goals first
    | (left; exact ⟨by simp [tx_fault, PN532_ERR_TIMEOUTACK, PN532_ERR_BADACK, PN532_ERR_NACK], rfl⟩)
    | (right; exact ⟨Int.natCast_nonneg _, rfl⟩)

theorem core_pending (a b : pn532_s) (h : core a = core b) : a.pending = b.pending := by
  have h1 : (core a).pending = (core b).pending := by rw [h]
  exact h1

theorem core_give (a b : pn532_s) (h : core a = core b) :
    core (xSemaphoreGive a) = core { b with mutex := true } := by
  cases a
  cases b
  simp only [core, xSemaphoreGive, pn532_s.mk.injEq] at h ⊢
  simp [h]

/-- A send on an idle session returns: either with a fault and the session idle
as before, or with success, the reply id pending and the semaphore kept. -/
theorem pn532_tx_idle (p : pn532_s) (cmd : Nat) (data1 data2 : List Nat) (hi : idle p)
    (hcmd : u8 ((cmd : Int) + 1) ≠ 0) :
    ∃ t, pn532_tx p cmd data1 data2 = some t ∧
      ((t.1 < 0 ∧ core t.2 = core p) ∨
       (0 ≤ t.1 ∧ core t.2
          = core { p with pending := u8 ((cmd : Int) + 1), mutex := false })) := by
  obtain ⟨hp, hm⟩ := hi
  unfold pn532_tx xSemaphoreTake
  simp only [hm, if_true]
  refine ⟨_, rfl, ?_⟩
  rcases core_tx_mutex { p with mutex := false } cmd data1 data2 hp with ⟨hl, hc⟩ | ⟨hl, hc⟩
  · left
    refine ⟨hl, ?_⟩
    have hpe : (pn532_tx_mutex { p with mutex := false } cmd data1 data2).2.pending = 0 :=
      (core_pending _ _ hc).trans hp
    simp only [hpe, if_true]
    rw [core_give _ _ hc]
    cases p
    simp only at hm
    subst hm
    rfl
  · right
    refine ⟨hl, ?_⟩
    have hpe : (pn532_tx_mutex { p with mutex := false } cmd data1 data2).2.pending
        = u8 ((cmd : Int) + 1) := core_pending _ _ hc
    simp only [hpe, hcmd, if_false]
    exact hc

/-- A data exchange on an idle session returns and leaves the session idle,
with the card registry as it was. -/
theorem pn532_dx_idle (p : pn532_s) (len : Nat) (data : List Nat) (max : Nat) (hi : idle p) :
    ∃ d, pn532_dx p len data max = some d ∧ core d.p = core p := by
  unfold pn532_dx
  by_cases hc : p.cards = 0
  · rw [if_pos hc]
    exact ⟨_, rfl, rfl⟩
  · rw [if_neg hc]
    obtain ⟨t, ht, hcase⟩ := pn532_tx_idle p PN532_COMMAND_INDATAEXCHANGE [p.tg]
      (data.take len) hi (by decide)
    rw [ht]
    simp only []
    rcases hcase with ⟨hl, hcore⟩ | ⟨hl, hcore⟩
    · have hnot : ¬ (t.1 ≥ 0) := by omega
      simp only [hnot, if_false, hl, if_true]
      exact ⟨_, rfl, hcore⟩
    · have hge : t.1 ≥ 0 := hl
      have hq : t.2.pending ≠ 0 := by
        have h41 : t.2.pending = u8 ((PN532_COMMAND_INDATAEXCHANGE : Int) + 1) :=
          core_pending _ _ hcore
        rw [h41]
        decide
      have hr := core_rx t.2 1 (some [0]) max (some data) 500 hq
      have hr2 : core (pn532_rx t.2 1 (some [0]) max (some data) 500).p = core p := by
        rw [hr, core_update _ _ 0 true hcore]
        exact core_of_idle p hi
      simp only [hge, if_true]
      split_ifs
      all_goals exact ⟨_, rfl, hr2⟩

/-! ## The bulk erase as a sequence of page writes -/

theorem write_page_idle (obj : pn532_s) (pb : List Nat) (page : Nat) (data : List Nat)
    (hi : idle obj) :
    ∃ w, pn532_ntag2xx_WritePage obj pb page data = some w ∧ core w.p = core obj := by
  unfold pn532_ntag2xx_WritePage
  split_ifs
  · exact ⟨_, rfl, rfl⟩
  · simp only []
    obtain ⟨d, hd, hcore⟩ := pn532_dx_idle obj 6
      (store_at (((List.replicate PN532_PACKBUFFSIZ 0).set 0 MIFARE_ULTRALIGHT_CMD_WRITE).set 1
        page) 2 (data.take 4)) 26 hi
    rw [hd]
    exact ⟨_, rfl, hcore⟩

theorem write_pages_idle (pages : List Nat) (obj : pn532_s) (pb : List Nat) (hi : idle obj) :
    ∃ r, write_pages pages obj pb = some r ∧ core r.1 = core obj := by
  induction pages generalizing obj pb with
  | nil => exact ⟨_, rfl, rfl⟩
  | cons page pages ih =>
    obtain ⟨w, hw, hcore⟩ := write_page_idle obj pb page [0, 0, 0, 0] hi
    obtain ⟨r, hr, hcr⟩ := ih w.p w.packetbuffer (core_idle _ _ hcore hi)
    refine ⟨r, ?_, hcr.trans hcore⟩
    simp only [write_pages, hw, hr]

/-- The loop of the erase from the page counter `page` on, given enough
iterations: the page writes for `page`, `page + 1`, ..., `N`, in this order. -/
theorem erase_loop_eq (N : Nat) (hN : N ≤ 254) (fuel : Nat) :
    ∀ (page : Nat) (obj : pn532_s) (pb : List Nat), page ≤ N + 1 → N + 1 - page ≤ fuel →
      pn532_ntag2xx_erase_loop N fuel page obj pb
        = match write_pages (List.range' page (N + 1 - page)) obj pb with
          | some r => Run.done r
          | none => Run.blocked := by
  induction fuel with
  | zero =>
    intro page obj pb hle hf
    have he : N + 1 - page = 0 := by omega
    simp only [pn532_ntag2xx_erase_loop, he, List.range'_zero, write_pages]
    rw [if_neg (by omega)]
  | succ f ih =>
    intro page obj pb hle hf
    by_cases hlt : page < N + 1
    · have he : N + 1 - page = (N + 1 - (page + 1)) + 1 := by omega
      have hu : u8 ((page : Int) + 1) = page + 1 := by unfold u8; omega
      rw [he, List.range'_succ]
      simp only [pn532_ntag2xx_erase_loop, write_pages, hu]
      rw [if_pos hlt]
      cases hw : pn532_ntag2xx_WritePage obj pb page [0, 0, 0, 0] with
      | none => rfl
      | some w =>
        simp only []
        exact ih (page + 1) w.p w.packetbuffer (by omega) (by omega)
    · have he : N + 1 - page = 0 := by omega
      simp only [pn532_ntag2xx_erase_loop, he, List.range'_zero, write_pages]
      rw [if_neg hlt]

/-! ## C20: what a page read hands back -/

/-- C20, the code at its failing inputs.  With no card registered
`pn532_ntag2xx_ReadPage` returns 1 without any exchange (nothing is written to
the transport) and the caller buffer receives `30 04 00 00`, the read command
left in the scratch buffer.  With a card registered and a reply of one byte AB
it returns 1 as well and the caller buffer receives `AB 04 00 00`: one reply
byte followed by what was in the scratch buffer. -/
theorem read_page_returns_1_without_page :
    (pn532_ntag2xx_ReadPage (session ⟨[], [], []⟩) (List.replicate 64 0xEE) 4 [9, 9, 9, 9]).map
        (fun r => (r.ret, r.buffer, r.p.uart.tx)) = some (1, [0x30, 0x04, 0x00, 0x00], []) ∧
    (pn532_ntag2xx_ReadPage
        (session_card ⟨[], [0x00, 0xFF, 0x00, 0xFF, 0x00,
          0x00, 0xFF, 4, 0xFC, 0xD5, 0x41, 0x00, 0xAB, 0x3F, 0x00], []⟩)
        (List.replicate 64 0xEE) 4 [9, 9, 9, 9]).map
        (fun r => (r.ret, r.buffer)) = some (1, [0xAB, 0x04, 0x00, 0x00]) := by
  refine ⟨by decide, by decide⟩

/-! ## What the bulk erase puts on the wire -/

theorem tx_rx_header (p : pn532_s) (pending : Nat) (ms : Int) :
    (pn532_rx_header p pending ms).2.uart.tx = p.uart.tx := by
  simp only [pn532_rx_header]
  split_ifs <;> rfl

theorem tx_rx_seg (p : pn532_s) (max : Nat) (data : Option (List Nat)) (len sum : Nat) :
    (pn532_rx_seg p max data len sum).p.uart.tx = p.uart.tx := by
  unfold pn532_rx_seg
  split
  · rfl
  · simp only []
    split_ifs <;> rfl

theorem tx_rx_mutex (p : pn532_s) (max1 : Nat) (data1 : Option (List Nat)) (max2 : Nat)
    (data2 : Option (List Nat)) (ms : Int) :
    (pn532_rx_mutex p max1 data1 max2 data2 ms).p.uart.tx = p.uart.tx := by
  have hh := tx_rx_header { p with pending := 0 } p.pending ms
  simp only [pn532_rx_mutex]
  split
  · next e q hq =>
    rw [hq] at hh
    exact hh
  · next len q hq =>
    rw [hq] at hh
    simp only at hh
    have h1 := tx_rx_seg q max1 data1 (len - 2) (u8 (0xD5 + (p.pending : Int)))
    have h2 := tx_rx_seg (pn532_rx_seg q max1 data1 (len - 2) (u8 (0xD5 + (p.pending : Int)))).p
      max2 data2 (pn532_rx_seg q max1 data1 (len - 2) (u8 (0xD5 + (p.pending : Int)))).len
      (pn532_rx_seg q max1 data1 (len - 2) (u8 (0xD5 + (p.pending : Int)))).sum
    split_ifs
    all_goals first
      | exact hh
      | exact h1.trans hh
      | exact h2.trans (h1.trans hh)

/-- A receive writes nothing. -/
theorem tx_rx (p : pn532_s) (max1 : Nat) (data1 : Option (List Nat)) (max2 : Nat)
    (data2 : Option (List Nat)) (ms : Int) :
    (pn532_rx p max1 data1 max2 data2 ms).p.uart.tx = p.uart.tx := by
  unfold pn532_rx
  split_ifs
  · rfl
  · exact tx_rx_mutex p max1 data1 max2 data2 ms

/-- A send on an idle session writes its frame, acknowledged or not. -/
theorem tx_tx_idle (p : pn532_s) (cmd : Nat) (data1 data2 : List Nat) (hi : idle p) :
    ∀ t, pn532_tx p cmd data1 data2 = some t →
      t.2.uart.tx = p.uart.tx ++ tx_frame cmd data1 data2 := by
  intro t ht
  obtain ⟨hp, hm⟩ := hi
  have h := pn532_tx_mutex_tx { p with mutex := false } cmd data1 data2 hp
  unfold pn532_tx xSemaphoreTake at ht
  simp only [hm, if_true, Option.some.injEq] at ht
  rw [← ht]
  simp only []
  split_ifs
  · exact h
  · exact h

/-- A data exchange on an idle session with a card registered writes exactly
its command frame, whatever the chip answers. -/
theorem tx_dx_idle (p : pn532_s) (len : Nat) (data : List Nat) (max : Nat) (hi : idle p)
    (hc : p.cards ≠ 0) :
    ∀ d, pn532_dx p len data max = some d →
      d.p.uart.tx = p.uart.tx ++ tx_frame PN532_COMMAND_INDATAEXCHANGE [p.tg] (data.take len) := by
  intro d hd
  unfold pn532_dx at hd
  rw [if_neg hc] at hd
  obtain ⟨t, ht, _⟩ := pn532_tx_idle p PN532_COMMAND_INDATAEXCHANGE [p.tg]
    (data.take len) hi (by decide)
  have htx := tx_tx_idle p PN532_COMMAND_INDATAEXCHANGE [p.tg] (data.take len) hi t ht
  rw [ht] at hd
  simp only [] at hd
  have hr := tx_rx t.2 1 (some [0]) max (some data) 500
  split_ifs at hd
  all_goals
    simp only [Option.some.injEq] at hd
    rw [← hd]
    first
      | exact htx
      | exact hr.trans htx

/-- With `ntag_max_page = 255` the loop condition `page < ntag_max_page + 1`
holds for every value of the 8-bit page counter, so no number of iterations
leaves the loop: the run is still inside it or waits for the semaphore. -/
theorem erase_loop_255 (fuel : Nat) :
    ∀ (page : Nat) (obj : pn532_s) (pb : List Nat), page < 256 →
      pn532_ntag2xx_erase_loop 255 fuel page obj pb = Run.running ∨
      pn532_ntag2xx_erase_loop 255 fuel page obj pb = Run.blocked := by
  induction fuel with
  | zero =>
    intro page obj pb hp
    left
    simp only [pn532_ntag2xx_erase_loop]
    rw [if_pos (by omega)]
  | succ f ih =>
    intro page obj pb hp
    simp only [pn532_ntag2xx_erase_loop]
    rw [if_pos (by omega)]
    cases hw : pn532_ntag2xx_WritePage obj pb page [0, 0, 0, 0] with
    | none => right; rfl
    | some w => exact ih (u8 ((page : Int) + 1)) w.p w.packetbuffer (u8_lt _)

/-- On a session with nothing pending and the semaphore available every page
write returns, so with `ntag_max_page = 255` the run is inside the loop after
any number of iterations. -/
theorem erase_loop_255_idle (fuel : Nat) :
    ∀ (page : Nat) (obj : pn532_s) (pb : List Nat), page < 256 → idle obj →
      pn532_ntag2xx_erase_loop 255 fuel page obj pb = Run.running := by
  induction fuel with
  | zero =>
    intro page obj pb hp _
    simp only [pn532_ntag2xx_erase_loop]
    rw [if_pos (by omega)]
  | succ f ih =>
    intro page obj pb hp hi
    obtain ⟨w, hw, hcore⟩ := write_page_idle obj pb page [0, 0, 0, 0] hi
    simp only [pn532_ntag2xx_erase_loop, hw]
    rw [if_pos (by omega)]
    exact ih (u8 ((page : Int) + 1)) w.p w.packetbuffer (u8_lt _) (core_idle _ _ hcore hi)

/-- For `ntag_max_page ≤ 254` the bulk erase on a session with nothing pending
and the semaphore available returns after `ntag_max_page - 3` iterations of
its loop (none for `ntag_max_page < 4`). -/
theorem erase_returns_below_255 (obj : pn532_s) (pb : List Nat) (N : Nat) (hN : N ≤ 254)
    (hi : idle obj) :
    ∃ r, pn532_ntag2xx_erase (N - 3) obj pb N = Run.done r := by
  unfold pn532_ntag2xx_erase
  by_cases h4 : 4 ≤ N
  · have h := erase_loop_eq N hN (N - 3) 4 obj pb (by omega) (by omega)
    obtain ⟨r, hr, _⟩ := write_pages_idle (List.range' 4 (N + 1 - 4)) obj pb hi
    rw [hr] at h
    exact ⟨r, h⟩
  · have h0 : N - 3 = 0 := by omega
    rw [h0]
    simp only [pn532_ntag2xx_erase_loop]
    rw [if_neg (by omega)]
    exact ⟨_, rfl⟩

/-- C25 (the code at `ntag_max_page = 255`): the bulk erase never returns.
After any number of loop iterations, on any session and with any packet
buffer, the run has not left the loop; and on a session with nothing pending
and the semaphore available, where every page write returns, it is still
iterating after any number of iterations. -/
theorem erase_255_never_returns (fuel : Nat) (obj : pn532_s) (pb : List Nat) :
    (∀ r, pn532_ntag2xx_erase fuel obj pb 255 ≠ Run.done r) ∧
    (idle obj → pn532_ntag2xx_erase fuel obj pb 255 = Run.running) := by
  unfold pn532_ntag2xx_erase
  refine ⟨?_, fun hi => erase_loop_255_idle fuel 4 obj pb (by omega) hi⟩
  intro r hr
  rcases erase_loop_255 fuel 4 obj pb (by omega) with h | h
  · rw [h] at hr; cases hr
  · rw [h] at hr; cases hr

theorem erase_255_never_returns_witness :
    (∀ r, pn532_ntag2xx_erase 1000 (session ⟨[], [], []⟩) (List.replicate 64 0) 255
      ≠ Run.done r) ∧
    pn532_ntag2xx_erase 1000 (session ⟨[], [], []⟩) (List.replicate 64 0) 255 = Run.running :=
  ⟨(erase_255_never_returns 1000 (session ⟨[], [], []⟩) (List.replicate 64 0)).1,
   (erase_255_never_returns 1000 (session ⟨[], [], []⟩) (List.replicate 64 0)).2 ⟨rfl, rfl⟩⟩

/-! ## C26: error names -/

/-- The codes of the table range whose table entry is a null pointer. -/
theorem pn532_err_str_gaps :
    (List.range (PN532_ERR_STATUS_MAX + 1)).filter (fun i => (pn532_err_str i).isNone)
      = [22, 26, 29, 31, 35, 36, 37, 38, 39, 40, 41, 42, 43, 44, 45, 46, 47, 48, 50, 54] := by
  decide

/-- Beyond the table range the name is `"PN532_ERR_UNKNOWN"`. -/
theorem pn532_err_to_name_unknown (e : Int) (h : (PN532_ERR_STATUS_MAX : Int) < |e|) :
    pn532_err_to_name e = some "PN532_ERR_UNKNOWN" := by
  unfold pn532_err_to_name
  simp only []
  have h2 : (if e < 0 then -e else e) = |e| := by
    split_ifs with hneg
    · exact (abs_of_neg hneg).symm
    · exact (abs_of_nonneg (not_lt.1 hneg)).symm
  rw [h2, if_pos h]

/-- C26 (the code at `e = 22 = PN532_ERR_STATUS + 0x08`, a code within the
table range that the error list does not enumerate): `pn532_err_to_name`
returns the null pointer, for `22` and for `-22`; the same holds at each of the
twenty codes of the range that the list leaves out. -/
theorem err_to_name_null_at_22 :
    (22 : Int) ≤ PN532_ERR_STATUS_MAX ∧
    pn532_err_to_name 22 = none ∧ pn532_err_to_name (-22) = none ∧
    ∀ i ∈ [22, 26, 29, 31, 35, 36, 37, 38, 39, 40, 41, 42, 43, 44, 45, 46, 47, 48, 50, 54],
      pn532_err_to_name (Int.ofNat i) = none ∧ pn532_err_to_name (-Int.ofNat i) = none := by
  decide

/-! ## C21: the semaphore and the pending command -/

theorem core_mutex (a b : pn532_s) (h : core a = core b) : a.mutex = b.mutex := by
  have h1 : (core a).mutex = (core b).mutex := by rw [h]
  exact h1

/-- A send started with the semaphore available and nothing pending returns;
its result is a fault with nothing pending and the semaphore given back, or a
success with the reply id `cmd + 1` (8 bits) pending, the semaphore kept when
that id is non-zero and given back when it is zero. -/
theorem pn532_tx_fields (p : pn532_s) (cmd : Nat) (data1 data2 : List Nat) (hi : idle p) :
    ∃ t, pn532_tx p cmd data1 data2 = some t ∧
      ((t.1 < 0 ∧ t.2.pending = 0 ∧ t.2.mutex = true) ∨
       (0 ≤ t.1 ∧ t.2.pending = u8 ((cmd : Int) + 1) ∧
          (t.2.mutex = true ↔ u8 ((cmd : Int) + 1) = 0))) := by
  obtain ⟨hp, hm⟩ := hi
  unfold pn532_tx xSemaphoreTake
  simp only [hm, if_true]
  refine ⟨_, rfl, ?_⟩
  obtain ⟨q, hq⟩ : ∃ q, q = pn532_tx_mutex { p with mutex := false } cmd data1 data2 := ⟨_, rfl⟩
  rw [← hq]
  have h := core_tx_mutex { p with mutex := false } cmd data1 data2 hp
  rw [← hq] at h
  rcases h with ⟨hneg, hcore⟩ | ⟨hpos, hcore⟩
  · left
    have h1 : q.2.pending = 0 := (core_pending _ _ hcore).trans hp
    simp only [h1, if_true]
    exact ⟨hneg, h1, rfl⟩
  · right
    have h1 : q.2.pending = u8 ((cmd : Int) + 1) := core_pending _ _ hcore
    have h2 : q.2.mutex = false := core_mutex _ _ hcore
    refine ⟨hpos, ?_, ?_⟩
    · split_ifs with h0
      · exact h0.trans (h0.symm.trans h1)
      · exact h1
    · split_ifs with h0
      · exact ⟨fun _ => h1.symm.trans h0, fun _ => rfl⟩
      · constructor
        · intro h3
          rw [h2] at h3
          cases h3
        · intro h3
          exact absurd (h1.trans h3) h0

/-- C21: the predicate "the semaphore is held exactly when a command is
pending" holds for a fresh session and is kept by every send started with the
semaphore available and by every receive. A send started with the semaphore
available returns; when it returns a fault, or leaves nothing pending, the
semaphore is available afterwards; when it leaves a command pending, the
semaphore is held and the result is not a fault. A receive on a session with
a command pending leaves nothing pending and the semaphore available, whatever
it returns. -/
theorem mutex_held_iff_pending (u : Uart) (p : pn532_s) (cmd : Nat) (data1 data2 : List Nat)
    (max1 : Nat) (d1 : Option (List Nat)) (max2 : Nat) (d2 : Option (List Nat)) (ms : Int) :
    mutex_iff_pending (session u) ∧ (session u).pending = 0 ∧ (session u).mutex = true ∧
    (mutex_iff_pending p → p.mutex = true →
      ∃ t, pn532_tx p cmd data1 data2 = some t ∧ mutex_iff_pending t.2 ∧
        (t.1 < 0 → t.2.pending = 0 ∧ t.2.mutex = true) ∧
        (t.2.pending = 0 → t.2.mutex = true) ∧
        (t.2.pending ≠ 0 → t.2.mutex = false ∧ 0 ≤ t.1)) ∧
    (mutex_iff_pending p → mutex_iff_pending (pn532_rx p max1 d1 max2 d2 ms).p) ∧
    (p.pending ≠ 0 →
      (pn532_rx p max1 d1 max2 d2 ms).p.pending = 0 ∧
      (pn532_rx p max1 d1 max2 d2 ms).p.mutex = true) := by
  have hrx : p.pending ≠ 0 →
      (pn532_rx p max1 d1 max2 d2 ms).p.pending = 0 ∧
      (pn532_rx p max1 d1 max2 d2 ms).p.mutex = true := by
    intro hp
    have hc := core_rx p max1 d1 max2 d2 ms hp
    exact ⟨core_pending _ _ hc, core_mutex _ _ hc⟩
  refine ⟨?_, rfl, rfl, ?_, ?_, hrx⟩
  · unfold mutex_iff_pending session
    simp
  · intro hinv hm
    have hp : p.pending = 0 := by
      by_contra hne
      have := hinv.2 hne
      rw [hm] at this
      cases this
    obtain ⟨t, ht, h⟩ := pn532_tx_fields p cmd data1 data2 ⟨hp, hm⟩
    refine ⟨t, ht, ?_⟩
    unfold mutex_iff_pending
    rcases h with ⟨hneg, h0, h1⟩ | ⟨hpos, h0, h1⟩
    · refine ⟨?_, fun _ => ⟨h0, h1⟩, fun _ => h1, fun hne => absurd h0 hne⟩
      rw [h0, h1]
      decide
    · by_cases hz : u8 ((cmd : Int) + 1) = 0
      · have hmt := h1.2 hz
        rw [hz] at h0
        refine ⟨?_, fun _ => ⟨h0, hmt⟩, fun _ => hmt, fun hne => absurd h0 hne⟩
        rw [h0, hmt]
        decide
      · have hmf : t.2.mutex = false := by
          cases hb : t.2.mutex
          · rfl
          · exact absurd (h1.1 hb) hz
        have hne : t.2.pending ≠ 0 := by rw [h0]; exact hz
        exact ⟨⟨fun _ => hne, fun _ => hmf⟩, fun hlt => absurd hpos (not_le.2 hlt),
          fun h => absurd h hne, fun _ => ⟨hmf, hpos⟩⟩
  · intro hinv
    by_cases hp : p.pending = 0
    · unfold pn532_rx
      rw [if_pos hp]
      exact hinv
    · obtain ⟨h0, h1⟩ := hrx hp
      unfold mutex_iff_pending
      rw [h0, h1]
      decide

theorem mutex_held_iff_pending_witness :
    (∃ t, pn532_tx (session ⟨[], [0x00, 0xFF, 0x00, 0xFF, 0x00], []⟩) 0x4A [1, 0] [] = some t ∧
        mutex_iff_pending t.2 ∧
        (t.1 < 0 → t.2.pending = 0 ∧ t.2.mutex = true) ∧
        (t.2.pending = 0 → t.2.mutex = true) ∧
        (t.2.pending ≠ 0 → t.2.mutex = false ∧ 0 ≤ t.1)) ∧
    mutex_iff_pending (pn532_rx { session ⟨[], [], []⟩ with pending := 0x4B, mutex := false }
      0 none 0 none 100).p ∧
    (pn532_rx { session ⟨[], [], []⟩ with pending := 0x4B, mutex := false }
      0 none 0 none 100).p.pending = 0 ∧
    (pn532_rx { session ⟨[], [], []⟩ with pending := 0x4B, mutex := false }
      0 none 0 none 100).p.mutex = true :=
  ⟨(mutex_held_iff_pending ⟨[], [], []⟩ (session ⟨[], [0x00, 0xFF, 0x00, 0xFF, 0x00], []⟩) 0x4A
      [1, 0] [] 0 none 0 none 100).2.2.2.1 (by unfold mutex_iff_pending session; decide) rfl,
   (mutex_held_iff_pending ⟨[], [], []⟩
      { session ⟨[], [], []⟩ with pending := 0x4B, mutex := false } 0x4A [1, 0] [] 0 none 0 none
      100).2.2.2.2.1 (by unfold mutex_iff_pending session; decide),
   (mutex_held_iff_pending ⟨[], [], []⟩
      { session ⟨[], [], []⟩ with pending := 0x4B, mutex := false } 0x4A [1, 0] [] 0 none 0 none
      100).2.2.2.2.2 (by unfold session; decide)⟩

/-! ## C23: a UID length prefix of 11 or more -/

/-- The parse of `pn532_Cards` reads the local array only below the reply
length `l`: two arrays that agree below `l` give the same result. -/
theorem pn532_Cards_parse_agree (p : pn532_s) (buf buf2 : List Nat) (l : Nat)
    (hat : ∀ i, i < l → at8 buf i = at8 buf2 i)
    (hdt : ∀ b n, b + n ≤ l → (buf.drop b).take n = (buf2.drop b).take n) :
    pn532_Cards_parse p buf l = pn532_Cards_parse p buf2 l := by
  simp only [pn532_Cards_parse, Nat.reduceAdd]
  by_cases h0 : 0 ≥ l
  · rw [if_pos h0, if_pos h0]
  rw [if_neg h0, if_neg h0, hat 0 (by omega)]
  by_cases hc : at8 buf2 0 ≠ 0
  swap
  · rw [if_neg hc, if_neg hc]
  rw [if_pos hc, if_pos hc]
  by_cases h6 : 6 > l
  · rw [if_pos h6, if_pos h6]
  rw [if_neg h6, if_neg h6, hat 1 (by omega), hat 2 (by omega), hat 3 (by omega),
    hat 4 (by omega), hat 5 (by omega)]
  by_cases hU : 5 + at8 buf2 5 + 1 > l
  · rw [if_pos hU, if_pos hU]
  rw [if_neg hU, if_neg hU, hdt 5 (at8 buf2 5 + 1) (by omega)]
  by_cases hb : 5 + at8 buf2 5 + 1 < l
  swap
  · rw [if_neg hb, if_neg hb]
  rw [if_pos hb, if_pos hb, hat _ hb]
  by_cases hA : at8 buf2 (5 + at8 buf2 5 + 1) = 0 ∨
      5 + at8 buf2 5 + 1 + at8 buf2 (5 + at8 buf2 5 + 1) > l
  · rw [if_pos hA, if_pos hA]
  rw [if_neg hA, if_neg hA, hdt _ _ (by omega)]

/-- Whatever follows the reply in the local array, the parse gives the result
it gives on the reply bytes alone. -/
theorem pn532_Cards_parse_append (p : pn532_s) (payload g : List Nat) :
    pn532_Cards_parse p (payload ++ g) payload.length
      = pn532_Cards_parse p payload payload.length := by
  apply pn532_Cards_parse_agree
  · intro i hi
    exact at8_append_left _ _ _ hi
  · intro b n hbn
    rw [List.drop_append_of_le_length (by omega), List.take_append_of_le_length]
    rw [List.length_drop]
    omega

theorem store_length (dst src : List Nat) (h : src.length ≤ dst.length) :
    (store dst src).length = dst.length := by
  unfold store
  rw [List.length_append, List.length_drop]
  omega

/-- First byte of a field after a copy of `n` bytes from index `b` of an array
that holds those bytes. -/
theorem at8_store_zero (dst buf : List Nat) (b n : Nat) (hn : 0 < n) (hb : b < buf.length) :
    at8 (store dst ((buf.drop b).take n)) 0 = at8 buf b := by
  unfold store at8
  obtain ⟨x, xs, hx⟩ : ∃ x xs, buf.drop b = x :: xs := by
    cases hd : buf.drop b with
    | nil =>
      have := congrArg List.length hd
      rw [List.length_drop] at this
      simp at this
      omega
    | cons x xs => exact ⟨x, xs, rfl⟩
  have hxb : buf.getD b 0 = x := by
    have h1 : (buf.drop b).getD 0 0 = buf.getD b 0 := by
      simp [List.getD_eq_getElem?_getD, List.getElem?_drop]
    rw [← h1, hx]
    rfl
  rw [hx, hxb]
  obtain ⟨m, rfl⟩ : ∃ m, n = m + 1 := ⟨n - 1, by omega⟩
  rfl

/-- The parse leaves the two registry fields at their sizes: no copy goes past
the 11 bytes of `nfcid` or the 30 bytes of `ats`. -/
theorem pn532_Cards_parse_lengths (p : pn532_s) (buf : List Nat) (l : Nat) :
    (pn532_Cards_parse p buf l).2.nfcid.length = 11 ∧
    (pn532_Cards_parse p buf l).2.ats.length = 30 := by
  have hn : ∀ b n, n ≤ 11 →
      (store (List.replicate 11 0) ((buf.drop b).take n)).length = 11 := by
    intro b n hn
    rw [store_length _ _ (by rw [List.length_take, List.length_replicate]; omega)]
    exact List.length_replicate _ _
  have ha : ∀ b n, n ≤ 30 →
      (store (List.replicate 30 0) ((buf.drop b).take n)).length = 30 := by
    intro b n hn
    rw [store_length _ _ (by rw [List.length_take, List.length_replicate]; omega)]
    exact List.length_replicate _ _
  simp only [pn532_Cards_parse, Nat.reduceAdd]
  split_ifs <;>
    simp only [tx_fault, List.length_replicate, List.length_set, and_self, true_and, and_true] <;>
    first
    | exact hn _ _ (by omega)
    | exact ha _ _ (by omega)
    | exact ⟨hn _ _ (by omega), ha _ _ (by omega)⟩

theorem at8_set_zero (xs : List Nat) (v : Nat) (h : 0 < xs.length) : at8 (xs.set 0 v) 0 = v := by
  cases xs with
  | nil => simp at h
  | cons x xs => rfl

/-- After the parse the stored UID length byte is at most 10 and the stored ATS
length byte at most 29. -/
theorem pn532_Cards_parse_bounds (p : pn532_s) (buf : List Nat) (l : Nat)
    (hl : l ≤ buf.length) :
    at8 (pn532_Cards_parse p buf l).2.nfcid 0 ≤ 10 ∧
    at8 (pn532_Cards_parse p buf l).2.ats 0 ≤ 29 := by
  have z11 : at8 (List.replicate 11 0) 0 = 0 := rfl
  have z30 : at8 (List.replicate 30 0) 0 = 0 := rfl
  have hN : 5 < buf.length →
      at8 (store (List.replicate 11 0) ((buf.drop 5).take (at8 buf 5 + 1))) 0 = at8 buf 5 :=
    fun h => at8_store_zero _ _ _ _ (Nat.succ_pos _) h
  have hA : 0 < at8 buf (5 + at8 buf 5 + 1) → 5 + at8 buf 5 + 1 < buf.length →
      at8 buf (5 + at8 buf 5 + 1) ≤ 30 →
      at8 ((store (List.replicate 30 0)
          ((buf.drop (5 + at8 buf 5 + 1)).take (at8 buf (5 + at8 buf 5 + 1)))).set 0
        (u8 ((at8 (store (List.replicate 30 0)
          ((buf.drop (5 + at8 buf 5 + 1)).take (at8 buf (5 + at8 buf 5 + 1)))) 0 : Int) - 1))) 0
        = at8 buf (5 + at8 buf 5 + 1) - 1 := by
    intro h1 h2 h3
    rw [at8_set_zero, at8_store_zero _ _ _ _ h1 h2]
    · unfold u8; omega
    · rw [store_length _ _ (by rw [List.length_take, List.length_replicate]; omega)]
      rw [List.length_replicate]
      omega
  simp only [pn532_Cards_parse, Nat.reduceAdd]
  split_ifs with h0 hc h6 hU hu hb hA ha <;> simp only [tx_fault, z11, z30] <;>
    (try rw [hN (by omega)]) <;> (try rw [hA (by omega) (by omega) (by omega)]) <;> omega

/-- The result of the parse as a function of the reply bytes it tests. -/
theorem pn532_Cards_parse_ret (p : pn532_s) (buf : List Nat) (l : Nat) :
    (pn532_Cards_parse p buf l).1
      = if 0 ≥ l then -(PN532_ERR_SHORT : Int)
        else if at8 buf 0 ≠ 0 then
          if 6 > l then -(PN532_ERR_SPACE : Int)
          else if 5 + at8 buf 5 + 1 > l then -(PN532_ERR_SHORT : Int)
          else if 5 + at8 buf 5 + 1 < l then
            if at8 buf (5 + at8 buf 5 + 1) = 0 ∨
                5 + at8 buf 5 + 1 + at8 buf (5 + at8 buf 5 + 1) > l then
              -(PN532_ERR_SHORT : Int)
            else (at8 buf 0 : Int)
          else (at8 buf 0 : Int)
        else (at8 buf 0 : Int) := by
  simp only [pn532_Cards_parse, Nat.reduceAdd]
  by_cases h0 : 0 ≥ l
  · rw [if_pos h0, if_pos h0]; rfl
  rw [if_neg h0, if_neg h0]
  by_cases hc : at8 buf 0 ≠ 0
  swap
  · rw [if_neg hc, if_neg hc]
  rw [if_pos hc, if_pos hc]
  by_cases h6 : 6 > l
  · rw [if_pos h6, if_pos h6]; rfl
  rw [if_neg h6, if_neg h6]
  by_cases hU : 5 + at8 buf 5 + 1 > l
  · rw [if_pos hU, if_pos hU]; rfl
  rw [if_neg hU, if_neg hU]
  by_cases hb : 5 + at8 buf 5 + 1 < l
  swap
  · rw [if_neg hb, if_neg hb]
    split_ifs <;> rfl
  rw [if_pos hb, if_pos hb]
  by_cases hA : at8 buf (5 + at8 buf 5 + 1) = 0 ∨
      5 + at8 buf 5 + 1 + at8 buf (5 + at8 buf 5 + 1) > l
  · rw [if_pos hA, if_pos hA]
    split_ifs <;> rfl
  rw [if_neg hA, if_neg hA]
  split_ifs <;> rfl

/-- The faults of the parse: no card count; card data, UID or ATS that would
extend past the reply length `l`; a zero ATS length byte.  Otherwise the parse
returns the card count. -/
theorem pn532_Cards_parse_faults (p : pn532_s) (buf : List Nat) (l : Nat) :
    (l = 0 → (pn532_Cards_parse p buf l).1 = -(PN532_ERR_SHORT : Int)) ∧
    (0 < l → at8 buf 0 = 0 → (pn532_Cards_parse p buf l).1 = 0) ∧
    (0 < l → at8 buf 0 ≠ 0 → l < 6 → (pn532_Cards_parse p buf l).1 = -(PN532_ERR_SPACE : Int)) ∧
    (at8 buf 0 ≠ 0 → 6 ≤ l → l < 6 + at8 buf 5 →
      (pn532_Cards_parse p buf l).1 = -(PN532_ERR_SHORT : Int)) ∧
    (at8 buf 0 ≠ 0 → 6 + at8 buf 5 < l →
      (at8 buf (6 + at8 buf 5) = 0 ∨ l < 6 + at8 buf 5 + at8 buf (6 + at8 buf 5)) →
      (pn532_Cards_parse p buf l).1 = -(PN532_ERR_SHORT : Int)) ∧
    (at8 buf 0 ≠ 0 → 6 + at8 buf 5 = l → (pn532_Cards_parse p buf l).1 = at8 buf 0) ∧
    (at8 buf 0 ≠ 0 → 6 + at8 buf 5 < l → at8 buf (6 + at8 buf 5) ≠ 0 →
      6 + at8 buf 5 + at8 buf (6 + at8 buf 5) ≤ l →
      (pn532_Cards_parse p buf l).1 = at8 buf 0) := by
  have he : 5 + at8 buf 5 + 1 = 6 + at8 buf 5 := by omega
  rw [pn532_Cards_parse_ret, he]
  refine ⟨?_, ?_, ?_, ?_, ?_, ?_, ?_⟩
  · intro h
    rw [if_pos (by omega)]
  · intro h hc
    rw [if_neg (by omega), if_neg (by simp [hc]), hc]
    rfl
  · intro h hc h6
    rw [if_neg (by omega), if_pos hc, if_pos (by omega)]
  · intro hc h6 hU
    rw [if_neg (by omega), if_pos hc, if_neg (by omega), if_pos (by omega)]
  · intro hc hU hA
    rw [if_neg (by omega), if_pos hc, if_neg (by omega), if_neg (by omega), if_pos hU,
      if_pos (by omega)]
  · intro hc hU
    rw [if_neg (by omega), if_pos hc, if_neg (by omega), if_neg (by omega), if_neg (by omega)]
  · intro hc hU hA hle
    rw [if_neg (by omega), if_pos hc, if_neg (by omega), if_neg (by omega), if_pos hU,
      if_neg (by omega)]

/-- C22: for every discovery reply payload of length `l ≤ 100`, whatever its
bytes, `pn532_Cards` returns, and its result is the one the parse gives on the
reply bytes alone: it is the same for every content of the local array, so no
byte at a position `l` or beyond is read.  The `nfcid` field keeps its 11 bytes
and the `ats` field its 30 bytes (no copy goes past either), the stored UID
length byte is at most 10 and the stored ATS length byte at most 29.  When the
reply is empty, or the card data, the UID or the ATS would extend past
position `l` (or the ATS length byte is zero), the result is the fault
`-PN532_ERR_SHORT` or `-PN532_ERR_SPACE`; every fault of the parse is one of
these two. -/
theorem cards_bounds (p q : pn532_s) (buf hdr payload : List Nat) (dcs : Nat)
    (rest : List Nat)
    (ha : cards_awaits p q)
    (hw : q.uart.avail = reply_frame hdr 0x4B payload dcs 0 ++ rest)
    (hh : valid_header hdr (payload.length + 2))
    (hfit : payload.length ≤ 100)
    (hck : (0xD5 + 0x4B + payload.sum + dcs) % 256 = 0) :
    ∃ r, pn532_Cards p buf = some r ∧
      (∀ buf2, pn532_Cards p buf2 = some r) ∧
      r = pn532_Cards_parse
            { q with pending := 0, mutex := true,
                     uart := q.uart.consume (hdr.length + payload.length + 6) }
            payload payload.length ∧
      r.2.nfcid.length = 11 ∧ r.2.ats.length = 30 ∧
      at8 r.2.nfcid 0 ≤ 10 ∧ at8 r.2.ats 0 ≤ 29 ∧
      (payload.length = 0 → r.1 = -(PN532_ERR_SHORT : Int)) ∧
      (0 < payload.length → at8 payload 0 ≠ 0 → payload.length < 6 →
        r.1 = -(PN532_ERR_SPACE : Int)) ∧
      (at8 payload 0 ≠ 0 → 6 ≤ payload.length → payload.length < 6 + at8 payload 5 →
        r.1 = -(PN532_ERR_SHORT : Int)) ∧
      (at8 payload 0 ≠ 0 → 6 + at8 payload 5 < payload.length →
        (at8 payload (6 + at8 payload 5) = 0 ∨
          payload.length < 6 + at8 payload 5 + at8 payload (6 + at8 payload 5)) →
        r.1 = -(PN532_ERR_SHORT : Int)) ∧
      (r.1 < 0 → r.1 = -(PN532_ERR_SHORT : Int) ∨ r.1 = -(PN532_ERR_SPACE : Int)) := by
  have hr : ∀ b, pn532_Cards p b = some (pn532_Cards_parse
      { q with pending := 0, mutex := true,
               uart := q.uart.consume (hdr.length + payload.length + 6) }
      payload payload.length) := by
    intro b
    rw [pn532_Cards_reply p q b hdr payload dcs rest ha hw hh hfit hck,
      pn532_Cards_parse_append]
  obtain ⟨f1, _, f3, f4, f5, _, _⟩ := pn532_Cards_parse_faults
    { q with pending := 0, mutex := true,
             uart := q.uart.consume (hdr.length + payload.length + 6) }
    payload payload.length
  refine ⟨_, hr buf, hr, rfl, (pn532_Cards_parse_lengths _ _ _).1,
    (pn532_Cards_parse_lengths _ _ _).2, (pn532_Cards_parse_bounds _ _ _ (le_refl _)).1,
    (pn532_Cards_parse_bounds _ _ _ (le_refl _)).2, f1, f3, f4, f5, ?_⟩
  rw [pn532_Cards_parse_ret]
  intro hneg
  split_ifs at hneg ⊢ <;>
    first
    | exact Or.inl rfl
    | exact Or.inr rfl
    | (exfalso; omega)

theorem cards_bounds_witness :
    ∃ r, pn532_Cards
          { session ⟨[], [0x00, 0xFF, 9, 247, 0xD5, 0x4B, 1, 1, 0x03, 0x44, 0x20, 4, 0xA,
              0x69, 0x00], []⟩ with pending := 0x4B, mutex := false }
          (List.replicate 100 0xEE) = some r ∧
      (∀ buf2, pn532_Cards
          { session ⟨[], [0x00, 0xFF, 9, 247, 0xD5, 0x4B, 1, 1, 0x03, 0x44, 0x20, 4, 0xA,
              0x69, 0x00], []⟩ with pending := 0x4B, mutex := false } buf2 = some r) ∧
      r.2.nfcid.length = 11 ∧ r.2.ats.length = 30 ∧
      at8 r.2.nfcid 0 ≤ 10 ∧ at8 r.2.ats 0 ≤ 29 ∧
      r.1 = -(PN532_ERR_SHORT : Int) := by
  obtain ⟨r, h1, h2, _, h4, h5, h6, h7, _, _, h10, _, _⟩ :=
    cards_bounds
      { session ⟨[], [0x00, 0xFF, 9, 247, 0xD5, 0x4B, 1, 1, 0x03, 0x44, 0x20, 4, 0xA,
          0x69, 0x00], []⟩ with pending := 0x4B, mutex := false }
      { session ⟨[], [0x00, 0xFF, 9, 247, 0xD5, 0x4B, 1, 1, 0x03, 0x44, 0x20, 4, 0xA,
          0x69, 0x00], []⟩ with pending := 0x4B, mutex := false }
      (List.replicate 100 0xEE) [9, 247] [1, 1, 0x03, 0x44, 0x20, 4, 0xA] 0x69 []
      (Or.inl ⟨rfl, rfl⟩) (by decide) (Or.inl ⟨247, rfl, by decide⟩) (by decide) (by decide)
  exact ⟨r, h1, h2, h4, h5, h6, h7, h10 (by decide) (by decide) (by decide)⟩

/-! ## C24: a reply cut short -/

/-- One `if (dataN)` block: it takes `seg_len` bytes off the stream, and it
succeeds exactly when the stream still holds that many. -/
theorem pn532_rx_seg_cases (q : pn532_s) (max : Nat) (data : Option (List Nat))
    (len sum : Nat) :
    (pn532_rx_seg q max data len sum).p.uart = q.uart.consume (seg_len max data len) ∧
    ((pn532_rx_seg q max data len sum).ok = true ↔
      seg_len max data len ≤ q.uart.avail.length) ∧
    ((pn532_rx_seg q max data len sum).ok = true →
      (pn532_rx_seg q max data len sum).len = len - seg_len max data len) := by
  cases data with
  | none => simp [pn532_rx_seg, seg_len, Uart.consume_zero]
  | some m =>
    by_cases h0 : (if max > len then len else max) = 0
    · simp [pn532_rx_seg, seg_len, h0, Uart.consume_zero]
    · have hlen : (q.uart.avail.take (if max > len then len else max)).length
          = min (if max > len then len else max) q.uart.avail.length := List.length_take _ _
      simp only [pn532_rx_seg, seg_len, uart_rx_eq, ne_eq, h0, not_false_eq_true, if_true, hlen]
      by_cases hs : min (if max > len then len else max) q.uart.avail.length
          < (if max > len then len else max)
      · rw [if_pos hs]
        refine ⟨rfl, ?_, ?_⟩
        · constructor
          · intro h; cases h
          · intro h; omega
        · intro h; cases h
      · rw [if_neg hs]
        refine ⟨rfl, ?_, fun _ => rfl⟩
        constructor
        · intro _; omega
        · intro _; rfl

/-- After a good header that declares `n + 2` bytes, a stream that holds fewer
than `n + 2` more bytes ends the receive in the timeout fault. -/
theorem pn532_rx_mutex_short (p q : pn532_s) (max1 : Nat) (data1 : Option (List Nat))
    (max2 : Nat) (data2 : Option (List Nat)) (ms : Int) (n : Nat)
    (hhd : pn532_rx_header { p with pending := 0 } p.pending ms = (.ok (n + 2), q))
    (hq : q.uart.avail.length < n + 2)
    (hfit : n ≤ max1 + max2)
    (hall : seg_len max1 data1 n + seg_len max2 data2 (n - seg_len max1 data1 n) = n) :
    (pn532_rx_mutex p max1 data1 max2 data2 ms).ret = -(PN532_ERR_TIMEOUT : Int) ∧
    (pn532_rx_mutex p max1 data1 max2 data2 ms).p.lasterr = PN532_ERR_TIMEOUT := by
  unfold pn532_rx_mutex
  simp only [hhd, Nat.add_sub_cancel]
  rw [if_neg (by omega), if_neg (by omega)]
  obtain ⟨a1, b1, c1⟩ := pn532_rx_seg_cases q max1 data1 n (u8 (0xD5 + (p.pending : Int)))
  generalize pn532_rx_seg q max1 data1 n (u8 (0xD5 + (p.pending : Int))) = s1 at a1 b1 c1 ⊢
  by_cases h1 : s1.ok = true
  swap
  · rw [if_pos h1]
    exact ⟨rfl, rfl⟩
  rw [if_neg (not_not.2 h1)]
  have hk1 := b1.1 h1
  have hl1 := c1 h1
  obtain ⟨a2, b2, c2⟩ := pn532_rx_seg_cases s1.p max2 data2 s1.len s1.sum
  generalize pn532_rx_seg s1.p max2 data2 s1.len s1.sum = s2 at a2 b2 c2 ⊢
  by_cases h2 : s2.ok = true
  swap
  · rw [if_pos h2]
    exact ⟨rfl, rfl⟩
  rw [if_neg (not_not.2 h2)]
  have hk2 := b2.1 h2
  rw [a1, Uart.avail_consume, List.length_drop, hl1] at hk2
  have ht : ((uart_rx s2.p 2 10).1).length < 2 := by
    rw [uart_rx_eq]
    simp only [List.length_take]
    rw [a2, a1, Uart.consume_consume, Uart.avail_consume, List.length_drop, hl1]
    omega
  rw [if_pos ht]
  exact ⟨rfl, rfl⟩

/-- A header fault of `pn532_rx_mutex` is its result. -/
theorem pn532_rx_mutex_header_fault (p : pn532_s) (max1 : Nat) (data1 : Option (List Nat))
    (max2 : Nat) (data2 : Option (List Nat)) (ms : Int) (e : Nat)
    (hhd : (pn532_rx_header { p with pending := 0 } p.pending ms).1 = .error e) :
    (pn532_rx_mutex p max1 data1 max2 data2 ms).ret = -(e : Int) ∧
    (pn532_rx_mutex p max1 data1 max2 data2 ms).p.lasterr = e := by
  unfold pn532_rx_mutex
  cases h : pn532_rx_header { p with pending := 0 } p.pending ms with
  | mk a q =>
    rw [h] at hhd
    simp only at hhd
    subst hhd
    simp only [h]
    exact ⟨rfl, rfl⟩

/-- The header of a reply on a stream that ends before the preamble is
complete. -/
theorem pn532_rx_header_no_preamble (p : pn532_s) (pending : Nat) (ms : Int)
    (hw : p.uart.avail = [] ∨ p.uart.avail = [0x00]) :
    (pn532_rx_header p pending ms).1 = .error PN532_ERR_TIMEOUT := by
  rcases hw with hw | hw <;>
    simp [pn532_rx_header, uart_preamble, hw, uart_preamble_loop]

/-- The header of a reply on a stream that ends within the four bytes after
the preamble. -/
theorem pn532_rx_header_short4 (p : pn532_s) (pending : Nat) (ms : Int) (t : List Nat)
    (hw : p.uart.avail = 0x00 :: 0xFF :: t) (ht : t.length < 4) :
    (pn532_rx_header p pending ms).1 = .error PN532_ERR_TIMEOUT := by
  unfold pn532_rx_header
  simp only [uart_preamble_eq p ms t hw]
  rw [if_neg (by decide)]
  have hl : ((uart_rx { p with uart := p.uart.consume 2 } 4 10).1).length < 4 := by
    rw [uart_rx_eq]
    simp only [List.length_take, Uart.avail_consume, hw, List.drop_succ_cons, List.drop_zero]
    omega
  rw [if_pos hl]

/-- The header of a reply in the extended form on a stream that ends within
the three bytes after `FF FF hi lo`. -/
theorem pn532_rx_header_short3 (p : pn532_s) (pending : Nat) (ms : Int) (hi lo : Nat)
    (t : List Nat)
    (hw : p.uart.avail = 0x00 :: 0xFF :: 0xFF :: 0xFF :: hi :: lo :: t) (ht : t.length < 3) :
    (pn532_rx_header p pending ms).1 = .error PN532_ERR_TIMEOUT := by
  unfold pn532_rx_header
  simp only [uart_preamble_eq p ms _ hw]
  rw [if_neg (by decide)]
  have h4 : (uart_rx { p with uart := p.uart.consume 2 } 4 10).1 = [0xFF, 0xFF, hi, lo] := by
    rw [uart_rx_eq]
    simp [Uart.avail_consume, hw]
  simp only [h4]
  rw [if_neg (by simp), if_pos ⟨rfl, rfl⟩]
  have hl : ((uart_rx (uart_rx { p with uart := p.uart.consume 2 } 4 10).2 3 10).1).length
      < 3 := by
    simp only [uart_rx_eq, List.length_take, Uart.avail_consume, Uart.consume_consume, hw,
      List.drop_succ_cons, List.drop_zero]
    omega
  rw [if_pos hl]

/-- The receive on a stream that is a proper prefix of a reply frame with a
valid header, the expected command id and a payload the buffers take in full:
some read comes up short, and the result is the timeout fault. -/
theorem pn532_rx_mutex_truncated (p : pn532_s) (max1 : Nat) (data1 : Option (List Nat))
    (max2 : Nat) (data2 : Option (List Nat)) (ms : Int) (hdr payload : List Nat)
    (dcs post : Nat) (j : Nat)
    (hw : p.uart.avail = (reply_frame hdr p.pending payload dcs post).take j)
    (hj : j < (reply_frame hdr p.pending payload dcs post).length)
    (hh : valid_header hdr (payload.length + 2))
    (hfit : payload.length ≤ max1 + max2)
    (hall : seg_len max1 data1 payload.length
      + seg_len max2 data2 (payload.length - seg_len max1 data1 payload.length)
      = payload.length) :
    (pn532_rx_mutex p max1 data1 max2 data2 ms).ret = -(PN532_ERR_TIMEOUT : Int) ∧
    (pn532_rx_mutex p max1 data1 max2 data2 ms).p.lasterr = PN532_ERR_TIMEOUT := by
  rcases hh with ⟨lcs, rfl, hck⟩ | ⟨hi, lo, lcs, rfl, hck, hlen⟩
  · have hf : reply_frame [payload.length + 2, lcs] p.pending payload dcs post
        = 0x00 :: 0xFF :: (payload.length + 2) :: lcs :: 0xD5 :: p.pending
          :: (payload ++ [dcs, post]) := by
      simp [reply_frame]
    rw [hf] at hw hj
    simp only [List.length_cons, List.length_append, List.length_nil] at hj
    rcases j with _ | _ | _ | _ | _ | _ | j <;>
      simp only [List.take_succ_cons, List.take_zero] at hw
    · exact pn532_rx_mutex_header_fault p max1 data1 max2 data2 ms _
        (pn532_rx_header_no_preamble _ _ _ (Or.inl hw))
    · exact pn532_rx_mutex_header_fault p max1 data1 max2 data2 ms _
        (pn532_rx_header_no_preamble _ _ _ (Or.inr hw))
    · exact pn532_rx_mutex_header_fault p max1 data1 max2 data2 ms _
        (pn532_rx_header_short4 _ _ _ _ hw (by simp))
    · exact pn532_rx_mutex_header_fault p max1 data1 max2 data2 ms _
        (pn532_rx_header_short4 _ _ _ _ hw (by simp))
    · exact pn532_rx_mutex_header_fault p max1 data1 max2 data2 ms _
        (pn532_rx_header_short4 _ _ _ _ hw (by simp))
    · exact pn532_rx_mutex_header_fault p max1 data1 max2 data2 ms _
        (pn532_rx_header_short4 _ _ _ _ hw (by simp))
    · have hhd := rx_header_short { p with pending := 0 } p.pending ms _ _ _ hw hck
      refine pn532_rx_mutex_short p _ max1 data1 max2 data2 ms payload.length hhd ?_ hfit hall
      simp only [Uart.avail_consume, hw, List.drop_succ_cons, List.drop_zero, List.length_take,
        List.length_append, List.length_cons, List.length_nil]
      omega
  · have hf : reply_frame [0xFF, 0xFF, hi, lo, lcs] p.pending payload dcs post
        = 0x00 :: 0xFF :: 0xFF :: 0xFF :: hi :: lo :: lcs :: 0xD5 :: p.pending
          :: (payload ++ [dcs, post]) := by
      simp [reply_frame]
    rw [hf] at hw hj
    simp only [List.length_cons, List.length_append, List.length_nil] at hj
    rcases j with _ | _ | _ | _ | _ | _ | _ | _ | _ | j <;>
      simp only [List.take_succ_cons, List.take_zero] at hw
    · exact pn532_rx_mutex_header_fault p max1 data1 max2 data2 ms _
        (pn532_rx_header_no_preamble _ _ _ (Or.inl hw))
    · exact pn532_rx_mutex_header_fault p max1 data1 max2 data2 ms _
        (pn532_rx_header_no_preamble _ _ _ (Or.inr hw))
    · exact pn532_rx_mutex_header_fault p max1 data1 max2 data2 ms _
        (pn532_rx_header_short4 _ _ _ _ hw (by simp))
    · exact pn532_rx_mutex_header_fault p max1 data1 max2 data2 ms _
        (pn532_rx_header_short4 _ _ _ _ hw (by simp))
    · exact pn532_rx_mutex_header_fault p max1 data1 max2 data2 ms _
        (pn532_rx_header_short4 _ _ _ _ hw (by simp))
    · exact pn532_rx_mutex_header_fault p max1 data1 max2 data2 ms _
        (pn532_rx_header_short4 _ _ _ _ hw (by simp))
    · exact pn532_rx_mutex_header_fault p max1 data1 max2 data2 ms _
        (pn532_rx_header_short3 _ _ _ _ _ _ hw (by simp))
    · exact pn532_rx_mutex_header_fault p max1 data1 max2 data2 ms _
        (pn532_rx_header_short3 _ _ _ _ _ _ hw (by simp))
    · exact pn532_rx_mutex_header_fault p max1 data1 max2 data2 ms _
        (pn532_rx_header_short3 _ _ _ _ _ _ hw (by simp))
    · have hhd := rx_header_ext { p with pending := 0 } p.pending ms _ _ _ _ hw hck
      rw [← hlen] at hhd
      refine pn532_rx_mutex_short p _ max1 data1 max2 data2 ms payload.length hhd ?_ hfit hall
      simp only [Uart.avail_consume, hw, List.drop_succ_cons, List.drop_zero, List.length_take,
        List.length_append, List.length_cons, List.length_nil]
      omega

/-- C24 (as amended): for every reply frame with preamble 00 FF, a valid
length header, the command id equal to the pending id and a payload that fits
the caller's non-null buffers, that is, the two copy blocks read it in full
(its length is at most the sum of the capacities of the buffers that are not
`NULL`, see `seg_len_all_iff`), whatever its checksum and postamble bytes, and
for every proper prefix of its byte stream (the transport delivers the first
`j` bytes of the frame, `j` less than the frame length, and then nothing),
`pn532_rx` returns the timeout fault `-PN532_ERR_TIMEOUT`, not a length,
records it as the last error, and leaves nothing pending and the semaphore
available. -/
theorem rx_truncated (p : pn532_s) (max1 : Nat) (data1 : Option (List Nat))
    (max2 : Nat) (data2 : Option (List Nat)) (ms : Int) (hdr payload : List Nat)
    (dcs post : Nat) (j : Nat)
    (hp : p.pending ≠ 0)
    (hw : p.uart.avail = (reply_frame hdr p.pending payload dcs post).take j)
    (hj : j < (reply_frame hdr p.pending payload dcs post).length)
    (hh : valid_header hdr (payload.length + 2))
    (hfit : payload.length ≤ max1 + max2)
    (hall : seg_len max1 data1 payload.length
      + seg_len max2 data2 (payload.length - seg_len max1 data1 payload.length)
      = payload.length) :
    (pn532_rx p max1 data1 max2 data2 ms).ret = -(PN532_ERR_TIMEOUT : Int) ∧
    ¬ (0 ≤ (pn532_rx p max1 data1 max2 data2 ms).ret) ∧
    (pn532_rx p max1 data1 max2 data2 ms).p.lasterr = PN532_ERR_TIMEOUT ∧
    (pn532_rx p max1 data1 max2 data2 ms).p.pending = 0 ∧
    (pn532_rx p max1 data1 max2 data2 ms).p.mutex = true := by
  obtain ⟨h1, h2⟩ := pn532_rx_mutex_truncated p max1 data1 max2 data2 ms hdr payload dcs post j
    hw hj hh hfit hall
  have hc := core_rx p max1 data1 max2 data2 ms hp
  have hret : (pn532_rx p max1 data1 max2 data2 ms).ret = -(PN532_ERR_TIMEOUT : Int) := by
    rw [pn532_rx_of_pending p max1 data1 max2 data2 ms hp]
    exact h1
  refine ⟨hret, ?_, ?_, core_pending _ _ hc, core_mutex _ _ hc⟩
  · rw [hret]
    decide
  · rw [pn532_rx_of_pending p max1 data1 max2 data2 ms hp]
    exact h2

theorem rx_truncated_witness :
    (pn532_rx { session ⟨[], [0x00, 0xFF, 3, 253, 0xD5, 0x4B, 0x00], []⟩ with
        pending := 0x4B, mutex := false } 0 none 100 (some (List.replicate 100 0)) 110).ret
      = -(PN532_ERR_TIMEOUT : Int) ∧
    ¬ (0 ≤ (pn532_rx { session ⟨[], [0x00, 0xFF, 3, 253, 0xD5, 0x4B, 0x00], []⟩ with
        pending := 0x4B, mutex := false } 0 none 100 (some (List.replicate 100 0)) 110).ret) ∧
    (pn532_rx { session ⟨[], [0x00, 0xFF, 3, 253, 0xD5, 0x4B, 0x00], []⟩ with
        pending := 0x4B, mutex := false } 0 none 100 (some (List.replicate 100 0)) 110).p.lasterr
      = PN532_ERR_TIMEOUT ∧
    (pn532_rx { session ⟨[], [0x00, 0xFF, 3, 253, 0xD5, 0x4B, 0x00], []⟩ with
        pending := 0x4B, mutex := false } 0 none 100 (some (List.replicate 100 0)) 110).p.pending
      = 0 ∧
    (pn532_rx { session ⟨[], [0x00, 0xFF, 3, 253, 0xD5, 0x4B, 0x00], []⟩ with
        pending := 0x4B, mutex := false } 0 none 100 (some (List.replicate 100 0)) 110).p.mutex
      = true :=
  rx_truncated
    { session ⟨[], [0x00, 0xFF, 3, 253, 0xD5, 0x4B, 0x00], []⟩ with
      pending := 0x4B, mutex := false }
    0 none 100 (some (List.replicate 100 0)) 110 [3, 253] [0x00] 0xE0 0 7
    (by decide) (by decide) (by decide) (Or.inl ⟨253, rfl, by decide⟩) (by decide) (by decide)

/-- C24 fails when a capacity is counted for a `NULL` buffer.  The frame
`00 FF 04 FC D5 4B E0 00 00 00` is well formed and its 2 payload bytes fit
`max1 + max2 = 2 + 0`; the transport delivers its first 8 bytes only.  With
`data1 = NULL` no copy block reads the payload, the two payload bytes pass as
checksum and postamble, and `pn532_rx` returns the length 2. -/
theorem rx_truncated_fails_with_null_buffer :
    valid_header [4, 252] ([0xE0, 0x00].length + 2) ∧
    [0xE0, 0x00].length ≤ 2 + 0 ∧
    (0xD5 + 0x4B + [0xE0, 0x00].sum + 0) % 256 = 0 ∧
    (reply_frame [4, 252] 0x4B [0xE0, 0x00] 0 0).length = 10 ∧
    (reply_frame [4, 252] 0x4B [0xE0, 0x00] 0 0).take 8
      = [0x00, 0xFF, 4, 252, 0xD5, 0x4B, 0xE0, 0x00] ∧
    (pn532_rx { session ⟨[], (reply_frame [4, 252] 0x4B [0xE0, 0x00] 0 0).take 8, []⟩ with
        pending := 0x4B, mutex := false } 2 none 0 none 110).ret = 2 ∧
    ¬ ((pn532_rx { session ⟨[], (reply_frame [4, 252] 0x4B [0xE0, 0x00] 0 0).take 8, []⟩ with
        pending := 0x4B, mutex := false } 2 none 0 none 110).ret
      = -(PN532_ERR_TIMEOUT : Int)) := by
  refine ⟨Or.inl ⟨252, rfl, by decide⟩, by decide, by decide, by decide, by decide, by decide,
    by decide⟩

/-! ## C17: the page range of an NTAG2xx write, stated -/

/-- A data exchange on a session with a card registered that returns has either
ended in a fault or written its command frame. -/
theorem pn532_dx_card (p : pn532_s) (len : Nat) (data : List Nat) (max : Nat)
    (hc : p.cards ≠ 0) :
    ∀ d, pn532_dx p len data max = some d →
      d.ret < 0 ∨
      d.p.uart.tx
        = p.uart.tx ++ tx_frame PN532_COMMAND_INDATAEXCHANGE [p.tg] (data.take len) := by
  intro d hd
  cases hm : p.mutex with
  | false =>
    unfold pn532_dx pn532_tx xSemaphoreTake at hd
    rw [if_neg hc] at hd
    simp [hm] at hd
  | true =>
    by_cases hp : p.pending = 0
    · exact Or.inr (tx_dx_idle p len data max ⟨hp, hm⟩ hc d hd)
    · left
      have ht : pn532_tx p PN532_COMMAND_INDATAEXCHANGE [p.tg] (data.take len)
          = some (-(PN532_ERR_CMDPENDING : Int),
              { p with mutex := false, lasterr := PN532_ERR_CMDPENDING }) := by
        unfold pn532_tx xSemaphoreTake pn532_tx_mutex
        simp only [hm, if_true]
        rw [if_pos hp]
        simp only [tx_fault]
        rw [if_neg hp]
      unfold pn532_dx at hd
      rw [if_neg hc, ht] at hd
      simp only [show ¬ (-(PN532_ERR_CMDPENDING : Int) ≥ 0) by decide, if_false,
        show (-(PN532_ERR_CMDPENDING : Int) < 0) by decide, if_true, Option.some.injEq] at hd
      rw [← hd]
      show -(PN532_ERR_CMDPENDING : Int) < 0
      decide

/-- C17 (as amended): `pn532_ntag2xx_WritePage` rejects a page (returns 0 with
the session, that is transport, pending, last error and card registry, and the
scratch buffer untouched) when `page < 4` or `page > 225`; for every page in
4..225 it passes the 6-byte command `A2, page, data[0..3]` (at the start of the
zeroed scratch buffer) to the data exchange with room for 26 reply bytes and
returns that exchange's result; and on a session with a card registered a page
in 4..225 is never rejected: a call that returns has ended in a fault (a
negative result) or has written the command frame to the transport. -/
theorem write_page_guard (obj : pn532_s) (pb : List Nat) (page : Nat) (data : List Nat) :
    ((page < 4 ∨ page > 225) →
      pn532_ntag2xx_WritePage obj pb page data = some ⟨0, obj, pb, data⟩) ∧
    ((4 ≤ page ∧ page ≤ 225) → 4 ≤ data.length →
      pn532_ntag2xx_WritePage obj pb page data
        = (pn532_dx obj 6 ([0xA2, page] ++ data.take 4 ++ List.replicate 58 0) 26).map
            (fun d => ⟨d.ret, d.p, d.data, data⟩) ∧
      ([0xA2, page] ++ data.take 4 ++ List.replicate 58 0).take 6
        = [0xA2, page] ++ data.take 4) ∧
    ((4 ≤ page ∧ page ≤ 225) → obj.cards ≠ 0 →
      ∀ w, pn532_ntag2xx_WritePage obj pb page data = some w →
        (w.ret < 0 ∨ obj.uart.tx.length < w.p.uart.tx.length) ∧
        ¬ (w.ret = 0 ∧ w.p.uart = obj.uart)) := by
  refine ⟨?_, ?_, ?_⟩
  · intro h
    unfold pn532_ntag2xx_WritePage
    rw [if_pos h]
  · intro h hd
    have hl : (data.take 4).length = 4 := by rw [List.length_take]; omega
    constructor
    · unfold pn532_ntag2xx_WritePage
      rw [if_neg (by omega)]
      simp only [write_page_buffer page data hd]
      cases pn532_dx obj 6 ([0xA2, page] ++ data.take 4 ++ List.replicate 58 0) 26 <;> rfl
    · rw [List.take_append_of_le_length (by simp [hl])]
      rw [List.take_of_length_le (by simp [hl])]
  · intro h hc w hw
    unfold pn532_ntag2xx_WritePage at hw
    rw [if_neg (by omega)] at hw
    simp only [] at hw
    obtain ⟨buf, hbuf⟩ : ∃ buf, buf = store_at (((List.replicate PN532_PACKBUFFSIZ 0).set 0
        MIFARE_ULTRALIGHT_CMD_WRITE).set 1 page) 2 (data.take 4) := ⟨_, rfl⟩
    rw [← hbuf] at hw
    cases hd : pn532_dx obj 6 buf 26 with
    | none => rw [hd] at hw; simp at hw
    | some d =>
      rw [hd] at hw
      simp only [Option.some.injEq] at hw
      have hlen : 0 < (tx_frame PN532_COMMAND_INDATAEXCHANGE [obj.tg] (buf.take 6)).length := by
        simp [tx_frame]
      have hor : w.ret < 0 ∨ obj.uart.tx.length < w.p.uart.tx.length := by
        rw [← hw]
        rcases pn532_dx_card obj 6 buf 26 hc d hd with h1 | h1
        · exact Or.inl h1
        · right
          simp only [h1, List.length_append]
          omega
      refine ⟨hor, ?_⟩
      rintro ⟨h0, hu⟩
      rcases hor with h1 | h1
      · omega
      · rw [hu] at h1
        omega

theorem write_page_guard_witness :
    pn532_ntag2xx_WritePage
        { session ⟨[1], [2], [3]⟩ with cards := 1, tg := 1 } (List.replicate 64 7) 3 [1, 2, 3, 4]
      = some ⟨0, { session ⟨[1], [2], [3]⟩ with cards := 1, tg := 1 }, List.replicate 64 7,
          [1, 2, 3, 4]⟩ ∧
    pn532_ntag2xx_WritePage
        { session ⟨[1], [2], [3]⟩ with cards := 1, tg := 1 } (List.replicate 64 7) 225
        [1, 2, 3, 4]
      = (pn532_dx { session ⟨[1], [2], [3]⟩ with cards := 1, tg := 1 } 6
          ([0xA2, 225] ++ [1, 2, 3, 4].take 4 ++ List.replicate 58 0) 26).map
            (fun d => ⟨d.ret, d.p, d.data, [1, 2, 3, 4]⟩) ∧
    (∀ w, pn532_ntag2xx_WritePage
        { session ⟨[1], [2], [3]⟩ with cards := 1, tg := 1 } (List.replicate 64 7) 225
        [1, 2, 3, 4] = some w →
      (w.ret < 0 ∨ ({ session ⟨[1], [2], [3]⟩ with cards := 1, tg := 1 } : pn532_s).uart.tx.length
          < w.p.uart.tx.length) ∧
      ¬ (w.ret = 0 ∧
        w.p.uart = ({ session ⟨[1], [2], [3]⟩ with cards := 1, tg := 1 } : pn532_s).uart)) :=
  ⟨(write_page_guard { session ⟨[1], [2], [3]⟩ with cards := 1, tg := 1 } (List.replicate 64 7) 3
      [1, 2, 3, 4]).1 (Or.inl (by decide)),
   ((write_page_guard { session ⟨[1], [2], [3]⟩ with cards := 1, tg := 1 } (List.replicate 64 7)
      225 [1, 2, 3, 4]).2.1 ⟨by decide, by decide⟩ (by decide)).1,
   (write_page_guard { session ⟨[1], [2], [3]⟩ with cards := 1, tg := 1 } (List.replicate 64 7)
      225 [1, 2, 3, 4]).2.2 ⟨by decide, by decide⟩ (by decide)⟩

/-- C17 fails as an equivalence.  On a session with no card registered the page
4, which is in 4..225, gives the outcome of a rejection: `pn532_dx` returns 0
before any send, so `pn532_ntag2xx_WritePage` returns 0 with nothing written
and the session (transport, pending, last error, card registry) unchanged. -/
theorem write_page_guard_fails_without_card :
    ¬ (4 < 4 ∨ 4 > 225) ∧
    (session ⟨[1], [2], [3]⟩).cards = 0 ∧
    (pn532_ntag2xx_WritePage (session ⟨[1], [2], [3]⟩) (List.replicate 64 7) 4
        [1, 2, 3, 4]).map (fun w => (w.ret, w.p))
      = some (0, session ⟨[1], [2], [3]⟩) := by
  refine ⟨by decide, by decide, by decide⟩

/-! ## C19: a fault of the attention test -/

/-- C19 (as amended): when the presence shortcut applies (no command pending,
`cards ≠ 0`, ATS non-empty with first ATS byte 0x75) the attention test is
sent, and the five outcomes are these.  When its send ends in a fault, or its
receive ends in a fault, `pn532_Present` returns that fault with the session as
the attention test left it.  When the answer is empty it returns
`-PN532_ERR_SHORT`, and when the result byte is zero it returns the registered
card count.  In these four cases no discovery is run: the result is the one
stated and the bytes written are the attention-test frame only.  It goes on to
`pn532_Cards`, the full discovery cycle, only in the fifth case, when the
attention test is answered with a non-zero result byte. -/
theorem present_fault (p : pn532_s) (stack : List Nat)
    (hs : p.pending = 0 ∧ p.cards ≠ 0 ∧ at8 p.ats 0 ≠ 0 ∧ at8 p.ats 1 = 0x75)
    (hm : p.mutex = true) :
    ∃ t, pn532_tx p 0x00 [6] [] = some t ∧
      t.2.uart.tx = p.uart.tx ++ tx_frame 0x00 [6] [] ∧
      (pn532_rx t.2 0 none 1 (some [6]) 110).p.uart.tx = p.uart.tx ++ tx_frame 0x00 [6] [] ∧
      (t.1 < 0 → pn532_Present p stack = some (t.1, t.2)) ∧
      (0 ≤ t.1 → (pn532_rx t.2 0 none 1 (some [6]) 110).ret < 0 →
        pn532_Present p stack
          = some ((pn532_rx t.2 0 none 1 (some [6]) 110).ret,
              (pn532_rx t.2 0 none 1 (some [6]) 110).p)) ∧
      (0 ≤ t.1 → (pn532_rx t.2 0 none 1 (some [6]) 110).ret = 0 →
        pn532_Present p stack
          = some (-(PN532_ERR_SHORT : Int),
              { (pn532_rx t.2 0 none 1 (some [6]) 110).p with lasterr := PN532_ERR_SHORT })) ∧
      (0 ≤ t.1 → 1 ≤ (pn532_rx t.2 0 none 1 (some [6]) 110).ret →
        at8 ((pn532_rx t.2 0 none 1 (some [6]) 110).data2.getD [6]) 0 = 0 →
        pn532_Present p stack
          = some (((pn532_rx t.2 0 none 1 (some [6]) 110).p.cards : Int),
              (pn532_rx t.2 0 none 1 (some [6]) 110).p)) ∧
      (0 ≤ t.1 → 1 ≤ (pn532_rx t.2 0 none 1 (some [6]) 110).ret →
        at8 ((pn532_rx t.2 0 none 1 (some [6]) 110).data2.getD [6]) 0 ≠ 0 →
        pn532_Present p stack
          = pn532_Cards (pn532_rx t.2 0 none 1 (some [6]) 110).p stack) := by
  obtain ⟨t, ht⟩ : ∃ t, pn532_tx p 0x00 [6] [] = some t := by
    unfold pn532_tx xSemaphoreTake
    simp only [hm, if_true]
    exact ⟨_, rfl⟩
  have htx := tx_tx_idle p 0x00 [6] [] ⟨hs.1, hm⟩ t ht
  refine ⟨t, ht, htx, (tx_rx t.2 0 none 1 (some [6]) 110).trans htx, ?_, ?_, ?_, ?_, ?_⟩
  · intro hl
    unfold pn532_Present
    rw [if_pos hs, ht]
    simp only [show ¬ (t.1 ≥ 0) by omega, if_false, hl, if_true]
  · intro hl hr
    unfold pn532_Present
    rw [if_pos hs, ht]
    simp only [show t.1 ≥ 0 from hl, if_true, hr]
  · intro hl hr
    unfold pn532_Present
    rw [if_pos hs, ht]
    simp only [show t.1 ≥ 0 from hl, if_true, hr, show ¬ ((0 : Int) < 0) by decide,
      show (0 : Int) < 1 by decide, if_false]
    rfl
  · intro hl hr hb
    unfold pn532_Present
    rw [if_pos hs, ht]
    simp only [show t.1 ≥ 0 from hl, if_true,
      show ¬ ((pn532_rx t.2 0 none 1 (some [6]) 110).ret < 0) by omega,
      show ¬ ((pn532_rx t.2 0 none 1 (some [6]) 110).ret < 1) by omega, if_false, hb]
  · intro hl hr hb
    unfold pn532_Present
    rw [if_pos hs, ht]
    simp only [show t.1 ≥ 0 from hl, if_true,
      show ¬ ((pn532_rx t.2 0 none 1 (some [6]) 110).ret < 0) by omega,
      show ¬ ((pn532_rx t.2 0 none 1 (some [6]) 110).ret < 1) by omega, if_false, hb]

theorem present_fault_witness :
    ∃ t, pn532_tx (session_card ⟨[], [], []⟩) 0x00 [6] [] = some t ∧
      t.2.uart.tx = (session_card ⟨[], [], []⟩).uart.tx ++ tx_frame 0x00 [6] [] ∧
      (pn532_rx t.2 0 none 1 (some [6]) 110).p.uart.tx
        = (session_card ⟨[], [], []⟩).uart.tx ++ tx_frame 0x00 [6] [] ∧
      (t.1 < 0 → pn532_Present (session_card ⟨[], [], []⟩) (List.replicate 100 0)
        = some (t.1, t.2)) ∧
      (0 ≤ t.1 → (pn532_rx t.2 0 none 1 (some [6]) 110).ret < 0 →
        pn532_Present (session_card ⟨[], [], []⟩) (List.replicate 100 0)
          = some ((pn532_rx t.2 0 none 1 (some [6]) 110).ret,
              (pn532_rx t.2 0 none 1 (some [6]) 110).p)) ∧
      (0 ≤ t.1 → (pn532_rx t.2 0 none 1 (some [6]) 110).ret = 0 →
        pn532_Present (session_card ⟨[], [], []⟩) (List.replicate 100 0)
          = some (-(PN532_ERR_SHORT : Int),
              { (pn532_rx t.2 0 none 1 (some [6]) 110).p with lasterr := PN532_ERR_SHORT })) ∧
      (0 ≤ t.1 → 1 ≤ (pn532_rx t.2 0 none 1 (some [6]) 110).ret →
        at8 ((pn532_rx t.2 0 none 1 (some [6]) 110).data2.getD [6]) 0 = 0 →
        pn532_Present (session_card ⟨[], [], []⟩) (List.replicate 100 0)
          = some (((pn532_rx t.2 0 none 1 (some [6]) 110).p.cards : Int),
              (pn532_rx t.2 0 none 1 (some [6]) 110).p)) ∧
      (0 ≤ t.1 → 1 ≤ (pn532_rx t.2 0 none 1 (some [6]) 110).ret →
        at8 ((pn532_rx t.2 0 none 1 (some [6]) 110).data2.getD [6]) 0 ≠ 0 →
        pn532_Present (session_card ⟨[], [], []⟩) (List.replicate 100 0)
          = pn532_Cards (pn532_rx t.2 0 none 1 (some [6]) 110).p (List.replicate 100 0)) :=
  present_fault (session_card ⟨[], [], []⟩) (List.replicate 100 0)
    (by decide) rfl

/-- C19 fails already on a silent chip.  With a card registered whose ATS
starts 0x75: when nothing answers the attention test, `pn532_Present` returns
the send fault `-PN532_ERR_TIMEOUTACK` and has written the attention-test frame
only, whereas `pn532_Cards` on that session returns `-PN532_ERR_CMDMISMATCH`;
when the test is acknowledged but not answered, `pn532_Present` returns the
receive fault `-PN532_ERR_TIMEOUT`. -/
theorem present_fault_not_cards :
    (pn532_Present (session_card ⟨[], [], []⟩) (List.replicate 100 0)).map
      (fun r => (r.1, r.2.uart.tx)) = some (-(PN532_ERR_TIMEOUTACK : Int), tx_frame 0x00 [6] []) ∧
    (pn532_Cards (session_card ⟨[], [], []⟩) (List.replicate 100 0)).map
      (fun r => r.1) = some (-(PN532_ERR_CMDMISMATCH : Int)) ∧
    (pn532_Present (session_card ⟨[], [0x00, 0xFF, 0x00, 0xFF, 0x00], []⟩) (List.replicate 100 0)).map
      (fun r => (r.1, r.2.uart.tx)) = some (-(PN532_ERR_TIMEOUT : Int), tx_frame 0x00 [6] []) := by
  refine ⟨by decide, by decide, by decide⟩

end PN532
